import Mathlib

/-!
# blackoutbargain: the command interpreter and puzzle state machine

A shallow embedding of `game/types.go`, `game/commands.go` and
`game/description.go`.

Modelling conventions.

* A Go `string` is a Lean `String`, read as its sequence of runes (the input is
  taken to be valid UTF-8).
* `map[K]V` is an association list with the first binding of a key being the
  one that counts.  `mapGet?` is the two-value read `v, ok := m[k]`,
  `mapHas` its `ok`, `mapVal` the one-value read `m[k]` (zero value when the
  key is missing) and `mapSet` the write `m[k] = v`, which overwrites in place
  or appends.  Both maps of a state are allocated, as `NewGameState` makes them
  (a write to a nil map is outside the model).
* A method with a pointer receiver becomes a function from the state before to
  the state after; `HandleCommand` also returns its boolean.
* `Location` is a Go `int`; it is never computed with, so it is an `Int`.
-/

namespace Game

/-! ## The parts of the Go standard library the interpreter calls -/

/-- Go `unicode.IsSpace`: the runes with the White_Space property. -/
def isSpace (c : Char) : Bool :=
  let n := c.toNat
  (9 ≤ n && n ≤ 13) || n == 32 || n == 0x85 || n == 0xA0 || n == 0x1680 ||
  (0x2000 ≤ n && n ≤ 0x200A) || n == 0x2028 || n == 0x2029 || n == 0x202F ||
  n == 0x205F || n == 0x3000

/-- The rows of Go `unicode.CaseRanges` by which `unicode.ToLower` changes a
rune (Unicode 15.0.0): the runes `Lo` to `Hi`, and the lower case of `Lo`, the
others following at the same distance; 0x110000 in the third place stands for
Go's `UpperLower`, a run of alternating upper and lower case. -/
def caseRanges : List (Nat × Nat × Nat) :=
  [(0x00C0, 0x00D6, 0x00E0), (0x00D8, 0x00DE, 0x00F8), (0x0100, 0x012F, 0x110000),
   (0x0130, 0x0130, 0x0069), (0x0132, 0x0137, 0x110000), (0x0139, 0x0148, 0x110000),
   (0x014A, 0x0177, 0x110000), (0x0178, 0x0178, 0x00FF), (0x0179, 0x017E, 0x110000),
   (0x0181, 0x0181, 0x0253), (0x0182, 0x0185, 0x110000), (0x0186, 0x0186, 0x0254),
   (0x0187, 0x0187, 0x0188), (0x0189, 0x018A, 0x0256), (0x018B, 0x018B, 0x018C),
   (0x018E, 0x018E, 0x01DD), (0x018F, 0x018F, 0x0259), (0x0190, 0x0190, 0x025B),
   (0x0191, 0x0191, 0x0192), (0x0193, 0x0193, 0x0260), (0x0194, 0x0194, 0x0263),
   (0x0196, 0x0196, 0x0269), (0x0197, 0x0197, 0x0268), (0x0198, 0x0198, 0x0199),
   (0x019C, 0x019C, 0x026F), (0x019D, 0x019D, 0x0272), (0x019F, 0x019F, 0x0275),
   (0x01A0, 0x01A5, 0x110000), (0x01A6, 0x01A6, 0x0280), (0x01A7, 0x01A7, 0x01A8),
   (0x01A9, 0x01A9, 0x0283), (0x01AC, 0x01AC, 0x01AD), (0x01AE, 0x01AE, 0x0288),
   (0x01AF, 0x01AF, 0x01B0), (0x01B1, 0x01B2, 0x028A), (0x01B3, 0x01B6, 0x110000),
   (0x01B7, 0x01B7, 0x0292), (0x01B8, 0x01B8, 0x01B9), (0x01BC, 0x01BC, 0x01BD),
   (0x01C4, 0x01C4, 0x01C6), (0x01C5, 0x01C5, 0x01C6), (0x01C7, 0x01C7, 0x01C9),
   (0x01C8, 0x01C8, 0x01C9), (0x01CA, 0x01CA, 0x01CC), (0x01CB, 0x01CB, 0x01CC),
   (0x01CD, 0x01DC, 0x110000), (0x01DE, 0x01EF, 0x110000), (0x01F1, 0x01F1, 0x01F3),
   (0x01F2, 0x01F2, 0x01F3), (0x01F4, 0x01F4, 0x01F5), (0x01F6, 0x01F6, 0x0195),
   (0x01F7, 0x01F7, 0x01BF), (0x01F8, 0x021F, 0x110000), (0x0220, 0x0220, 0x019E),
   (0x0222, 0x0233, 0x110000), (0x023A, 0x023A, 0x2C65), (0x023B, 0x023B, 0x023C),
   (0x023D, 0x023D, 0x019A), (0x023E, 0x023E, 0x2C66), (0x0241, 0x0241, 0x0242),
   (0x0243, 0x0243, 0x0180), (0x0244, 0x0244, 0x0289), (0x0245, 0x0245, 0x028C),
   (0x0246, 0x024F, 0x110000), (0x0370, 0x0373, 0x110000), (0x0376, 0x0376, 0x0377),
   (0x037F, 0x037F, 0x03F3), (0x0386, 0x0386, 0x03AC), (0x0388, 0x038A, 0x03AD),
   (0x038C, 0x038C, 0x03CC), (0x038E, 0x038F, 0x03CD), (0x0391, 0x03A1, 0x03B1),
   (0x03A3, 0x03AB, 0x03C3), (0x03CF, 0x03CF, 0x03D7), (0x03D8, 0x03EF, 0x110000),
   (0x03F4, 0x03F4, 0x03B8), (0x03F7, 0x03F7, 0x03F8), (0x03F9, 0x03F9, 0x03F2),
   (0x03FA, 0x03FA, 0x03FB), (0x03FD, 0x03FF, 0x037B), (0x0400, 0x040F, 0x0450),
   (0x0410, 0x042F, 0x0430), (0x0460, 0x0481, 0x110000), (0x048A, 0x04BF, 0x110000),
   (0x04C0, 0x04C0, 0x04CF), (0x04C1, 0x04CE, 0x110000), (0x04D0, 0x052F, 0x110000),
   (0x0531, 0x0556, 0x0561), (0x10A0, 0x10C5, 0x2D00), (0x10C7, 0x10C7, 0x2D27),
   (0x10CD, 0x10CD, 0x2D2D), (0x13A0, 0x13EF, 0xAB70), (0x13F0, 0x13F5, 0x13F8),
   (0x1C90, 0x1CBA, 0x10D0), (0x1CBD, 0x1CBF, 0x10FD), (0x1E00, 0x1E95, 0x110000),
   (0x1E9E, 0x1E9E, 0x00DF), (0x1EA0, 0x1EFF, 0x110000), (0x1F08, 0x1F0F, 0x1F00),
   (0x1F18, 0x1F1D, 0x1F10), (0x1F28, 0x1F2F, 0x1F20), (0x1F38, 0x1F3F, 0x1F30),
   (0x1F48, 0x1F4D, 0x1F40), (0x1F59, 0x1F59, 0x1F51), (0x1F5B, 0x1F5B, 0x1F53),
   (0x1F5D, 0x1F5D, 0x1F55), (0x1F5F, 0x1F5F, 0x1F57), (0x1F68, 0x1F6F, 0x1F60),
   (0x1F88, 0x1F8F, 0x1F80), (0x1F98, 0x1F9F, 0x1F90), (0x1FA8, 0x1FAF, 0x1FA0),
   (0x1FB8, 0x1FB9, 0x1FB0), (0x1FBA, 0x1FBB, 0x1F70), (0x1FBC, 0x1FBC, 0x1FB3),
   (0x1FC8, 0x1FCB, 0x1F72), (0x1FCC, 0x1FCC, 0x1FC3), (0x1FD8, 0x1FD9, 0x1FD0),
   (0x1FDA, 0x1FDB, 0x1F76), (0x1FE8, 0x1FE9, 0x1FE0), (0x1FEA, 0x1FEB, 0x1F7A),
   (0x1FEC, 0x1FEC, 0x1FE5), (0x1FF8, 0x1FF9, 0x1F78), (0x1FFA, 0x1FFB, 0x1F7C),
   (0x1FFC, 0x1FFC, 0x1FF3), (0x2126, 0x2126, 0x03C9), (0x212A, 0x212A, 0x006B),
   (0x212B, 0x212B, 0x00E5), (0x2132, 0x2132, 0x214E), (0x2160, 0x216F, 0x2170),
   (0x2183, 0x2183, 0x2184), (0x24B6, 0x24CF, 0x24D0), (0x2C00, 0x2C2F, 0x2C30),
   (0x2C60, 0x2C60, 0x2C61), (0x2C62, 0x2C62, 0x026B), (0x2C63, 0x2C63, 0x1D7D),
   (0x2C64, 0x2C64, 0x027D), (0x2C67, 0x2C6C, 0x110000), (0x2C6D, 0x2C6D, 0x0251),
   (0x2C6E, 0x2C6E, 0x0271), (0x2C6F, 0x2C6F, 0x0250), (0x2C70, 0x2C70, 0x0252),
   (0x2C72, 0x2C72, 0x2C73), (0x2C75, 0x2C75, 0x2C76), (0x2C7E, 0x2C7F, 0x023F),
   (0x2C80, 0x2CE3, 0x110000), (0x2CEB, 0x2CEE, 0x110000), (0x2CF2, 0x2CF2, 0x2CF3),
   (0xA640, 0xA66D, 0x110000), (0xA680, 0xA69B, 0x110000), (0xA722, 0xA72F, 0x110000),
   (0xA732, 0xA76F, 0x110000), (0xA779, 0xA77C, 0x110000), (0xA77D, 0xA77D, 0x1D79),
   (0xA77E, 0xA787, 0x110000), (0xA78B, 0xA78B, 0xA78C), (0xA78D, 0xA78D, 0x0265),
   (0xA790, 0xA793, 0x110000), (0xA796, 0xA7A9, 0x110000), (0xA7AA, 0xA7AA, 0x0266),
   (0xA7AB, 0xA7AB, 0x025C), (0xA7AC, 0xA7AC, 0x0261), (0xA7AD, 0xA7AD, 0x026C),
   (0xA7AE, 0xA7AE, 0x026A), (0xA7B0, 0xA7B0, 0x029E), (0xA7B1, 0xA7B1, 0x0287),
   (0xA7B2, 0xA7B2, 0x029D), (0xA7B3, 0xA7B3, 0xAB53), (0xA7B4, 0xA7C3, 0x110000),
   (0xA7C4, 0xA7C4, 0xA794), (0xA7C5, 0xA7C5, 0x0282), (0xA7C6, 0xA7C6, 0x1D8E),
   (0xA7C7, 0xA7CA, 0x110000), (0xA7D0, 0xA7D0, 0xA7D1), (0xA7D6, 0xA7D9, 0x110000),
   (0xA7F5, 0xA7F5, 0xA7F6), (0xFF21, 0xFF3A, 0xFF41), (0x10400, 0x10427, 0x10428),
   (0x104B0, 0x104D3, 0x104D8), (0x10570, 0x1057A, 0x10597), (0x1057C, 0x1058A, 0x105A3),
   (0x1058C, 0x10592, 0x105B3), (0x10594, 0x10595, 0x105BB), (0x10C80, 0x10CB2, 0x10CC0),
   (0x118A0, 0x118BF, 0x118C0), (0x16E40, 0x16E5F, 0x16E60), (0x1E900, 0x1E921, 0x1E922)]

/-- Go `unicode.to` for `LowerCase` on the row that holds the rune. -/
def lowerInRow (r : Nat × Nat × Nat) (n : Nat) : Nat :=
  if r.2.2 = 0x110000 then r.1 + ((n - r.1) / 2 * 2 + 1) else r.2.2 + (n - r.1)

/-- Go `unicode.to` for `LowerCase`: the search for the row of the rune. -/
def lowerIn : List (Nat × Nat × Nat) → Nat → Nat
  | [], n => n
  | r :: rest, n => if r.1 ≤ n ∧ n ≤ r.2.1 then lowerInRow r n else lowerIn rest n

/-- Go `unicode.ToLower` on one rune: ASCII first, as in Go, and the case
table for every other rune. -/
def toLowerRune (c : Char) : Char :=
  if c.toNat ≤ 127 then
    if 65 ≤ c.toNat ∧ c.toNat ≤ 90 then Char.ofNat (c.toNat + 32) else c
  else Char.ofNat (lowerIn caseRanges c.toNat)

/-- Go `strings.ToLower`. -/
def ToLower (s : String) : String := ⟨s.data.map toLowerRune⟩

/-- The scanning loop of `strings.Fields`: `cur` is the field being read, in
reverse. -/
def fieldsAux (cur : List Char) : List Char → List String
  | [] => if cur.isEmpty then [] else [⟨cur.reverse⟩]
  | c :: cs =>
    if isSpace c then
      if cur.isEmpty then fieldsAux [] cs else ⟨cur.reverse⟩ :: fieldsAux [] cs
    else fieldsAux (c :: cur) cs

/-- Go `strings.Fields`: the maximal runs of non-space runes. -/
def Fields (s : String) : List String := fieldsAux [] s.data

/-- Go `strings.Join`. -/
def Join : List String → String → String
  | [], _ => ""
  | [a], _ => a
  | a :: b :: rest, sep => a ++ sep ++ Join (b :: rest) sep

/-- Substring search on rune lists. -/
def containsAux (sub : List Char) : List Char → Bool
  | [] => sub.isEmpty
  | c :: cs => sub.isPrefixOf (c :: cs) || containsAux sub cs

/-- Go `strings.Contains`. -/
def Contains (s substr : String) : Bool := containsAux substr.data s.data

/-! ## Maps -/

/-- The two-value read `v, ok := m[k]`. -/
def mapGet? {β : Type} : List (String × β) → String → Option β
  | [], _ => none
  | (k', v) :: rest, k => if k' = k then some v else mapGet? rest k

/-- The `ok` of `_, ok := m[k]`. -/
def mapHas {β : Type} (m : List (String × β)) (k : String) : Bool :=
  (mapGet? m k).isSome

/-- The one-value read `m[k]` with the zero value `zero` for a missing key. -/
def mapVal {β : Type} (zero : β) (m : List (String × β)) (k : String) : β :=
  (mapGet? m k).getD zero

/-- The write `m[k] = v`. -/
def mapSet {β : Type} : List (String × β) → String → β → List (String × β)
  | [], k, v => [(k, v)]
  | (k', v') :: rest, k, v =>
    if k' = k then (k, v) :: rest else (k', v') :: mapSet rest k v

/-! ## `types.go` -/

abbrev Location := Int

def LocRegister : Location := 0
def LocSecurityStation : Location := 1
def LocLockerArea : Location := 2
def LocManagersOffice : Location := 3
def LocLoadingDock : Location := 4
def LocEscaped : Location := 5

abbrev Item := String

def ItemVoucher : Item := "crumpled employee discount voucher"
def ItemScanner : Item := "Dale's handheld scanner"
def ItemNotebook : Item := "small notebook"
def ItemCard : Item := "laminated emergency procedure card"
def ItemInventory : Item := "daily inventory printout"
def ItemOverrideKey : Item := "Manual Override Key"

structure GameState where
  Location : Location
  Inventory : List (Item × Bool)
  Clues : List (String × String)
  GameOver : Bool
  Message : String
  CurrentInput : String
  InputRequired : String
deriving DecidableEq, Repr

def NewGameState : GameState :=
  { Location := LocRegister, Inventory := [], Clues := [], GameOver := false,
    Message := "", CurrentInput := "", InputRequired := "" }

/-! ## `description.go` -/

/-- The keys of a map, each once, in the order the association list holds
them: one of the orders a Go `range` may take. -/
def mapKeys {β : Type} : List (String × β) → List String
  | [] => []
  | (k, _) :: rest => k :: (mapKeys rest).filter (fun k' => k' ≠ k)

def GetLocationName (gs : GameState) : String :=
  if gs.Location = LocRegister then "Near Register 4 (Front)"
  else if gs.Location = LocSecurityStation then "Security Station (Electronics)"
  else if gs.Location = LocLockerArea then "Employee Locker Area"
  else if gs.Location = LocManagersOffice then "Manager's Office"
  else if gs.Location = LocLoadingDock then "Loading Dock (Back)"
  else if gs.Location = LocEscaped then "Outside (Escaped)"
  else "Unknown Location"

def GetLocationDescription (gs : GameState) : String :=
  if gs.Location = LocRegister then
    "The Superstore is eerily dark, lit only by emergency signs. Thunder rattles the windows. You're near Register 4 with Brenda and Gary. The main doors are dead silent and locked."
  else if gs.Location = LocSecurityStation then
    "You're at the security station in the dimly lit electronics section. Dale's body is slumped against the dark monitors."
  else if gs.Location = LocLockerArea then
    let desc := "You are standing near the employee lockers. Dale's locker is here."
    if mapHas gs.Clues "locker_opened" then desc ++ " It's open."
    else desc ++ " It looks locked."
  else if gs.Location = LocManagersOffice then
    "You are inside the cramped manager's office. There's a desk, a corkboard, and a small safe embedded in the wall."
  else if gs.Location = LocLoadingDock then
    let desc := "You've reached the loading dock area at the back of the store. The storm howls louder here."
    if mapHas gs.Clues "door_unlocked" then
      desc ++ "\nThe heavy loading door stands slightly ajar, unlocked!"
    else desc ++ "\nA large breaker panel is on the wall next to the sealed loading door."
  else if gs.Location = LocEscaped then "You are outside in the raging storm."
  else "You are somewhere..."

/-- The slice `items` that `GetVisibleItems` builds before joining it. -/
def visibleItems (gs : GameState) : List String :=
  if gs.Location = LocSecurityStation then
    (if !mapVal false gs.Inventory ItemVoucher then [ItemVoucher] else []) ++
    (if !mapVal false gs.Inventory ItemScanner then [ItemScanner] else [])
  else if gs.Location = LocLockerArea then
    (if mapHas gs.Clues "locker_opened" && !mapVal false gs.Inventory ItemNotebook
      then [ItemNotebook] else [])
  else if gs.Location = LocManagersOffice then
    (if !mapVal false gs.Inventory ItemCard then [ItemCard] else []) ++
    (if !mapVal false gs.Inventory ItemInventory then [ItemInventory] else []) ++
    (if mapHas gs.Clues "safe_opened" && !mapVal false gs.Inventory ItemOverrideKey
      then [ItemOverrideKey] else [])
  else []

def GetVisibleItems (gs : GameState) : String :=
  let items := visibleItems gs
  if items.length > 0 then "You see: " ++ Join items ", " ++ "." else ""

/-- `GetInventoryDescription` when its `range` over the Inventory map yields
the keys in the order in which the association list holds them.  Go leaves the
order of a `range` over a map open: `renderInventory` gives the listing for
any order, and `HandleCommandIn` the interpreter under it. -/
def GetInventoryDescription (gs : GameState) : String :=
  if (mapKeys gs.Inventory).length = 0 then "Inventory: Empty."
  else "Inventory: " ++ Join (mapKeys gs.Inventory) ", " ++ "."

/-! ## `commands.go` -/

def handleExamineFallback (gs : GameState) (objectName : String) : GameState :=
  let target : Item := ToLower objectName
  if mapHas gs.Inventory target then
    if target = ItemVoucher then
      { gs with Message := "Voucher: Back says AISLE 13 // LAST SCAN." }
    else if target = ItemScanner then
      { gs with Message := "Scanner: Frozen on Product ID: 8675309." }
    else if target = ItemNotebook then
      { gs with Message := "Notebook: Mentions Brenda/Gary, OVERSTOCK alarm, Map." }
    else if target = ItemCard then
      { gs with Message := "Card: Needs Key (safe) & Code ('OVERSTOCK' from Inventory)." }
    else if target = ItemInventory then
      { gs with Message := "Inventory Sheet: OVERSTOCK -> Code: 4711." }
    else if target = ItemOverrideKey then
      { gs with Message := "Key: Labeled 'Manual Override'." }
    else { gs with Message := "You look closely at the " ++ target ++ "." }
  else
    let base : String :=
      if gs.Location = LocRegister then "It's dark. Emergency lights glow. Main doors locked."
      else if gs.Location = LocSecurityStation then
        "Dale's body is here. Monitors dark. Scanner nearby? Voucher clutched?"
      else if gs.Location = LocLockerArea then "Dale's locker. Is it locked or open?"
      else if gs.Location = LocManagersOffice then "Office: Desk, Corkboard (Card?), Safe."
      else if gs.Location = LocLoadingDock then "Loading Dock: Breaker Panel, heavy door."
      else "You look around."
    let hints : String :=
      if gs.Location = LocSecurityStation then
        (if !mapVal false gs.Inventory ItemVoucher then " Dale clutches a voucher." else "") ++
        (if !mapVal false gs.Inventory ItemScanner then " A scanner lies nearby." else "")
      else if gs.Location = LocLockerArea then
        (if mapHas gs.Clues "locker_opened" && !mapVal false gs.Inventory ItemNotebook
          then " A notebook is inside the open locker." else "")
      else if gs.Location = LocManagersOffice then
        (if !mapVal false gs.Inventory ItemCard then " A card is pinned to the board." else "") ++
        (if !mapVal false gs.Inventory ItemInventory
          then " An inventory sheet is on the desk." else "") ++
        (if mapHas gs.Clues "safe_opened" && !mapVal false gs.Inventory ItemOverrideKey
          then " A key sits inside the open safe." else "")
      else ""
    { gs with Message := base ++ hints }

def IsCriticalUse (gs : GameState) (input : String) : Bool :=
  let lowerInput := ToLower input
  if gs.Location = LocLockerArea ∧ Contains lowerInput "8675309" then true
  else if gs.Location = LocManagersOffice ∧ Contains lowerInput "4711" then true
  else if gs.Location = LocLoadingDock ∧ mapHas gs.Inventory ItemOverrideKey = true ∧
      (Contains lowerInput "key" || Contains lowerInput "overstock" ||
        Contains lowerInput "683778625") = true then true
  else false

/-- The `switch gs.Location` of `handleGo`: the state it leaves and the flag
`moved`. -/
def goSwitch (gs : GameState) (destination : String) : GameState × Bool :=
  if gs.Location = LocRegister then
    if Contains destination "security" || Contains destination "electronics" ||
        Contains destination "back" || Contains destination "scream" then
      ({ gs with
          Location := LocSecurityStation
          Message := "You hurry towards the back of the store, near the electronics section where the scream came from." },
        true)
    else (gs, false)
  else if gs.Location = LocSecurityStation then
    if Contains destination "locker" then
      ({ gs with
          Location := LocLockerArea
          Message := "You move towards the nearby employee lockers, focusing on Dale's." },
        true)
    else if Contains destination "office" || Contains destination "manager" then
      ({ gs with
          Location := LocManagersOffice
          Message := "You head towards the small manager's office behind the customer service area." },
        true)
    else if Contains destination "loading" || Contains destination "dock" ||
        Contains destination "breaker" then
      if mapHas gs.Clues "map_details" then
        ({ gs with
            Location := LocLoadingDock
            Message := "Following the crude map from Dale's notebook, you find the loading dock area." },
          true)
      else
        ({ gs with
            Message := "You aren't sure exactly where the loading dock or the specific breaker panel is." },
          false)
    else if Contains destination "register" || Contains destination "front" then
      ({ gs with
          Location := LocRegister
          Message := "You head back towards the front registers." },
        true)
    else (gs, false)
  else if gs.Location = LocLockerArea then
    if Contains destination "security" then
      ({ gs with
          Location := LocSecurityStation
          Message := "You step away from the lockers and back to the main security station area." },
        true)
    else (gs, false)
  else if gs.Location = LocManagersOffice then
    if Contains destination "security" || Contains destination "customer service" then
      ({ gs with
          Location := LocSecurityStation
          Message := "You leave the manager's office, heading back towards the security station." },
        true)
    else if Contains destination "loading" || Contains destination "dock" ||
        Contains destination "breaker" then
      if mapHas gs.Clues "map_details" then
        ({ gs with
            Location := LocLoadingDock
            Message := "You head from the office towards the loading dock, following the map's directions." },
          true)
      else
        ({ gs with
            Message := "You don't know the specific route to the loading dock from here without the map details." },
          false)
    else (gs, false)
  else if gs.Location = LocLoadingDock then
    if Contains destination "office" then
      ({ gs with
          Location := LocManagersOffice
          Message := "You head back towards the manager's office area." },
        true)
    else if Contains destination "security" then
      ({ gs with
          Location := LocSecurityStation
          Message := "You move back towards the main security station area." },
        true)
    else (gs, false)
  else (gs, false)

def handleGo (gs : GameState) (destination : String) : GameState :=
  let r := goSwitch gs destination
  if !r.2 && destination ≠ "" then
    { r.1 with
        Message := "You can't find a way to '" ++ destination ++
          "' from here, or you don't know where that is." }
  else if destination = "" then
    { r.1 with Message := "Where do you want to go? (e.g., 'go security', 'go office')" }
  else r.1

/-- How the `switch gs.Location` of `handleTake` ends: it falls through to the
feedback message with the flag `taken`, or the function returns early. -/
inductive TakeOutcome where
  | fallsThrough (gs : GameState) (taken : Bool)
  | returned (gs : GameState)

/-- The `switch gs.Location` of `handleTake`. -/
def takeSwitch (gs : GameState) (target : Item) : TakeOutcome :=
  if gs.Location = LocSecurityStation then
    if target = ItemVoucher then
      .fallsThrough { gs with Inventory := mapSet gs.Inventory ItemVoucher true } true
    else if target = ItemScanner then
      .fallsThrough { gs with Inventory := mapSet gs.Inventory ItemScanner true } true
    else .fallsThrough gs false
  else if gs.Location = LocLockerArea then
    if target = ItemNotebook then
      if mapHas gs.Clues "locker_opened" then
        .fallsThrough { gs with Inventory := mapSet gs.Inventory ItemNotebook true } true
      else .returned { gs with Message := "The locker needs to be open first." }
    else .fallsThrough gs false
  else if gs.Location = LocManagersOffice then
    if target = ItemCard then
      .fallsThrough { gs with Inventory := mapSet gs.Inventory ItemCard true } true
    else if target = ItemInventory then
      .fallsThrough { gs with Inventory := mapSet gs.Inventory ItemInventory true } true
    else if target = ItemOverrideKey then
      if mapHas gs.Clues "safe_opened" then
        .fallsThrough { gs with Inventory := mapSet gs.Inventory ItemOverrideKey true } true
      else .returned { gs with Message := "The safe needs to be open first." }
    else .fallsThrough gs false
  else .fallsThrough gs false

def handleTake (gs : GameState) (objectName : String) : GameState :=
  let target : Item := ToLower objectName
  let alreadyHave := mapHas gs.Inventory target
  match (if !alreadyHave then takeSwitch gs target else .fallsThrough gs false) with
  | .returned gs1 => gs1
  | .fallsThrough gs1 taken =>
    if taken then { gs1 with Message := "You take the " ++ target ++ "." }
    else if alreadyHave then { gs1 with Message := "You already have the " ++ target ++ "." }
    else { gs1 with Message := "You don't see a '" ++ objectName ++ "' you can take here." }

def handleCriticalUse (gs : GameState) (objectName fullInput : String) : GameState :=
  let lowerFullInput := ToLower fullInput
  if gs.Location = LocLockerArea then
    if Contains lowerFullInput "8675309" then
      { gs with
          Message := "Enter the code for the locker:"
          InputRequired := "locker_code"
          CurrentInput := "" }
    else { gs with Message := "To use the code on the locker, try 'use 8675309'." }
  else if gs.Location = LocManagersOffice then
    if Contains lowerFullInput "4711" then
      { gs with
          Message := "Enter the code for the safe:"
          InputRequired := "safe_code"
          CurrentInput := "" }
    else { gs with Message := "To use the code on the safe, try 'use 4711'." }
  else if gs.Location = LocLoadingDock then
    let hasKeyInInventory := mapVal false gs.Inventory ItemOverrideKey
    let mentionsKey := Contains lowerFullInput "key"
    let mentionsCode :=
      Contains lowerFullInput "overstock" || Contains lowerFullInput "683778625"
    if (mentionsKey || mentionsCode) && hasKeyInInventory then
      { gs with
          Message := "You insert the Manual Override Key into the panel slot. Now, enter the activation code (OVERSTOCK or keypad numbers):"
          InputRequired := "breaker_code"
          CurrentInput := "" }
    else if (mentionsKey || mentionsCode) && !hasKeyInInventory then
      { gs with
          Message := "You need the Manual Override Key first. Find it in the manager's safe and 'take' it." }
    else
      { gs with
          Message := "To use the breaker panel, try 'use key' or 'use overstock' once you have the key." }
  else { gs with Message := "You can't use '" ++ objectName ++ "' in that specific way here." }

/-- The body of `case "locker_code"` up to the `return true`, on the lowered
line. -/
def lockerCodeCase (gs : GameState) (input : String) : GameState :=
  let gs1 : GameState :=
    if input = "8675309" then
      let g : GameState :=
        { gs with
            Message := "Click! The locker swings open."
            Clues := mapSet gs.Clues "locker_opened" "true" }
      if !mapVal false g.Inventory ItemNotebook then
        { g with
            Inventory := mapSet g.Inventory ItemNotebook true
            Message := g.Message ++ ("\nYou find a " ++ ItemNotebook ++ " inside and take it.") }
      else { g with Message := g.Message ++ "\nIt's empty now." }
    else { gs with Message := "Incorrect code. The lock doesn't budge." }
  { gs1 with InputRequired := "" }

/-- The body of `case "safe_code"` up to the `return true`. -/
def safeCodeCase (gs : GameState) (input : String) : GameState :=
  let gs1 : GameState :=
    if input = "4711" then
      let g : GameState :=
        { gs with
            Message := "Click! The safe door opens."
            Clues := mapSet gs.Clues "safe_opened" "true" }
      if !mapVal false g.Inventory ItemOverrideKey then
        { g with
            Inventory := mapSet g.Inventory ItemOverrideKey true
            Message := g.Message ++ ("\nYou find the " ++ ItemOverrideKey ++ " inside and take it.") }
      else { g with Message := g.Message ++ "\nIt's empty now." }
    else { gs with Message := "Incorrect code. The safe remains locked." }
  { gs1 with InputRequired := "" }

/-- The body of `case "breaker_code"` up to the `return true`. -/
def breakerCodeCase (gs : GameState) (input : String) : GameState :=
  let correctCode : Bool := input = "overstock" || input = "683778625"
  let hasKey := mapHas gs.Inventory ItemOverrideKey
  let gs1 : GameState :=
    if correctCode && hasKey then
      let g : GameState :=
        { gs with
            Message := "CLUNK! A heavy sound echoes - the main magnetic door locks release.\nSuddenly, Gary lunges! 'You meddling kids!' From the shadows, Brenda appears, holding a wrench. 'Dale knew you were skimming, Gary!' she shouts.\nAfter a brief struggle, Gary is subdued near the loading dock door's manual release lever."
            Clues := mapSet gs.Clues "door_unlocked" "true" }
      { g with Message := g.Message ++ "\nYou can now 'escape' through the loading dock door." }
    else if !hasKey then
      { gs with Message := "You need the Manual Override Key inserted to activate the panel." }
    else { gs with Message := "Incorrect code entered on the keypad. Nothing happens." }
  { gs1 with InputRequired := "" }

/-- The `switch gs.InputRequired` of `HandleCommand` on the lowered line: the
state a matching case returns with, or `none` when no case matches and the
function goes on to parse a command. -/
def codeSwitch (gs : GameState) (input : String) : Option GameState :=
  if gs.InputRequired = "locker_code" then some (lockerCodeCase gs input)
  else if gs.InputRequired = "safe_code" then some (safeCodeCase gs input)
  else if gs.InputRequired = "breaker_code" then some (breakerCodeCase gs input)
  else none

/-- The body of `case "escape"`. -/
def escapeCase (gs : GameState) : GameState :=
  if gs.Location = LocLoadingDock ∧ mapVal "" gs.Clues "door_unlocked" = "true" then
    { gs with GameOver := true }
  else if gs.Location = LocLoadingDock then
    { gs with
        Message := "You try the heavy loading dock door, but it's still magnetically locked." }
  else
    { gs with
        Message := "You can't escape from here. You need to reach the unlocked loading dock door." }

/-- The verb dispatch of `HandleCommand`, on the lowered line. -/
def dispatch (gs : GameState) (input : String) : GameState × Bool :=
  match Fields input with
  | [] =>
    ({ gs with
        Message := "Please enter a command like 'look', 'go security', 'take voucher', 'use 8675309', 'inventory', or 'help'." },
      false)
  | verb :: rest =>
    let object : String := if rest.length > 0 then Join rest " " else ""
    if verb = "go" ∨ verb = "g" then (handleGo gs object, true)
    else if verb = "take" ∨ verb = "t" then (handleTake gs object, true)
    else if verb = "use" ∨ verb = "u" then (handleCriticalUse gs object input, true)
    else if verb = "inventory" ∨ verb = "i" ∨ verb = "inv" then
      ({ gs with Message := GetInventoryDescription gs }, true)
    else if verb = "help" ∨ verb = "h" then
      ({ gs with
          Message := "Commands: look (l), go [place] (g), examine [item/area] (x), take [item] (t), use [item/code] (u), inventory (i), help (h), escape. \nUse 'examine' or 'look' for more details (handled by AI if available)." },
        true)
    else if verb = "escape" then (escapeCase gs, true)
    else if verb = "look" ∨ verb = "l" ∨ verb = "examine" ∨ verb = "x" then
      (handleExamineFallback gs object, false)
    else ({ gs with Message := "I don't understand '" ++ verb ++ "'. Try 'help'." }, false)

def HandleCommand (gs : GameState) (input : String) : GameState × Bool :=
  let input := ToLower input
  match (if gs.InputRequired ≠ "" then codeSwitch gs input else none) with
  | some gs1 => (gs1, true)
  | none => dispatch gs input

/-- A session: the command lines handled one after another. -/
def run (gs : GameState) : List String → GameState
  | [] => gs
  | line :: rest => run (HandleCommand gs line).1 rest

/-! ## Notions used to state the properties -/

/-- The text `a` equals the text `b` ignoring letter case. -/
def equalsIgnoringCase (a b : String) : Prop := ToLower a = ToLower b

instance decEqualsIgnoringCase (a b : String) : Decidable (equalsIgnoringCase a b) :=
  inferInstanceAs (Decidable (ToLower a = ToLower b))

/-- The breaker code is correct: the line is "overstock" in any letter case, or
the keypad digits. -/
def breakerCodeCorrect (line : String) : Prop :=
  equalsIgnoringCase line "overstock" ∨ line = "683778625"

/-- The places and targets at which the `switch` of `handleTake` grants the
target. -/
def takeGrants (gs : GameState) (t : Item) : Prop :=
  (gs.Location = LocSecurityStation ∧ t = ItemVoucher) ∨
  (gs.Location = LocLockerArea ∧ t = ItemNotebook ∧ mapHas gs.Clues "locker_opened" = true) ∨
  (gs.Location = LocManagersOffice ∧ (t = ItemCard ∨ t = ItemInventory))

/-- No map yet, not at the loading dock, not escaped. -/
def noMapYet (gs : GameState) : Prop :=
  mapGet? gs.Clues "map_details" = none ∧ gs.Location ≠ LocLoadingDock ∧ gs.GameOver = false

/-- A state in the breaker dialog at the loading dock, holding the key. -/
def atPanelWithKey : GameState :=
  { NewGameState with
      Location := LocLoadingDock
      Inventory := [(ItemOverrideKey, true)]
      InputRequired := "breaker_code" }

/-- At the security station, holding the voucher. -/
def holdingVoucher : GameState :=
  { NewGameState with Location := LocSecurityStation, Inventory := [(ItemVoucher, true)] }

/-- The object the dispatcher builds from the words after the verb. -/
def objectOf (rest : List String) : String := if rest.length > 0 then Join rest " " else ""

/-- An edge of the movement graph as `handleGo` checks it: the keywords that
select it, its target, and whether it asks for the fact map_details. -/
structure Edge where
  keywords : List String
  target : Location
  needsMap : Bool
deriving DecidableEq, Repr

/-- The edges leaving a location, in the order in which the `if`/`else if`
chain of `handleGo` checks them. -/
def edgesFrom (loc : Location) : List Edge :=
  if loc = LocRegister then
    [⟨["security", "electronics", "back", "scream"], LocSecurityStation, false⟩]
  else if loc = LocSecurityStation then
    [⟨["locker"], LocLockerArea, false⟩,
     ⟨["office", "manager"], LocManagersOffice, false⟩,
     ⟨["loading", "dock", "breaker"], LocLoadingDock, true⟩,
     ⟨["register", "front"], LocRegister, false⟩]
  else if loc = LocLockerArea then [⟨["security"], LocSecurityStation, false⟩]
  else if loc = LocManagersOffice then
    [⟨["security", "customer service"], LocSecurityStation, false⟩,
     ⟨["loading", "dock", "breaker"], LocLoadingDock, true⟩]
  else if loc = LocLoadingDock then
    [⟨["office"], LocManagersOffice, false⟩, ⟨["security"], LocSecurityStation, false⟩]
  else []

/-- The destination text contains a keyword of the edge. -/
def edgeMatches (d : String) (e : Edge) : Bool := e.keywords.any (fun kw => Contains d kw)

/-- The prerequisite of the edge is satisfied in the state. -/
def edgeOpen (gs : GameState) (e : Edge) : Bool := !e.needsMap || mapHas gs.Clues "map_details"

/-- The first edge leaving the current location, in checking order, one of
whose keywords the destination text contains. -/
def firstMatch (gs : GameState) (d : String) : Option Edge :=
  (edgesFrom gs.Location).find? (edgeMatches d)

/-- At the security station with nothing held and no fact recorded. -/
def atSecurityStation : GameState := { NewGameState with Location := LocSecurityStation }

/-- At the security station with the fact map_details recorded. -/
def atSecurityWithMap : GameState :=
  { NewGameState with Location := LocSecurityStation, Clues := [("map_details", "true")] }

/-- One of the three code dialogs is active. -/
def dialogActive (gs : GameState) : Prop :=
  gs.InputRequired = "locker_code" ∨ gs.InputRequired = "safe_code" ∨
    gs.InputRequired = "breaker_code"

/-- The line is empty or made of white space only. -/
def isBlank (s : String) : Bool := s.data.all isSpace

/-- Every entry of the Inventory map has the value true. -/
def allEntriesHeld (gs : GameState) : Prop :=
  ∀ k b, mapGet? gs.Inventory k = some b → b = true

/-- At the loading dock with an OverrideKey entry in Inventory. -/
def atDockWithKey : GameState :=
  { NewGameState with Location := LocLoadingDock, Inventory := [(ItemOverrideKey, true)] }

/-- The six items, in declaration order. -/
def allItems : List Item :=
  [ItemVoucher, ItemScanner, ItemNotebook, ItemCard, ItemInventory, ItemOverrideKey]

/-- The items a location offers, in the order in which `GetVisibleItems`
lists them, each with the fact it requires, if any. -/
def itemsAt (loc : Location) : List (Item × Option String) :=
  if loc = LocSecurityStation then [(ItemVoucher, none), (ItemScanner, none)]
  else if loc = LocLockerArea then [(ItemNotebook, some "locker_opened")]
  else if loc = LocManagersOffice then
    [(ItemCard, none), (ItemInventory, none), (ItemOverrideKey, some "safe_opened")]
  else []

/-- The item is not held (its Inventory value is not true) and the fact it
requires, if any, is present. -/
def takeable (gs : GameState) (p : Item × Option String) : Bool :=
  !mapVal false gs.Inventory p.1 &&
    (match p.2 with
     | none => true
     | some fact => mapHas gs.Clues fact)

/-- The visible items as the specification words them: the items of the
current location that are not held and whose prerequisite fact is present. -/
def visibleBySpec (gs : GameState) : List Item :=
  ((itemsAt gs.Location).filter (takeable gs)).map Prod.fst

/-- The environmental text of a location in the examine fallback. -/
def environmentText (loc : Location) : String :=
  if loc = LocRegister then "It's dark. Emergency lights glow. Main doors locked."
  else if loc = LocSecurityStation then
    "Dale's body is here. Monitors dark. Scanner nearby? Voucher clutched?"
  else if loc = LocLockerArea then "Dale's locker. Is it locked or open?"
  else if loc = LocManagersOffice then "Office: Desk, Corkboard (Card?), Safe."
  else if loc = LocLoadingDock then "Loading Dock: Breaker Panel, heavy door."
  else "You look around."

/-- The hint the examine fallback gives for an item lying at its location. -/
def hintOf (i : Item) : String :=
  if i = ItemVoucher then " Dale clutches a voucher."
  else if i = ItemScanner then " A scanner lies nearby."
  else if i = ItemNotebook then " A notebook is inside the open locker."
  else if i = ItemCard then " A card is pinned to the board."
  else if i = ItemInventory then " An inventory sheet is on the desk."
  else if i = ItemOverrideKey then " A key sits inside the open safe."
  else ""

/-- The texts one after another. -/
def concatAll : List String → String
  | [] => ""
  | a :: rest => a ++ concatAll rest

/-- The text `GetInventoryDescription` builds from the item names in the
order in which the `range` over the map yields them. -/
def renderInventory (names : List String) : String :=
  if names.length = 0 then "Inventory: Empty."
  else "Inventory: " ++ Join names ", " ++ "."

/-- The prerequisite invariant, with "in Inventory" read as having an entry. -/
def prerequisitesMet (gs : GameState) : Prop :=
  (mapHas gs.Inventory ItemNotebook = true → mapHas gs.Clues "locker_opened" = true) ∧
  (mapHas gs.Inventory ItemOverrideKey = true → mapHas gs.Clues "safe_opened" = true)

/-- The prerequisite invariant, with "in Inventory" read as having the value
true. -/
def prerequisitesMetOfHeld (gs : GameState) : Prop :=
  (mapVal false gs.Inventory ItemNotebook = true → mapHas gs.Clues "locker_opened" = true) ∧
  (mapVal false gs.Inventory ItemOverrideKey = true → mapHas gs.Clues "safe_opened" = true)

/-- The input-mode invariant: no dialog, or the dialog of the current
location, the breaker dialog only with the OverrideKey held. -/
def inputModeOk (gs : GameState) : Prop :=
  gs.InputRequired = "" ∨
  (gs.InputRequired = "locker_code" ∧ gs.Location = LocLockerArea) ∨
  (gs.InputRequired = "safe_code" ∧ gs.Location = LocManagersOffice) ∨
  (gs.InputRequired = "breaker_code" ∧ gs.Location = LocLoadingDock ∧
    mapVal false gs.Inventory ItemOverrideKey = true)

/-- In the locker dialog at the locker area with the Notebook held. -/
def lockerDialogHolding : GameState :=
  { NewGameState with
      Location := LocLockerArea
      Inventory := [(ItemNotebook, true)]
      Clues := [("locker_opened", "true")]
      InputRequired := "locker_code" }

/-- The adjacency table of the locations. -/
def neighbours (loc : Location) : List Location :=
  if loc = LocRegister then [LocSecurityStation]
  else if loc = LocSecurityStation then
    [LocLockerArea, LocManagersOffice, LocLoadingDock, LocRegister]
  else if loc = LocLockerArea then [LocSecurityStation]
  else if loc = LocManagersOffice then [LocSecurityStation, LocLoadingDock]
  else if loc = LocLoadingDock then [LocManagersOffice, LocSecurityStation]
  else []

/-- The runes of a line with leading and trailing white space removed and
every run of white space between words replaced by one space.  `started`
tells that a word has been read, `pending` that white space has been passed
since the last word. -/
def squeezeSpaces (started pending : Bool) : List Char → List Char
  | [] => []
  | c :: cs =>
    if isSpace c then squeezeSpaces started started cs
    else if pending then ' ' :: c :: squeezeSpaces true false cs
    else c :: squeezeSpaces true false cs

/-- The line with leading and trailing white space removed and every run of
white space between words replaced by a single space. -/
def normalizeSpaces (s : String) : String := ⟨squeezeSpaces false false s.data⟩

/-- The command is an escape that succeeds: no dialog is active, the first
word of the lowered line is "escape", the player is at the loading dock and
the fact door_unlocked has the value "true". -/
def escapeSucceeds (gs : GameState) (line : String) : Prop :=
  ¬dialogActive gs ∧ (∃ rest, Fields (ToLower line) = "escape" :: rest) ∧
    gs.Location = LocLoadingDock ∧ mapGet? gs.Clues "door_unlocked" = some "true"

/-- At the loading dock with the door unlocked and a message on display. -/
def readyToEscape (msg : String) : GameState :=
  { NewGameState with
      Location := LocLoadingDock
      Clues := [("door_unlocked", "true")]
      Message := msg }

/-- The first and the last rune that a row maps to. -/
def imageOf (r : Nat × Nat × Nat) : Nat × Nat :=
  if r.2.2 = 0x110000 then (r.1, r.2.1) else (r.2.2, r.2.2 + (r.2.1 - r.1))

/-- No rune from `x` to `y` is white space. -/
def spaceFree (x y : Nat) : Bool :=
  (Nat.blt 13 x || Nat.blt y 9) && (Nat.blt 32 x || Nat.blt y 32) &&
  (Nat.blt 0x85 x || Nat.blt y 0x85) && (Nat.blt 0xA0 x || Nat.blt y 0xA0) &&
  (Nat.blt 0x1680 x || Nat.blt y 0x1680) && (Nat.blt 0x200A x || Nat.blt y 0x2000) &&
  (Nat.blt 0x2029 x || Nat.blt y 0x2028) && (Nat.blt 0x202F x || Nat.blt y 0x202F) &&
  (Nat.blt 0x205F x || Nat.blt y 0x205F) && (Nat.blt 0x3000 x || Nat.blt y 0x3000)

/-- What the lemmas on lowering need of a row `s` of the table `rows`: it
lies outside ASCII, an alternating run ends on a lower case, the lower cases
are valid runes, a lower case in ASCII is a letter from a to z, neither the
runes of the row nor their lower cases are white space, and no row changes a
lower case of this row. -/
def rowOk (rows : List (Nat × Nat × Nat)) (s : Nat × Nat × Nat) : Bool :=
  Nat.blt 127 s.1 && (s.2.2 != 0x110000 || (s.2.1 - s.1) % 2 == 1) &&
  (Nat.blt (imageOf s).2 0xD800 ||
    (Nat.blt 0xDFFF (imageOf s).1 && Nat.blt (imageOf s).2 0x110000)) &&
  (Nat.blt 127 (imageOf s).1 || (Nat.ble 97 (imageOf s).1 && Nat.ble (imageOf s).2 122)) &&
  spaceFree s.1 s.2.1 && spaceFree (imageOf s).1 (imageOf s).2 &&
  rows.all (fun r => Nat.blt (imageOf s).2 r.1 || Nat.blt r.2.1 (imageOf s).1 ||
    (r.1 == s.1 && r.2.1 == s.2.1 && r.2.2 == s.2.2 && s.2.2 == 0x110000))

/-- Every fact is recorded with the value "true", as each write of the
interpreter records it. -/
def factsAllTrue (gs : GameState) : Prop :=
  ∀ k v, mapGet? gs.Clues k = some v → v = "true"

/-- The verb dispatch of `HandleCommand`, on the lowered line, when the
`range` of `GetInventoryDescription` over the Inventory map yields the keys in
the order `names`. -/
def dispatchIn (names : List String) (gs : GameState) (input : String) : GameState × Bool :=
  match Fields input with
  | [] =>
    ({ gs with
        Message := "Please enter a command like 'look', 'go security', 'take voucher', 'use 8675309', 'inventory', or 'help'." },
      false)
  | verb :: rest =>
    let object : String := if rest.length > 0 then Join rest " " else ""
    if verb = "go" ∨ verb = "g" then (handleGo gs object, true)
    else if verb = "take" ∨ verb = "t" then (handleTake gs object, true)
    else if verb = "use" ∨ verb = "u" then (handleCriticalUse gs object input, true)
    else if verb = "inventory" ∨ verb = "i" ∨ verb = "inv" then
      ({ gs with Message := renderInventory names }, true)
    else if verb = "help" ∨ verb = "h" then
      ({ gs with
          Message := "Commands: look (l), go [place] (g), examine [item/area] (x), take [item] (t), use [item/code] (u), inventory (i), help (h), escape. \nUse 'examine' or 'look' for more details (handled by AI if available)." },
        true)
    else if verb = "escape" then (escapeCase gs, true)
    else if verb = "look" ∨ verb = "l" ∨ verb = "examine" ∨ verb = "x" then
      (handleExamineFallback gs object, false)
    else ({ gs with Message := "I don't understand '" ++ verb ++ "'. Try 'help'." }, false)

/-- `HandleCommand` when the `range` of `GetInventoryDescription` over the
Inventory map yields the keys in the order `names`; `HandleCommand` itself is
the case of the order in which the association list holds them. -/
def HandleCommandIn (names : List String) (gs : GameState) (input : String) :
    GameState × Bool :=
  let input := ToLower input
  match (if gs.InputRequired ≠ "" then codeSwitch gs input else none) with
  | some gs1 => (gs1, true)
  | none => dispatchIn names gs input

/-- The command lists the inventory: no dialog is active and the first word of
the lowered line is inventory, i or inv. -/
def listsInventory (gs : GameState) (line : String) : Prop :=
  ¬dialogActive gs ∧ ∃ verb rest, Fields (ToLower line) = verb :: rest ∧
    (verb = "inventory" ∨ verb = "i" ∨ verb = "inv")

/-- At the manager's office, holding the voucher and the card. -/
def holdingVoucherAndCard : GameState :=
  { NewGameState with
      Location := LocManagersOffice
      Inventory := [(ItemVoucher, true), (ItemCard, true)] }

/-! ## Lemmas on maps -/

theorem mapGet?_mapSet_self {β : Type} (m : List (String × β)) (k : String) (v : β) :
    mapGet? (mapSet m k v) k = some v := by
  induction m with
  | nil => simp [mapSet, mapGet?]
  | cons p rest ih =>
    obtain ⟨k', v'⟩ := p
    by_cases h : k' = k
    · simp [mapSet, mapGet?, h]
    · simp [mapSet, mapGet?, h, ih]

theorem mapGet?_mapSet_ne {β : Type} (m : List (String × β)) (k k' : String) (v : β)
    (h : k ≠ k') : mapGet? (mapSet m k v) k' = mapGet? m k' := by
  induction m with
  | nil => simp [mapSet, mapGet?, h]
  | cons p rest ih =>
    obtain ⟨k₁, v₁⟩ := p
    by_cases h₁ : k₁ = k
    · subst h₁; simp [mapSet, mapGet?, h]
    · simp [mapSet, mapGet?, h₁, ih]

/-! ## Lemmas on lowering -/

set_option maxRecDepth 1000000 in
theorem caseRanges_ok : caseRanges.all (rowOk caseRanges) = true := by
  decide!

theorem spaceFree_iff (x y : Nat) :
    spaceFree x y = true ↔
      (13 < x ∨ y < 9) ∧ (32 < x ∨ y < 32) ∧ (0x85 < x ∨ y < 0x85) ∧ (0xA0 < x ∨ y < 0xA0) ∧
      (0x1680 < x ∨ y < 0x1680) ∧ (0x200A < x ∨ y < 0x2000) ∧ (0x2029 < x ∨ y < 0x2028) ∧
      (0x202F < x ∨ y < 0x202F) ∧ (0x205F < x ∨ y < 0x205F) ∧ (0x3000 < x ∨ y < 0x3000) := by
  unfold spaceFree
  simp only [Bool.and_eq_true, Bool.or_eq_true, Nat.blt_eq, and_assoc]

theorem rowOk_iff (rows : List (Nat × Nat × Nat)) (s : Nat × Nat × Nat) :
    rowOk rows s = true ↔
      127 < s.1 ∧ (s.2.2 = 0x110000 → (s.2.1 - s.1) % 2 = 1) ∧
      ((imageOf s).2 < 0xD800 ∨ (0xDFFF < (imageOf s).1 ∧ (imageOf s).2 < 0x110000)) ∧
      (127 < (imageOf s).1 ∨ (97 ≤ (imageOf s).1 ∧ (imageOf s).2 ≤ 122)) ∧
      spaceFree s.1 s.2.1 = true ∧ spaceFree (imageOf s).1 (imageOf s).2 = true ∧
      ∀ r ∈ rows, (imageOf s).2 < r.1 ∨ r.2.1 < (imageOf s).1 ∨ (r = s ∧ s.2.2 = 0x110000) := by
  unfold rowOk
  simp only [Bool.and_eq_true, Bool.or_eq_true, Nat.blt_eq, Nat.ble_eq, beq_iff_eq,
    bne_iff_ne, List.all_eq_true, and_assoc, or_assoc, Prod.ext_iff, ne_eq]
  constructor
  · rintro ⟨h1, h2, h3, h4, h5, h6, h7⟩
    refine ⟨h1, fun h => ?_, h3, h4, h5, h6, h7⟩
    rcases h2 with h2 | h2
    · exact absurd h h2
    · exact h2
  · rintro ⟨h1, h2, h3, h4, h5, h6, h7⟩
    refine ⟨h1, ?_, h3, h4, h5, h6, h7⟩
    by_cases h : s.2.2 = 0x110000
    · exact Or.inr (h2 h)
    · exact Or.inl h

theorem lowerIn_cases (rows : List (Nat × Nat × Nat)) (n : Nat) :
    lowerIn rows n = n ∨
      ∃ s ∈ rows, s.1 ≤ n ∧ n ≤ s.2.1 ∧ lowerIn rows n = lowerInRow s n := by
  induction rows with
  | nil => exact Or.inl rfl
  | cons r rest ih =>
    by_cases h : r.1 ≤ n ∧ n ≤ r.2.1
    · refine Or.inr ⟨r, List.mem_cons_self _ _, h.1, h.2, ?_⟩
      rw [lowerIn, if_pos h]
    · rw [lowerIn, if_neg h]
      rcases ih with h1 | ⟨s, hs, h1, h2, h3⟩
      · exact Or.inl h1
      · exact Or.inr ⟨s, List.mem_cons_of_mem _ hs, h1, h2, h3⟩

theorem lowerIn_fixed (rows : List (Nat × Nat × Nat)) (m : Nat)
    (h : ∀ r ∈ rows, ¬(r.1 ≤ m ∧ m ≤ r.2.1) ∨ lowerInRow r m = m) : lowerIn rows m = m := by
  induction rows with
  | nil => rfl
  | cons r rest ih =>
    by_cases hr : r.1 ≤ m ∧ m ≤ r.2.1
    · rw [lowerIn, if_pos hr]
      rcases h r (List.mem_cons_self _ _) with h1 | h1
      · exact absurd hr h1
      · exact h1
    · rw [lowerIn, if_neg hr]
      exact ih (fun r1 h1 => h r1 (List.mem_cons_of_mem _ h1))

theorem lowerInRow_mem_image (s : Nat × Nat × Nat) (n : Nat) (h1 : s.1 ≤ n) (h2 : n ≤ s.2.1)
    (hodd : s.2.2 = 0x110000 → (s.2.1 - s.1) % 2 = 1) :
    (imageOf s).1 ≤ lowerInRow s n ∧ lowerInRow s n ≤ (imageOf s).2 := by
  unfold imageOf lowerInRow
  by_cases h : s.2.2 = 0x110000
  · have := hodd h
    rw [if_pos h, if_pos h]
    dsimp only
    omega
  · rw [if_neg h, if_neg h]
    dsimp only
    omega

theorem lowerInRow_alternating_fixed (s : Nat × Nat × Nat) (n : Nat)
    (h : s.2.2 = 0x110000) : lowerInRow s (lowerInRow s n) = lowerInRow s n := by
  unfold lowerInRow
  simp only [if_pos h]
  omega

/-- The lower case of a rune of the table is changed by no row. -/
theorem lowerIn_lowerInRow (rows : List (Nat × Nat × Nat)) (s : Nat × Nat × Nat) (n : Nat)
    (hok : rowOk rows s = true) (h1 : s.1 ≤ n) (h2 : n ≤ s.2.1) :
    lowerIn rows (lowerInRow s n) = lowerInRow s n := by
  obtain ⟨-, hodd, -, -, -, -, hall⟩ := (rowOk_iff rows s).1 hok
  obtain ⟨ha, hb⟩ := lowerInRow_mem_image s n h1 h2 hodd
  apply lowerIn_fixed
  intro r hr
  rcases hall r hr with h | h | ⟨rfl, halt⟩
  · exact Or.inl (fun hc => by omega)
  · exact Or.inl (fun hc => by omega)
  · exact Or.inr (lowerInRow_alternating_fixed r n halt)

theorem toNat_ofNat_of_valid (m : Nat) (h : m < 0xD800 ∨ (0xDFFF < m ∧ m < 0x110000)) :
    (Char.ofNat m).toNat = m := by
  unfold Char.ofNat
  rw [dif_pos (show m.isValidChar from h)]
  rfl

theorem isSpace_of_spaceFree (c : Char) (x y : Nat) (h : spaceFree x y = true)
    (h1 : x ≤ c.toNat) (h2 : c.toNat ≤ y) : isSpace c = false := by
  rw [spaceFree_iff] at h
  unfold isSpace
  dsimp only
  generalize c.toNat = n at h1 h2
  simp only [Bool.or_eq_false_iff, Bool.and_eq_false_iff, decide_eq_false_iff_not,
    beq_eq_false_iff_ne, ne_eq]
  omega

/-- How a rune is lowered: left as it is, an ASCII capital moved by 32, or a
rune of a row of the table. -/
theorem toLowerRune_cases (c : Char) :
    (toLowerRune c = c ∧ ¬(65 ≤ c.toNat ∧ c.toNat ≤ 90)) ∨
    (65 ≤ c.toNat ∧ c.toNat ≤ 90 ∧ toLowerRune c = Char.ofNat (c.toNat + 32)) ∨
    (127 < c.toNat ∧ ∃ s, rowOk caseRanges s = true ∧ s.1 ≤ c.toNat ∧ c.toNat ≤ s.2.1 ∧
      toLowerRune c = Char.ofNat (lowerInRow s c.toNat)) := by
  unfold toLowerRune
  by_cases h : c.toNat ≤ 127
  · rw [if_pos h]
    by_cases h1 : 65 ≤ c.toNat ∧ c.toNat ≤ 90
    · rw [if_pos h1]; exact Or.inr (Or.inl ⟨h1.1, h1.2, rfl⟩)
    · rw [if_neg h1]; exact Or.inl ⟨rfl, h1⟩
  · rw [if_neg h]
    rcases lowerIn_cases caseRanges c.toNat with h1 | ⟨s, hs, h1, h2, h3⟩
    · rw [h1]; exact Or.inl ⟨Char.ofNat_toNat c, fun hc => h (by omega)⟩
    · rw [h3]
      exact Or.inr (Or.inr ⟨by omega, s, List.all_eq_true.1 caseRanges_ok s hs, h1, h2, rfl⟩)

/-- The lower case of a rune of the table: a valid rune, in the image of its
row. -/
theorem lowerInRow_facts (s : Nat × Nat × Nat) (n : Nat) (hok : rowOk caseRanges s = true)
    (h1 : s.1 ≤ n) (h2 : n ≤ s.2.1) :
    (Char.ofNat (lowerInRow s n)).toNat = lowerInRow s n ∧
    (imageOf s).1 ≤ lowerInRow s n ∧ lowerInRow s n ≤ (imageOf s).2 ∧
    (127 < (imageOf s).1 ∨ (97 ≤ (imageOf s).1 ∧ (imageOf s).2 ≤ 122)) ∧
    spaceFree s.1 s.2.1 = true ∧ spaceFree (imageOf s).1 (imageOf s).2 = true := by
  obtain ⟨-, hodd, hv, hi, hs1, hs2, -⟩ := (rowOk_iff caseRanges s).1 hok
  obtain ⟨ha, hb⟩ := lowerInRow_mem_image s n h1 h2 hodd
  refine ⟨toNat_ofNat_of_valid _ ?_, ha, hb, hi, hs1, hs2⟩
  omega

/-- A rune of ASCII outside `a`..`z` is the lower case of itself only. -/
theorem toLowerRune_eq_of_not_lower (x c : Char)
    (hc : c.toNat ≤ 127 ∧ ¬(97 ≤ c.toNat ∧ c.toNat ≤ 122))
    (h : toLowerRune x = c) : x = c := by
  rcases toLowerRune_cases x with ⟨h1, -⟩ | ⟨ha, hb, h1⟩ | ⟨-, s, hok, hs1, hs2, h1⟩
  · rw [← h1, h]
  · exfalso
    rw [h1] at h
    generalize x.toNat = n at ha hb h
    interval_cases n <;> exact hc.2 (h ▸ by decide)
  · exfalso
    obtain ⟨hv, ha, hb, hi, -, -⟩ := lowerInRow_facts s x.toNat hok hs1 hs2
    rw [h1] at h
    rw [h] at hv
    omega

theorem toLowerRune_not_upper (x : Char) :
    ¬(65 ≤ (toLowerRune x).toNat ∧ (toLowerRune x).toNat ≤ 90) := by
  rcases toLowerRune_cases x with ⟨h1, h2⟩ | ⟨ha, hb, h1⟩ | ⟨-, s, hok, hs1, hs2, h1⟩
  · rw [h1]; exact h2
  · rw [h1]
    generalize x.toNat = n at ha hb
    interval_cases n <;> decide
  · obtain ⟨hv, ha, hb, hi, -, -⟩ := lowerInRow_facts s x.toNat hok hs1 hs2
    rw [h1, hv]
    omega

theorem isSpace_toLowerRune (c : Char) : isSpace (toLowerRune c) = isSpace c := by
  rcases toLowerRune_cases c with ⟨h1, -⟩ | ⟨ha, hb, h1⟩ | ⟨-, s, hok, hs1, hs2, h1⟩
  · rw [h1]
  · rw [h1]
    unfold isSpace
    dsimp only
    generalize c.toNat = n at ha hb
    interval_cases n <;> decide
  · obtain ⟨hv, ha, hb, -, hsp1, hsp2⟩ := lowerInRow_facts s c.toNat hok hs1 hs2
    rw [h1, isSpace_of_spaceFree c _ _ hsp1 hs1 hs2,
      isSpace_of_spaceFree _ _ _ hsp2 (by rw [hv]; exact ha) (by rw [hv]; exact hb)]

theorem toLowerRune_idem (c : Char) : toLowerRune (toLowerRune c) = toLowerRune c := by
  rcases toLowerRune_cases c with ⟨h1, -⟩ | ⟨ha, hb, h1⟩ | ⟨-, s, hok, hs1, hs2, h1⟩
  · rw [h1, h1]
  · rw [h1]
    generalize c.toNat = n at ha hb
    interval_cases n <;> decide
  · obtain ⟨hv, ha, hb, hi, -, -⟩ := lowerInRow_facts s c.toNat hok hs1 hs2
    rw [h1]
    generalize hm : lowerInRow s c.toNat = m at hv ha hb
    have hfix : lowerIn caseRanges m = m := by
      rw [← hm]; exact lowerIn_lowerInRow caseRanges s c.toNat hok hs1 hs2
    unfold toLowerRune
    rw [hv]
    by_cases h : m ≤ 127
    · rw [if_pos h, if_neg (by omega)]
    · rw [if_neg h, hfix]

theorem map_toLowerRune_eq (l t : List Char)
    (ht : ∀ c ∈ t, c.toNat ≤ 127 ∧ ¬(97 ≤ c.toNat ∧ c.toNat ≤ 122))
    (h : l.map toLowerRune = t) : l = t := by
  induction l generalizing t with
  | nil => simpa using h
  | cons x xs ih =>
    cases t with
    | nil => simp at h
    | cons c cs =>
      simp only [List.map_cons, List.cons.injEq] at h
      have hx := toLowerRune_eq_of_not_lower x c (ht c (List.mem_cons_self _ _)) h.1
      have hxs := ih cs (fun d hd => ht d (List.mem_cons_of_mem _ hd)) h.2
      rw [hx, hxs]

/-- A text of ASCII without lower-case letters is the lowering of itself
only. -/
theorem ToLower_eq_of_no_lower (s t : String)
    (ht : ∀ c ∈ t.data, c.toNat ≤ 127 ∧ ¬(97 ≤ c.toNat ∧ c.toNat ≤ 122))
    (h : ToLower s = t) : s = t := by
  have h1 : s.data.map toLowerRune = t.data := by rw [← h]; rfl
  have h2 := map_toLowerRune_eq s.data t.data ht h1
  cases s; cases t; simp_all

theorem ToLower_eq_locker_code (s : String) : ToLower s = "8675309" ↔ s = "8675309" := by
  constructor
  · exact ToLower_eq_of_no_lower s _ (by decide)
  · rintro rfl; rfl

theorem ToLower_eq_safe_code (s : String) : ToLower s = "4711" ↔ s = "4711" := by
  constructor
  · exact ToLower_eq_of_no_lower s _ (by decide)
  · rintro rfl; rfl

theorem ToLower_eq_keypad_code (s : String) : ToLower s = "683778625" ↔ s = "683778625" := by
  constructor
  · exact ToLower_eq_of_no_lower s _ (by decide)
  · rintro rfl; rfl

/-! ## How `HandleCommand` branches -/

/-- Case analysis on an `if`, with the branch condition at hand. -/
theorem ite_cases {α : Sort _} (P : α → Prop) (c : Prop) [Decidable c] (a b : α)
    (ha : c → P a) (hb : ¬c → P b) : P (if c then a else b) := by
  split_ifs with h
  · exact ha h
  · exact hb h

theorem HandleCommand_locker (gs : GameState) (line : String)
    (h : gs.InputRequired = "locker_code") :
    HandleCommand gs line = (lockerCodeCase gs (ToLower line), true) := by
  simp [HandleCommand, codeSwitch, h]

theorem HandleCommand_safe (gs : GameState) (line : String)
    (h : gs.InputRequired = "safe_code") :
    HandleCommand gs line = (safeCodeCase gs (ToLower line), true) := by
  simp [HandleCommand, codeSwitch, h]

theorem HandleCommand_breaker (gs : GameState) (line : String)
    (h : gs.InputRequired = "breaker_code") :
    HandleCommand gs line = (breakerCodeCase gs (ToLower line), true) := by
  simp [HandleCommand, codeSwitch, h]

theorem HandleCommand_noDialog (gs : GameState) (line : String)
    (h : gs.InputRequired = "") :
    HandleCommand gs line = dispatch gs (ToLower line) := by
  simp [HandleCommand, h]

/-- Whatever the mode, `HandleCommand` ends in one of the three code cases
or in the verb dispatch. -/
theorem HandleCommand_cases (gs : GameState) (line : String) :
    (gs.InputRequired = "locker_code" ∧
      HandleCommand gs line = (lockerCodeCase gs (ToLower line), true)) ∨
    (gs.InputRequired = "safe_code" ∧
      HandleCommand gs line = (safeCodeCase gs (ToLower line), true)) ∨
    (gs.InputRequired = "breaker_code" ∧
      HandleCommand gs line = (breakerCodeCase gs (ToLower line), true)) ∨
    HandleCommand gs line = dispatch gs (ToLower line) := by
  by_cases h1 : gs.InputRequired = "locker_code"
  · exact Or.inl ⟨h1, HandleCommand_locker gs line h1⟩
  by_cases h2 : gs.InputRequired = "safe_code"
  · exact Or.inr (Or.inl ⟨h2, HandleCommand_safe gs line h2⟩)
  by_cases h3 : gs.InputRequired = "breaker_code"
  · exact Or.inr (Or.inr (Or.inl ⟨h3, HandleCommand_breaker gs line h3⟩))
  refine Or.inr (Or.inr (Or.inr ?_))
  unfold HandleCommand codeSwitch
  simp only [if_neg h1, if_neg h2, if_neg h3, ite_self]

/-! ## What each handler may change -/

theorem goSwitch_frame (gs : GameState) (d : String) :
    ∃ loc msg, (goSwitch gs d).1 = { gs with Location := loc, Message := msg } ∧
      (loc = LocLoadingDock →
        gs.Location = LocLoadingDock ∨ mapHas gs.Clues "map_details" = true) := by
  unfold goSwitch
  repeat' first
    | exact ⟨_, _, rfl, fun h => absurd h (by decide)⟩
    | exact ⟨_, _, rfl, fun h => Or.inl h⟩
    | exact ⟨_, _, rfl, fun _ => Or.inr (by assumption)⟩
    | refine ite_cases (fun z : GameState × Bool => ∃ loc msg,
        z.1 = { gs with Location := loc, Message := msg } ∧
          (loc = LocLoadingDock →
            gs.Location = LocLoadingDock ∨ mapHas gs.Clues "map_details" = true))
        _ _ _ (fun _ => ?_) (fun _ => ?_)

theorem handleGo_frame (gs : GameState) (d : String) :
    ∃ loc msg, handleGo gs d = { gs with Location := loc, Message := msg } ∧
      (loc = LocLoadingDock →
        gs.Location = LocLoadingDock ∨ mapHas gs.Clues "map_details" = true) := by
  obtain ⟨loc, msg, h, hl⟩ := goSwitch_frame gs d
  unfold handleGo
  simp only [h]
  split_ifs <;> exact ⟨_, _, rfl, hl⟩

theorem takeSwitch_frame (gs : GameState) (t : Item) :
    (∃ inv, ∃ b, takeSwitch gs t = .fallsThrough { gs with Inventory := inv } b) ∨
    (∃ msg, takeSwitch gs t = .returned { gs with Message := msg }) := by
  unfold takeSwitch
  repeat' first
    | exact Or.inl ⟨_, _, rfl⟩
    | exact Or.inr ⟨_, rfl⟩
    | refine ite_cases (fun z : TakeOutcome =>
        (∃ inv, ∃ b, z = .fallsThrough { gs with Inventory := inv } b) ∨
        (∃ msg, z = .returned { gs with Message := msg })) _ _ _ (fun _ => ?_) (fun _ => ?_)

theorem handleTake_frame (gs : GameState) (o : String) :
    ∃ inv msg, handleTake gs o = { gs with Inventory := inv, Message := msg } := by
  unfold handleTake
  dsimp only
  cases hh : mapHas gs.Inventory (ToLower o)
  · rcases takeSwitch_frame gs (ToLower o) with ⟨inv, b, h⟩ | ⟨msg, h⟩
    · rw [h]; cases b <;> exact ⟨_, _, rfl⟩
    · rw [h]; exact ⟨_, _, rfl⟩
  · exact ⟨_, _, rfl⟩

theorem handleCriticalUse_frame (gs : GameState) (o f : String) :
    ∃ msg cur req, handleCriticalUse gs o f =
      { gs with Message := msg, CurrentInput := cur, InputRequired := req } := by
  unfold handleCriticalUse
  simp only []
  repeat' first
    | exact ⟨_, _, _, rfl⟩
    | refine ite_cases (fun z : GameState => ∃ msg cur req, z =
        { gs with Message := msg, CurrentInput := cur, InputRequired := req })
        _ _ _ (fun _ => ?_) (fun _ => ?_)

theorem handleExamineFallback_frame (gs : GameState) (o : String) :
    ∃ msg, handleExamineFallback gs o = { gs with Message := msg } := by
  unfold handleExamineFallback
  simp only []
  repeat' first
    | exact ⟨_, rfl⟩
    | refine ite_cases (fun z : GameState => ∃ msg, z = { gs with Message := msg })
        _ _ _ (fun _ => ?_) (fun _ => ?_)

/-- The verb dispatch sets a message only, or is one of the four handlers that
change more. -/
theorem dispatch_cases (gs : GameState) (input : String) :
    (∃ m b, dispatch gs input = ({ gs with Message := m }, b)) ∨
    (∃ o, dispatch gs input = (handleGo gs o, true)) ∨
    (∃ o, dispatch gs input = (handleTake gs o, true)) ∨
    (∃ o, dispatch gs input = (handleCriticalUse gs o input, true)) ∨
    dispatch gs input = (escapeCase gs, true) := by
  unfold dispatch
  cases Fields input with
  | nil => exact Or.inl ⟨_, _, rfl⟩
  | cons verb rest =>
    simp only []
    obtain ⟨m, hm⟩ :=
      handleExamineFallback_frame gs (if rest.length > 0 then Join rest " " else "")
    rw [hm]
    repeat' first
      | exact Or.inr (Or.inl ⟨_, rfl⟩)
      | exact Or.inr (Or.inr (Or.inl ⟨_, rfl⟩))
      | exact Or.inr (Or.inr (Or.inr (Or.inl ⟨_, rfl⟩)))
      | exact Or.inr (Or.inr (Or.inr (Or.inr rfl)))
      | exact Or.inl ⟨_, _, rfl⟩
      | refine ite_cases (fun z : GameState × Bool =>
          (∃ m b, z = ({ gs with Message := m }, b)) ∨
          (∃ o, z = (handleGo gs o, true)) ∨
          (∃ o, z = (handleTake gs o, true)) ∨
          (∃ o, z = (handleCriticalUse gs o input, true)) ∨
          z = (escapeCase gs, true)) _ _ _ (fun _ => ?_) (fun _ => ?_)

theorem lockerCodeCase_frame (gs : GameState) (x : String) :
    ∃ inv clues msg, lockerCodeCase gs x =
        { gs with Inventory := inv, Clues := clues, Message := msg, InputRequired := "" } ∧
      (clues = gs.Clues ∨ clues = mapSet gs.Clues "locker_opened" "true") := by
  unfold lockerCodeCase
  dsimp only
  split_ifs
  · exact ⟨_, _, _, rfl, Or.inr rfl⟩
  · exact ⟨_, _, _, rfl, Or.inr rfl⟩
  · exact ⟨_, _, _, rfl, Or.inl rfl⟩

theorem safeCodeCase_frame (gs : GameState) (x : String) :
    ∃ inv clues msg, safeCodeCase gs x =
        { gs with Inventory := inv, Clues := clues, Message := msg, InputRequired := "" } ∧
      (clues = gs.Clues ∨ clues = mapSet gs.Clues "safe_opened" "true") := by
  unfold safeCodeCase
  dsimp only
  split_ifs
  · exact ⟨_, _, _, rfl, Or.inr rfl⟩
  · exact ⟨_, _, _, rfl, Or.inr rfl⟩
  · exact ⟨_, _, _, rfl, Or.inl rfl⟩

theorem breakerCodeCase_frame (gs : GameState) (x : String) :
    ∃ clues msg, breakerCodeCase gs x =
        { gs with Clues := clues, Message := msg, InputRequired := "" } ∧
      (clues = gs.Clues ∨ clues = mapSet gs.Clues "door_unlocked" "true") := by
  unfold breakerCodeCase
  dsimp only
  split_ifs
  · exact ⟨_, _, rfl, Or.inr rfl⟩
  · exact ⟨_, _, rfl, Or.inl rfl⟩
  · exact ⟨_, _, rfl, Or.inl rfl⟩

theorem escapeCase_frame (gs : GameState) :
    (gs.Location = LocLoadingDock ∧ mapGet? gs.Clues "door_unlocked" = some "true" ∧
      escapeCase gs = { gs with GameOver := true }) ∨
    (¬(gs.Location = LocLoadingDock ∧ mapGet? gs.Clues "door_unlocked" = some "true") ∧
      ∃ msg, escapeCase gs = { gs with Message := msg }) := by
  have hv : mapVal "" gs.Clues "door_unlocked" = "true" ↔
      mapGet? gs.Clues "door_unlocked" = some "true" := by
    unfold mapVal
    cases mapGet? gs.Clues "door_unlocked" with
    | none => simp
    | some v => simp
  unfold escapeCase
  split_ifs with h1 h2
  · exact Or.inl ⟨h1.1, hv.1 h1.2, rfl⟩
  · exact Or.inr ⟨fun h => h1 ⟨h.1, hv.2 h.2⟩, _, rfl⟩
  · exact Or.inr ⟨fun h => h1 ⟨h.1, hv.2 h.2⟩, _, rfl⟩

/-! ## The loading dock cannot be reached -/

theorem noMapYet_HandleCommand (gs : GameState) (line : String) (h : noMapYet gs) :
    noMapYet (HandleCommand gs line).1 := by
  obtain ⟨hm, hl, hg⟩ := h
  have hm' : mapHas gs.Clues "map_details" = false := by unfold mapHas; rw [hm]; rfl
  rcases HandleCommand_cases gs line with ⟨-, hc⟩ | ⟨-, hc⟩ | ⟨-, hc⟩ | hc
  · obtain ⟨inv, clues, msg, he, hcl⟩ := lockerCodeCase_frame gs (ToLower line)
    rw [hc, he]
    refine ⟨?_, hl, hg⟩
    rcases hcl with rfl | rfl
    · exact hm
    · exact (mapGet?_mapSet_ne _ _ _ _ (by decide)).trans hm
  · obtain ⟨inv, clues, msg, he, hcl⟩ := safeCodeCase_frame gs (ToLower line)
    rw [hc, he]
    refine ⟨?_, hl, hg⟩
    rcases hcl with rfl | rfl
    · exact hm
    · exact (mapGet?_mapSet_ne _ _ _ _ (by decide)).trans hm
  · obtain ⟨clues, msg, he, hcl⟩ := breakerCodeCase_frame gs (ToLower line)
    rw [hc, he]
    refine ⟨?_, hl, hg⟩
    rcases hcl with rfl | rfl
    · exact hm
    · exact (mapGet?_mapSet_ne _ _ _ _ (by decide)).trans hm
  · rw [hc]
    rcases dispatch_cases gs (ToLower line) with ⟨m, b, hd⟩ | ⟨o, hd⟩ | ⟨o, hd⟩ | ⟨o, hd⟩ | hd
    · rw [hd]; exact ⟨hm, hl, hg⟩
    · obtain ⟨loc, msg, he, hloc⟩ := handleGo_frame gs o
      rw [hd, he]
      refine ⟨hm, ?_, hg⟩
      intro hcon
      rcases hloc hcon with h1 | h1
      · exact hl h1
      · rw [hm'] at h1; exact absurd h1 (by decide)
    · obtain ⟨inv, msg, he⟩ := handleTake_frame gs o
      rw [hd, he]; exact ⟨hm, hl, hg⟩
    · obtain ⟨msg, cur, req, he⟩ := handleCriticalUse_frame gs o (ToLower line)
      rw [hd, he]; exact ⟨hm, hl, hg⟩
    · rcases escapeCase_frame gs with ⟨h1, -, -⟩ | ⟨-, msg, he⟩
      · exact absurd h1 hl
      · rw [hd, he]; exact ⟨hm, hl, hg⟩

theorem noMapYet_run (lines : List String) (gs : GameState) (h : noMapYet gs) :
    noMapYet (run gs lines) := by
  induction lines generalizing gs with
  | nil => exact h
  | cons line rest ih => exact ih _ (noMapYet_HandleCommand gs line h)

theorem breakerCodeCorrect_iff (line : String) :
    breakerCodeCorrect line ↔
      (decide (ToLower line = "overstock") || decide (ToLower line = "683778625")) = true := by
  unfold breakerCodeCorrect equalsIgnoringCase
  rw [← ToLower_eq_keypad_code line]
  simp only [Bool.or_eq_true, decide_eq_true_eq]
  rfl

theorem HandleCommand_escape (gs : GameState) (h : gs.InputRequired = "") :
    HandleCommand gs "escape" = (escapeCase gs, true) := by
  rw [HandleCommand_noDialog gs _ h]
  rfl

theorem mapGet?_of_mapVal_true (m : List (String × Bool)) (k : String)
    (h : mapVal false m k = true) : mapGet? m k = some true := by
  unfold mapVal at h
  cases hg : mapGet? m k with
  | none => rw [hg] at h; exact absurd h (by decide)
  | some b => rw [hg] at h; exact congrArg some h

/-! ## Lowered text has no capital letter -/

/-- A text holding a capital ASCII letter is the lowering of no text. -/
theorem ToLower_ne_of_upper (s t : String) (c : Char) (hc : c ∈ t.data)
    (hu : 65 ≤ c.toNat ∧ c.toNat ≤ 90) : ToLower s ≠ t := by
  intro h
  have h1 : c ∈ s.data.map toLowerRune := by rw [← h] at hc; exact hc
  obtain ⟨x, -, hx⟩ := List.mem_map.1 h1
  exact toLowerRune_not_upper x (hx ▸ hu)

theorem ToLower_ne_ItemScanner (s : String) : ToLower s ≠ ItemScanner :=
  ToLower_ne_of_upper s ItemScanner 'D' (by decide) (by decide)

theorem ToLower_ne_ItemOverrideKey (s : String) : ToLower s ≠ ItemOverrideKey :=
  ToLower_ne_of_upper s ItemOverrideKey 'M' (by decide) (by decide)

/-! ## What `handleTake` does -/

theorem handleTake_of_entry (gs : GameState) (o : String)
    (h : mapHas gs.Inventory (ToLower o) = true) :
    handleTake gs o = { gs with Message := "You already have the " ++ ToLower o ++ "." } := by
  unfold handleTake
  dsimp only
  rw [h]
  rfl

theorem handleTake_of_no_entry (gs : GameState) (o : String)
    (h : mapHas gs.Inventory (ToLower o) = false) :
    handleTake gs o =
      match takeSwitch gs (ToLower o) with
      | .returned gs1 => gs1
      | .fallsThrough gs1 taken =>
        if taken then { gs1 with Message := "You take the " ++ ToLower o ++ "." }
        else { gs1 with Message := "You don't see a '" ++ o ++ "' you can take here." } := by
  unfold handleTake
  dsimp only
  rw [h]
  cases takeSwitch gs (ToLower o) with
  | returned g => rfl
  | fallsThrough g b => cases b <;> rfl

theorem takeSwitch_lowered (gs : GameState) (o : String) :
    (takeGrants gs (ToLower o) ∧ takeSwitch gs (ToLower o) =
      .fallsThrough { gs with Inventory := mapSet gs.Inventory (ToLower o) true } true) ∨
    (¬takeGrants gs (ToLower o) ∧ gs.Location = LocLockerArea ∧ ToLower o = ItemNotebook ∧
      takeSwitch gs (ToLower o) =
        .returned { gs with Message := "The locker needs to be open first." }) ∨
    (¬takeGrants gs (ToLower o) ∧ ¬(gs.Location = LocLockerArea ∧ ToLower o = ItemNotebook) ∧
      takeSwitch gs (ToLower o) = .fallsThrough gs false) := by
  have hs := ToLower_ne_ItemScanner o
  have hk := ToLower_ne_ItemOverrideKey o
  generalize ToLower o = t at hs hk
  unfold takeSwitch takeGrants
  by_cases h1 : gs.Location = LocSecurityStation
  · by_cases hv : t = ItemVoucher
    · subst hv; simp [h1]
    · simp [h1, hv, hs, LocSecurityStation, LocLockerArea, LocManagersOffice]
  by_cases h2 : gs.Location = LocLockerArea
  · by_cases hn : t = ItemNotebook
    · subst hn
      by_cases hl : mapHas gs.Clues "locker_opened" = true
      · simp [h2, hl, LocSecurityStation, LocLockerArea, LocManagersOffice]
      · simp [h2, hl, LocSecurityStation, LocLockerArea, LocManagersOffice]
    · simp [h2, hn, LocSecurityStation, LocLockerArea, LocManagersOffice]
  by_cases h3 : gs.Location = LocManagersOffice
  · by_cases hc : t = ItemCard
    · subst hc; simp [h3, LocSecurityStation, LocLockerArea, LocManagersOffice]
    by_cases hi : t = ItemInventory
    · subst hi; simp [h3, hc, LocSecurityStation, LocLockerArea, LocManagersOffice]
    · simp [h3, hc, hi, hk, LocSecurityStation, LocLockerArea, LocManagersOffice]
  · simp [h1, h2, h3]

theorem mapVal_of_no_entry (m : List (String × Bool)) (k : String)
    (h : mapHas m k = false) : mapVal false m k = false := by
  unfold mapHas at h
  unfold mapVal
  cases hg : mapGet? m k with
  | none => rfl
  | some b => rw [hg] at h; exact absurd h (by simp)

/-- A target the `switch` grants, not yet an Inventory entry, is listed by
`GetVisibleItems` and is written in lower case. -/
theorem takeGrants_visible (gs : GameState) (t : Item) (hg : takeGrants gs t)
    (hn : mapHas gs.Inventory t = false) : t ∈ visibleItems gs ∧ ToLower t = t := by
  have hv := mapVal_of_no_entry gs.Inventory t hn
  unfold visibleItems
  rcases hg with ⟨hl, rfl⟩ | ⟨hl, rfl, hc⟩ | ⟨hl, rfl | rfl⟩
  · refine ⟨?_, rfl⟩
    rw [if_pos hl, hv]
    exact List.mem_append_left _ (List.mem_singleton.2 rfl)
  · refine ⟨?_, rfl⟩
    rw [if_neg (by rw [hl]; decide), if_pos hl, hv, hc]
    exact List.mem_singleton.2 rfl
  · refine ⟨?_, rfl⟩
    rw [if_neg (by rw [hl]; decide), if_neg (by rw [hl]; decide), if_pos hl, hv]
    exact List.mem_append_left _ (List.mem_append_left _ (List.mem_singleton.2 rfl))
  · refine ⟨?_, rfl⟩
    rw [if_neg (by rw [hl]; decide), if_neg (by rw [hl]; decide), if_pos hl, hv]
    exact List.mem_append_left _ (List.mem_append_right _ (List.mem_singleton.2 rfl))

/-! ## Lemmas on `Contains`, `Fields` and `Join` -/

theorem containsAux_iff (sub l : List Char) : containsAux sub l = true ↔ sub <:+: l := by
  induction l with
  | nil =>
    cases sub with
    | nil => simp [containsAux]
    | cons a t => simp [containsAux]
  | cons c cs ih =>
    rw [containsAux, Bool.or_eq_true, ih, List.isPrefixOf_iff_prefix, List.infix_cons_iff]

theorem Contains_iff (s t : String) : Contains s t = true ↔ t.data <:+: s.data :=
  containsAux_iff t.data s.data

theorem ToLower_idem (s : String) : ToLower (ToLower s) = ToLower s := by
  unfold ToLower
  simp only [List.map_map]
  congr 1
  apply List.map_congr_left
  intro c _
  exact toLowerRune_idem c

theorem ToLower_append (a b : String) : ToLower (a ++ b) = ToLower a ++ ToLower b := by
  unfold ToLower
  apply String.ext
  simp [String.data_append]

theorem fieldsAux_map (cur l : List Char) :
    fieldsAux (cur.map toLowerRune) (l.map toLowerRune) = (fieldsAux cur l).map ToLower := by
  induction l generalizing cur with
  | nil =>
    cases cur with
    | nil => rfl
    | cons a t => simp [fieldsAux, ToLower, List.map_reverse]
  | cons c cs ih =>
    simp only [List.map_cons, fieldsAux, isSpace_toLowerRune]
    by_cases hs : isSpace c = true
    · simp only [hs, if_true]
      cases cur with
      | nil => simpa using ih []
      | cons a t =>
        have := ih []
        simp only [List.map_nil] at this
        simp [this, ToLower, List.map_reverse]
    · simp only [hs]
      have := ih (c :: cur)
      simpa using this

/-- Lowering a line lowers each of its fields. -/
theorem Fields_ToLower (s : String) : Fields (ToLower s) = (Fields s).map ToLower := by
  unfold Fields
  have := fieldsAux_map [] s.data
  simpa [ToLower] using this

end Game
namespace Game

theorem prefix_of_prefix_append_cons (w a b : List Char) (c : Char) (hc : c ∉ w)
    (h : w <+: a ++ c :: b) : w <+: a := by
  rcases List.prefix_or_prefix_of_prefix h (List.prefix_append a (c :: b)) with h1 | h1
  · exact h1
  · obtain ⟨t, rfl⟩ := h1
    rw [List.prefix_append_right_inj] at h
    rcases List.prefix_cons_iff.1 h with rfl | ⟨t', rfl, -⟩
    · simp
    · exact absurd (by simp) hc

/-- A word without the rune `c` that lies in `a ++ c :: b` lies in `a` or in
`b`. -/
theorem infix_of_infix_append_cons (w a b : List Char) (c : Char) (hc : c ∉ w)
    (h : w <:+: a ++ c :: b) : w <:+: a ∨ w <:+: b := by
  induction a with
  | nil =>
    rcases List.infix_cons_iff.1 h with h1 | h1
    · exact Or.inl (prefix_of_prefix_append_cons w [] b c hc h1).isInfix
    · exact Or.inr h1
  | cons x a ih =>
    rcases List.infix_cons_iff.1 h with h1 | h1
    · exact Or.inl (prefix_of_prefix_append_cons w (x :: a) b c hc h1).isInfix
    · rcases ih h1 with h2 | h2
      · exact Or.inl (List.infix_cons h2)
      · exact Or.inr h2

/-- A word without spaces that lies in the text lies in one of its fields. -/
theorem infix_fieldsAux (w : List Char) (hne : w ≠ []) (hw : ∀ c ∈ w, isSpace c = false)
    (cur l : List Char) (h : w <:+: cur.reverse ++ l) :
    ∃ f ∈ fieldsAux cur l, w <:+: f.data := by
  induction l generalizing cur with
  | nil =>
    rw [List.append_nil] at h
    have hcur : cur ≠ [] := by
      rintro rfl
      exact hne (List.eq_nil_of_infix_nil h)
    cases cur with
    | nil => exact absurd rfl hcur
    | cons a t => exact ⟨⟨(a :: t).reverse⟩, by simp [fieldsAux], h⟩
  | cons c cs ih =>
    by_cases hs : isSpace c = true
    · have hc : c ∉ w := fun hm => by rw [hw c hm] at hs; exact absurd hs (by decide)
      rcases infix_of_infix_append_cons w _ _ c hc h with h1 | h1
      · cases cur with
        | nil => exact absurd (List.eq_nil_of_infix_nil h1) hne
        | cons a t => exact ⟨⟨(a :: t).reverse⟩, by simp [fieldsAux, hs], h1⟩
      · obtain ⟨f, hf, hwf⟩ := ih [] (by simpa using h1)
        refine ⟨f, ?_, hwf⟩
        cases cur with
        | nil => simpa [fieldsAux, hs] using hf
        | cons a t => simp [fieldsAux, hs, hf]
    · obtain ⟨f, hf, hwf⟩ := ih (c :: cur) (by simpa using h)
      exact ⟨f, by simpa [fieldsAux, hs] using hf, hwf⟩

theorem infix_Join (fs : List String) (sep f : String) (hf : f ∈ fs) :
    f.data <:+: (Join fs sep).data := by
  induction fs with
  | nil => exact absurd hf (List.not_mem_nil _)
  | cons a rest ih =>
    cases rest with
    | nil =>
      rcases List.mem_singleton.1 hf with rfl
      exact List.infix_refl _
    | cons b rest' =>
      rw [Join, String.data_append, String.data_append]
      rcases List.mem_cons.1 hf with rfl | h1
      · exact (List.prefix_append _ _).isInfix.trans (List.prefix_append _ _).isInfix
      · exact (ih h1).trans (List.suffix_append _ _).isInfix

/-- A keyword written in lower case and without spaces that the destination
text contains is still contained in the object the dispatcher rebuilds from
the lowered line. -/
theorem Contains_object (d kw : String) (hne : kw.data ≠ [])
    (hsp : ∀ c ∈ kw.data, isSpace c = false) (hlow : ToLower kw = kw)
    (h : Contains d kw = true) :
    Fields (ToLower d) ≠ [] ∧ Contains (Join (Fields (ToLower d)) " ") kw = true := by
  have h1 : kw.data <:+: (ToLower d).data := by
    have := List.IsInfix.map toLowerRune ((Contains_iff d kw).1 h)
    have hk : kw.data.map toLowerRune = kw.data := congrArg String.data hlow
    rw [hk] at this
    exact this
  obtain ⟨f, hf, hwf⟩ := infix_fieldsAux kw.data hne hsp [] (ToLower d).data (by simpa using h1)
  refine ⟨List.ne_nil_of_mem hf, ?_⟩
  exact (Contains_iff _ _).2 (hwf.trans (infix_Join _ " " f hf))

/-! ## The verb dispatch, verb by verb -/

theorem dispatch_blank (gs : GameState) (input : String) (h : Fields input = []) :
    dispatch gs input =
      ({ gs with
          Message := "Please enter a command like 'look', 'go security', 'take voucher', 'use 8675309', 'inventory', or 'help'." },
        false) := by
  unfold dispatch
  rw [h]

theorem dispatch_go (gs : GameState) (input verb : String) (rest : List String)
    (h : Fields input = verb :: rest) (hv : verb = "go" ∨ verb = "g") :
    dispatch gs input = (handleGo gs (objectOf rest), true) := by
  unfold dispatch
  rw [h]
  rcases hv with rfl | rfl <;> rfl

theorem dispatch_take (gs : GameState) (input verb : String) (rest : List String)
    (h : Fields input = verb :: rest) (hv : verb = "take" ∨ verb = "t") :
    dispatch gs input = (handleTake gs (objectOf rest), true) := by
  unfold dispatch
  rw [h]
  rcases hv with rfl | rfl <;> rfl

theorem dispatch_use (gs : GameState) (input verb : String) (rest : List String)
    (h : Fields input = verb :: rest) (hv : verb = "use" ∨ verb = "u") :
    dispatch gs input = (handleCriticalUse gs (objectOf rest) input, true) := by
  unfold dispatch
  rw [h]
  rcases hv with rfl | rfl <;> rfl

theorem dispatch_inventory (gs : GameState) (input verb : String) (rest : List String)
    (h : Fields input = verb :: rest) (hv : verb = "inventory" ∨ verb = "i" ∨ verb = "inv") :
    dispatch gs input = ({ gs with Message := GetInventoryDescription gs }, true) := by
  unfold dispatch
  rw [h]
  rcases hv with rfl | rfl | rfl <;> rfl

theorem dispatch_help (gs : GameState) (input verb : String) (rest : List String)
    (h : Fields input = verb :: rest) (hv : verb = "help" ∨ verb = "h") :
    dispatch gs input =
      ({ gs with
          Message := "Commands: look (l), go [place] (g), examine [item/area] (x), take [item] (t), use [item/code] (u), inventory (i), help (h), escape. \nUse 'examine' or 'look' for more details (handled by AI if available)." },
        true) := by
  unfold dispatch
  rw [h]
  rcases hv with rfl | rfl <;> rfl

theorem dispatch_escape (gs : GameState) (input verb : String) (rest : List String)
    (h : Fields input = verb :: rest) (hv : verb = "escape") :
    dispatch gs input = (escapeCase gs, true) := by
  unfold dispatch
  rw [h]
  subst hv
  rfl

theorem dispatch_look (gs : GameState) (input verb : String) (rest : List String)
    (h : Fields input = verb :: rest)
    (hv : verb = "look" ∨ verb = "l" ∨ verb = "examine" ∨ verb = "x") :
    dispatch gs input = (handleExamineFallback gs (objectOf rest), false) := by
  unfold dispatch
  rw [h]
  rcases hv with rfl | rfl | rfl | rfl <;> rfl

theorem dispatch_unknown (gs : GameState) (input verb : String) (rest : List String)
    (h : Fields input = verb :: rest)
    (hv : verb ∉ ["go", "g", "take", "t", "use", "u", "inventory", "i", "inv", "help", "h",
      "escape", "look", "l", "examine", "x"]) :
    dispatch gs input =
      ({ gs with Message := "I don't understand '" ++ verb ++ "'. Try 'help'." }, false) := by
  simp only [List.mem_cons, List.mem_singleton, List.not_mem_nil, or_false, not_or] at hv
  obtain ⟨h1, h2, h3, h4, h5, h6, h7, h8, h9, h10, h11, h12, h13, h14, h15, h16⟩ := hv
  unfold dispatch
  rw [h]
  dsimp only
  rw [if_neg (not_or.2 ⟨h1, h2⟩), if_neg (not_or.2 ⟨h3, h4⟩), if_neg (not_or.2 ⟨h5, h6⟩),
    if_neg (not_or.2 ⟨h7, not_or.2 ⟨h8, h9⟩⟩), if_neg (not_or.2 ⟨h10, h11⟩), if_neg h12,
    if_neg (not_or.2 ⟨h13, not_or.2 ⟨h14, not_or.2 ⟨h15, h16⟩⟩⟩)]

/-! ## `handleGo` against the table of edges -/

theorem edgesFrom_cases (loc : Location) :
    (loc = LocRegister ∧ edgesFrom loc =
      [⟨["security", "electronics", "back", "scream"], LocSecurityStation, false⟩]) ∨
    (loc = LocSecurityStation ∧ edgesFrom loc =
      [⟨["locker"], LocLockerArea, false⟩,
       ⟨["office", "manager"], LocManagersOffice, false⟩,
       ⟨["loading", "dock", "breaker"], LocLoadingDock, true⟩,
       ⟨["register", "front"], LocRegister, false⟩]) ∨
    (loc = LocLockerArea ∧ edgesFrom loc = [⟨["security"], LocSecurityStation, false⟩]) ∨
    (loc = LocManagersOffice ∧ edgesFrom loc =
      [⟨["security", "customer service"], LocSecurityStation, false⟩,
       ⟨["loading", "dock", "breaker"], LocLoadingDock, true⟩]) ∨
    (loc = LocLoadingDock ∧ edgesFrom loc =
      [⟨["office"], LocManagersOffice, false⟩, ⟨["security"], LocSecurityStation, false⟩]) ∨
    (loc ≠ LocRegister ∧ loc ≠ LocSecurityStation ∧ loc ≠ LocLockerArea ∧
      loc ≠ LocManagersOffice ∧ loc ≠ LocLoadingDock ∧ edgesFrom loc = []) := by
  by_cases h0 : loc = LocRegister
  · subst h0; exact Or.inl ⟨rfl, rfl⟩
  by_cases h1 : loc = LocSecurityStation
  · subst h1; exact Or.inr (Or.inl ⟨rfl, rfl⟩)
  by_cases h2 : loc = LocLockerArea
  · subst h2; exact Or.inr (Or.inr (Or.inl ⟨rfl, rfl⟩))
  by_cases h3 : loc = LocManagersOffice
  · subst h3; exact Or.inr (Or.inr (Or.inr (Or.inl ⟨rfl, rfl⟩)))
  by_cases h4 : loc = LocLoadingDock
  · subst h4; exact Or.inr (Or.inr (Or.inr (Or.inr (Or.inl ⟨rfl, rfl⟩))))
  · refine Or.inr (Or.inr (Or.inr (Or.inr (Or.inr ⟨h0, h1, h2, h3, h4, ?_⟩))))
    unfold edgesFrom
    rw [if_neg h0, if_neg h1, if_neg h2, if_neg h3, if_neg h4]

theorem goSwitch_at_register (gs : GameState) (d : String) (hl : gs.Location = LocRegister) :
    goSwitch gs d =
      if Contains d "security" || Contains d "electronics" ||
          Contains d "back" || Contains d "scream" then
        ({ gs with
            Location := LocSecurityStation
            Message := "You hurry towards the back of the store, near the electronics section where the scream came from." },
          true)
      else (gs, false) := by
  unfold goSwitch
  rw [if_pos hl]

theorem goSwitch_at_security (gs : GameState) (d : String)
    (hl : gs.Location = LocSecurityStation) :
    goSwitch gs d =
      if Contains d "locker" then
        ({ gs with
            Location := LocLockerArea
            Message := "You move towards the nearby employee lockers, focusing on Dale's." },
          true)
      else if Contains d "office" || Contains d "manager" then
        ({ gs with
            Location := LocManagersOffice
            Message := "You head towards the small manager's office behind the customer service area." },
          true)
      else if Contains d "loading" || Contains d "dock" || Contains d "breaker" then
        if mapHas gs.Clues "map_details" then
          ({ gs with
              Location := LocLoadingDock
              Message := "Following the crude map from Dale's notebook, you find the loading dock area." },
            true)
        else
          ({ gs with
              Message := "You aren't sure exactly where the loading dock or the specific breaker panel is." },
            false)
      else if Contains d "register" || Contains d "front" then
        ({ gs with
            Location := LocRegister
            Message := "You head back towards the front registers." },
          true)
      else (gs, false) := by
  unfold goSwitch
  rw [if_neg (by rw [hl]; decide), if_pos hl]

theorem goSwitch_at_locker (gs : GameState) (d : String) (hl : gs.Location = LocLockerArea) :
    goSwitch gs d =
      if Contains d "security" then
        ({ gs with
            Location := LocSecurityStation
            Message := "You step away from the lockers and back to the main security station area." },
          true)
      else (gs, false) := by
  unfold goSwitch
  rw [if_neg (by rw [hl]; decide), if_neg (by rw [hl]; decide), if_pos hl]

theorem goSwitch_at_office (gs : GameState) (d : String)
    (hl : gs.Location = LocManagersOffice) :
    goSwitch gs d =
      if Contains d "security" || Contains d "customer service" then
        ({ gs with
            Location := LocSecurityStation
            Message := "You leave the manager's office, heading back towards the security station." },
          true)
      else if Contains d "loading" || Contains d "dock" || Contains d "breaker" then
        if mapHas gs.Clues "map_details" then
          ({ gs with
              Location := LocLoadingDock
              Message := "You head from the office towards the loading dock, following the map's directions." },
            true)
        else
          ({ gs with
              Message := "You don't know the specific route to the loading dock from here without the map details." },
            false)
      else (gs, false) := by
  unfold goSwitch
  rw [if_neg (by rw [hl]; decide), if_neg (by rw [hl]; decide), if_neg (by rw [hl]; decide),
    if_pos hl]

theorem goSwitch_at_dock (gs : GameState) (d : String) (hl : gs.Location = LocLoadingDock) :
    goSwitch gs d =
      if Contains d "office" then
        ({ gs with
            Location := LocManagersOffice
            Message := "You head back towards the manager's office area." },
          true)
      else if Contains d "security" then
        ({ gs with
            Location := LocSecurityStation
            Message := "You move back towards the main security station area." },
          true)
      else (gs, false) := by
  unfold goSwitch
  rw [if_neg (by rw [hl]; decide), if_neg (by rw [hl]; decide), if_neg (by rw [hl]; decide),
    if_neg (by rw [hl]; decide), if_pos hl]

theorem goSwitch_elsewhere (gs : GameState) (d : String) (h0 : gs.Location ≠ LocRegister)
    (h1 : gs.Location ≠ LocSecurityStation) (h2 : gs.Location ≠ LocLockerArea)
    (h3 : gs.Location ≠ LocManagersOffice) (h4 : gs.Location ≠ LocLoadingDock) :
    goSwitch gs d = (gs, false) := by
  unfold goSwitch
  rw [if_neg h0, if_neg h1, if_neg h2, if_neg h3, if_neg h4]

theorem edgeMatches_one (d a : String) (t : Location) (n : Bool) :
    edgeMatches d ⟨[a], t, n⟩ = Contains d a := by
  simp [edgeMatches]

theorem edgeMatches_two (d a b : String) (t : Location) (n : Bool) :
    edgeMatches d ⟨[a, b], t, n⟩ = (Contains d a || Contains d b) := by
  simp [edgeMatches]

theorem edgeMatches_three (d a b c : String) (t : Location) (n : Bool) :
    edgeMatches d ⟨[a, b, c], t, n⟩ = (Contains d a || Contains d b || Contains d c) := by
  simp [edgeMatches, Bool.or_assoc]

theorem edgeMatches_four (d a b c e : String) (t : Location) (n : Bool) :
    edgeMatches d ⟨[a, b, c, e], t, n⟩ =
      (Contains d a || Contains d b || Contains d c || Contains d e) := by
  simp [edgeMatches, Bool.or_assoc]

/-- The `switch` of `handleGo` takes the first edge of the table that the
destination text matches: it moves there when the edge is open and stays
otherwise; without a matching edge it does nothing. -/
theorem goSwitch_firstMatch (gs : GameState) (d : String) :
    (firstMatch gs d = none ∧ goSwitch gs d = (gs, false)) ∨
    (∃ e, firstMatch gs d = some e ∧ e ∈ edgesFrom gs.Location ∧
      (goSwitch gs d).1.Location = (if edgeOpen gs e then e.target else gs.Location) ∧
      (goSwitch gs d).2 = edgeOpen gs e) := by
  unfold firstMatch
  rcases edgesFrom_cases gs.Location with ⟨hl, he⟩ | ⟨hl, he⟩ | ⟨hl, he⟩ | ⟨hl, he⟩ | ⟨hl, he⟩ |
    ⟨h0, h1, h2, h3, h4, he⟩
  · rw [he, goSwitch_at_register gs d hl]
    by_cases c1 : (Contains d "security" || Contains d "electronics" ||
        Contains d "back" || Contains d "scream") = true
    · refine Or.inr ⟨_, List.find?_cons_of_pos _ (by rw [edgeMatches_four]; exact c1),
        List.mem_cons_self _ _, ?_⟩
      rw [if_pos c1]; exact ⟨rfl, rfl⟩
    · refine Or.inl ⟨?_, by rw [if_neg c1]⟩
      rw [List.find?_cons_of_neg _ (by rw [edgeMatches_four]; exact c1)]; rfl
  · rw [he, goSwitch_at_security gs d hl]
    by_cases c1 : Contains d "locker" = true
    · refine Or.inr ⟨_, List.find?_cons_of_pos _ (by rw [edgeMatches_one]; exact c1),
        List.mem_cons_self _ _, ?_⟩
      rw [if_pos c1]; exact ⟨rfl, rfl⟩
    rw [if_neg c1, List.find?_cons_of_neg _ (by rw [edgeMatches_one]; exact c1)]
    by_cases c2 : (Contains d "office" || Contains d "manager") = true
    · refine Or.inr ⟨_, List.find?_cons_of_pos _ (by rw [edgeMatches_two]; exact c2),
        by simp, ?_⟩
      rw [if_pos c2]; exact ⟨rfl, rfl⟩
    rw [if_neg c2, List.find?_cons_of_neg _ (by rw [edgeMatches_two]; exact c2)]
    by_cases c3 : (Contains d "loading" || Contains d "dock" || Contains d "breaker") = true
    · refine Or.inr ⟨_, List.find?_cons_of_pos _ (by rw [edgeMatches_three]; exact c3),
        by simp, ?_⟩
      rw [if_pos c3]
      cases hm : mapHas gs.Clues "map_details"
      · rw [if_neg (by decide)]
        simp [edgeOpen, hm]
      · rw [if_pos rfl]
        simp [edgeOpen, hm]
    rw [if_neg c3, List.find?_cons_of_neg _ (by rw [edgeMatches_three]; exact c3)]
    by_cases c4 : (Contains d "register" || Contains d "front") = true
    · refine Or.inr ⟨_, List.find?_cons_of_pos _ (by rw [edgeMatches_two]; exact c4),
        by simp, ?_⟩
      rw [if_pos c4]; exact ⟨rfl, rfl⟩
    · refine Or.inl ⟨?_, by rw [if_neg c4]⟩
      rw [List.find?_cons_of_neg _ (by rw [edgeMatches_two]; exact c4)]; rfl
  · rw [he, goSwitch_at_locker gs d hl]
    by_cases c1 : Contains d "security" = true
    · refine Or.inr ⟨_, List.find?_cons_of_pos _ (by rw [edgeMatches_one]; exact c1),
        List.mem_cons_self _ _, ?_⟩
      rw [if_pos c1]; exact ⟨rfl, rfl⟩
    · refine Or.inl ⟨?_, by rw [if_neg c1]⟩
      rw [List.find?_cons_of_neg _ (by rw [edgeMatches_one]; exact c1)]; rfl
  · rw [he, goSwitch_at_office gs d hl]
    by_cases c1 : (Contains d "security" || Contains d "customer service") = true
    · refine Or.inr ⟨_, List.find?_cons_of_pos _ (by rw [edgeMatches_two]; exact c1),
        List.mem_cons_self _ _, ?_⟩
      rw [if_pos c1]; exact ⟨rfl, rfl⟩
    rw [if_neg c1, List.find?_cons_of_neg _ (by rw [edgeMatches_two]; exact c1)]
    by_cases c3 : (Contains d "loading" || Contains d "dock" || Contains d "breaker") = true
    · refine Or.inr ⟨_, List.find?_cons_of_pos _ (by rw [edgeMatches_three]; exact c3),
        by simp, ?_⟩
      rw [if_pos c3]
      cases hm : mapHas gs.Clues "map_details"
      · rw [if_neg (by decide)]
        simp [edgeOpen, hm]
      · rw [if_pos rfl]
        simp [edgeOpen, hm]
    · refine Or.inl ⟨?_, by rw [if_neg c3]⟩
      rw [List.find?_cons_of_neg _ (by rw [edgeMatches_three]; exact c3)]; rfl
  · rw [he, goSwitch_at_dock gs d hl]
    by_cases c1 : Contains d "office" = true
    · refine Or.inr ⟨_, List.find?_cons_of_pos _ (by rw [edgeMatches_one]; exact c1),
        List.mem_cons_self _ _, ?_⟩
      rw [if_pos c1]; exact ⟨rfl, rfl⟩
    rw [if_neg c1, List.find?_cons_of_neg _ (by rw [edgeMatches_one]; exact c1)]
    by_cases c2 : Contains d "security" = true
    · refine Or.inr ⟨_, List.find?_cons_of_pos _ (by rw [edgeMatches_one]; exact c2),
        by simp, ?_⟩
      rw [if_pos c2]; exact ⟨rfl, rfl⟩
    · refine Or.inl ⟨?_, by rw [if_neg c2]⟩
      rw [List.find?_cons_of_neg _ (by rw [edgeMatches_one]; exact c2)]; rfl
  · rw [he, goSwitch_elsewhere gs d h0 h1 h2 h3 h4]
    exact Or.inl ⟨rfl, rfl⟩

theorem handleGo_location (gs : GameState) (d : String) :
    (handleGo gs d).Location = (goSwitch gs d).1.Location := by
  unfold handleGo
  dsimp only
  split_ifs <;> rfl

theorem handleGo_of_not_moved (gs g : GameState) (d : String) (h : goSwitch gs d = (g, false)) :
    handleGo gs d =
      { g with
          Message :=
            if d = "" then "Where do you want to go? (e.g., 'go security', 'go office')"
            else "You can't find a way to '" ++ d ++
              "' from here, or you don't know where that is." } := by
  unfold handleGo
  rw [h]
  by_cases hd : d = ""
  · subst hd; rfl
  · simp [hd]

theorem handleGo_of_moved (gs g : GameState) (d : String) (h : goSwitch gs d = (g, true))
    (hd : d ≠ "") : handleGo gs d = g := by
  unfold handleGo
  rw [h]
  simp [hd]

theorem ne_empty_of_Contains (s kw : String) (hne : kw.data ≠ [])
    (h : Contains s kw = true) : s ≠ "" := by
  rintro rfl
  exact hne (List.eq_nil_of_infix_nil ((Contains_iff "" kw).1 h))

theorem Fields_go_append (s : String) : Fields ("go " ++ s) = "go" :: Fields s := by
  unfold Fields
  rw [String.data_append]
  rfl

theorem objectOf_of_ne_nil (rest : List String) (h : rest ≠ []) :
    objectOf rest = Join rest " " := by
  unfold objectOf
  cases rest with
  | nil => exact absurd rfl h
  | cons a t => simp

theorem firstMatch_eq_none (gs : GameState) (d : String)
    (h : ∀ e ∈ edgesFrom gs.Location, ∀ kw ∈ e.keywords, Contains d kw = false) :
    firstMatch gs d = none := by
  unfold firstMatch
  rw [List.find?_eq_none]
  intro e he
  have := h e he
  simp only [edgeMatches, Bool.not_eq_true, List.any_eq_false]
  intro kw hkw
  rw [this kw hkw]

theorem edge_to_dock (loc : Location) (e : Edge) (he : e ∈ edgesFrom loc)
    (ht : e.target = LocLoadingDock) :
    e.needsMap = true ∧ (loc = LocSecurityStation ∨ loc = LocManagersOffice) := by
  rcases edgesFrom_cases loc with ⟨hl, hE⟩ | ⟨hl, hE⟩ | ⟨hl, hE⟩ | ⟨hl, hE⟩ | ⟨hl, hE⟩ |
    ⟨-, -, -, -, -, hE⟩
  all_goals rw [hE] at he
  · rcases List.mem_singleton.1 he with rfl
    exact absurd ht (by decide)
  · simp only [List.mem_cons, List.mem_singleton, List.not_mem_nil, or_false] at he
    rcases he with rfl | rfl | rfl | rfl
    · exact absurd ht (by decide)
    · exact absurd ht (by decide)
    · exact ⟨rfl, Or.inl hl⟩
    · exact absurd ht (by decide)
  · rcases List.mem_singleton.1 he with rfl
    exact absurd ht (by decide)
  · simp only [List.mem_cons, List.mem_singleton, List.not_mem_nil, or_false] at he
    rcases he with rfl | rfl
    · exact absurd ht (by decide)
    · exact ⟨rfl, Or.inr hl⟩
  · simp only [List.mem_cons, List.mem_singleton, List.not_mem_nil, or_false] at he
    rcases he with rfl | rfl
    · exact absurd ht (by decide)
    · exact absurd ht (by decide)
  · exact absurd he (List.not_mem_nil _)

theorem handleGo_to_dock (gs : GameState) (d : String)
    (h : (handleGo gs d).Location = LocLoadingDock) (hn : gs.Location ≠ LocLoadingDock) :
    mapHas gs.Clues "map_details" = true ∧
      (gs.Location = LocSecurityStation ∨ gs.Location = LocManagersOffice) := by
  rw [handleGo_location] at h
  rcases goSwitch_firstMatch gs d with ⟨-, hs⟩ | ⟨e, -, he, hloc, -⟩
  · rw [hs] at h; exact absurd h hn
  · rw [hloc] at h
    cases ho : edgeOpen gs e
    · rw [ho] at h; exact absurd h hn
    · rw [ho] at h
      obtain ⟨hm, hfrom⟩ := edge_to_dock gs.Location e he h
      refine ⟨?_, hfrom⟩
      unfold edgeOpen at ho
      rw [hm] at ho
      simpa using ho

/-! ## The classifier and the use handler -/

theorem HandleCommand_of_no_dialog (gs : GameState) (line : String) (h : ¬dialogActive gs) :
    HandleCommand gs line = dispatch gs (ToLower line) := by
  unfold dialogActive at h
  simp only [not_or] at h
  unfold HandleCommand codeSwitch
  simp only [if_neg h.1, if_neg h.2.1, if_neg h.2.2, ite_self]

theorem mapHas_of_mapVal_true (m : List (String × Bool)) (k : String)
    (h : mapVal false m k = true) : mapHas m k = true := by
  unfold mapHas
  rw [mapGet?_of_mapVal_true m k h]
  rfl

/-- What `handleCriticalUse` does: it opens the dialog of the location, or it
only sets a message. -/
theorem handleCriticalUse_cases (gs : GameState) (o f : String) :
    (gs.Location = LocLockerArea ∧ Contains (ToLower f) "8675309" = true ∧
      handleCriticalUse gs o f =
        { gs with
            Message := "Enter the code for the locker:"
            InputRequired := "locker_code"
            CurrentInput := "" }) ∨
    (gs.Location = LocManagersOffice ∧ Contains (ToLower f) "4711" = true ∧
      handleCriticalUse gs o f =
        { gs with
            Message := "Enter the code for the safe:"
            InputRequired := "safe_code"
            CurrentInput := "" }) ∨
    (gs.Location = LocLoadingDock ∧
      (Contains (ToLower f) "key" || (Contains (ToLower f) "overstock" ||
        Contains (ToLower f) "683778625")) = true ∧
      mapVal false gs.Inventory ItemOverrideKey = true ∧
      handleCriticalUse gs o f =
        { gs with
            Message := "You insert the Manual Override Key into the panel slot. Now, enter the activation code (OVERSTOCK or keypad numbers):"
            InputRequired := "breaker_code"
            CurrentInput := "" }) ∨
    ((gs.Location = LocLockerArea → Contains (ToLower f) "8675309" = false) ∧
      (gs.Location = LocManagersOffice → Contains (ToLower f) "4711" = false) ∧
      (gs.Location = LocLoadingDock →
        ((Contains (ToLower f) "key" || (Contains (ToLower f) "overstock" ||
          Contains (ToLower f) "683778625")) && mapVal false gs.Inventory ItemOverrideKey)
          = false) ∧
      ∃ msg, handleCriticalUse gs o f = { gs with Message := msg }) := by
  unfold handleCriticalUse
  dsimp only
  by_cases h2 : gs.Location = LocLockerArea
  · have n3 : gs.Location ≠ LocManagersOffice := by rw [h2]; decide
    have n4 : gs.Location ≠ LocLoadingDock := by rw [h2]; decide
    rw [if_pos h2]
    cases hc : Contains (ToLower f) "8675309"
    · exact Or.inr (Or.inr (Or.inr ⟨fun _ => rfl, fun h => absurd h n3, fun h => absurd h n4,
        _, rfl⟩))
    · exact Or.inl ⟨h2, rfl, rfl⟩
  by_cases h3 : gs.Location = LocManagersOffice
  · have n4 : gs.Location ≠ LocLoadingDock := by rw [h3]; decide
    rw [if_neg h2, if_pos h3]
    cases hc : Contains (ToLower f) "4711"
    · exact Or.inr (Or.inr (Or.inr ⟨fun h => absurd h h2, fun _ => rfl, fun h => absurd h n4,
        _, rfl⟩))
    · exact Or.inr (Or.inl ⟨h3, rfl, rfl⟩)
  by_cases h4 : gs.Location = LocLoadingDock
  · rw [if_neg h2, if_neg h3, if_pos h4]
    cases hm : (Contains (ToLower f) "key" || (Contains (ToLower f) "overstock" ||
        Contains (ToLower f) "683778625")) <;>
      cases hv : mapVal false gs.Inventory ItemOverrideKey
    · exact Or.inr (Or.inr (Or.inr ⟨fun h => absurd h h2, fun h => absurd h h3, fun _ => rfl,
        _, rfl⟩))
    · exact Or.inr (Or.inr (Or.inr ⟨fun h => absurd h h2, fun h => absurd h h3, fun _ => rfl,
        _, rfl⟩))
    · exact Or.inr (Or.inr (Or.inr ⟨fun h => absurd h h2, fun h => absurd h h3, fun _ => rfl,
        _, rfl⟩))
    · exact Or.inr (Or.inr (Or.inl ⟨h4, rfl, rfl, rfl⟩))
  · rw [if_neg h2, if_neg h3, if_neg h4]
    exact Or.inr (Or.inr (Or.inr ⟨fun h => absurd h h2, fun h => absurd h h3,
      fun h => absurd h h4, _, rfl⟩))

theorem IsCriticalUse_eq_true_iff (gs : GameState) (input : String) :
    IsCriticalUse gs input = true ↔
      (gs.Location = LocLockerArea ∧ Contains (ToLower input) "8675309" = true) ∨
      (gs.Location = LocManagersOffice ∧ Contains (ToLower input) "4711" = true) ∨
      (gs.Location = LocLoadingDock ∧ mapHas gs.Inventory ItemOverrideKey = true ∧
        (Contains (ToLower input) "key" = true ∨ Contains (ToLower input) "overstock" = true ∨
          Contains (ToLower input) "683778625" = true)) := by
  unfold IsCriticalUse
  dsimp only
  constructor
  · intro h
    split_ifs at h with h1 h2 h3
    · exact Or.inl h1
    · exact Or.inr (Or.inl h2)
    · refine Or.inr (Or.inr ⟨h3.1, h3.2.1, ?_⟩)
      simpa [Bool.or_eq_true, or_assoc] using h3.2.2
  · rintro (h | h | ⟨h1, h2, h3⟩)
    · rw [if_pos h]
    · split_ifs <;> rfl
    · have : (Contains (ToLower input) "key" || Contains (ToLower input) "overstock" ||
          Contains (ToLower input) "683778625") = true := by
        simpa [Bool.or_eq_true, or_assoc] using h3
      split_ifs with a b c
      · rfl
      · rfl
      · rfl
      · exact absurd ⟨h1, h2, this⟩ c

/-! ## Blank lines and the first word -/

theorem fieldsAux_of_all_space (l : List Char) (h : l.all isSpace = true) :
    fieldsAux [] l = [] := by
  induction l with
  | nil => rfl
  | cons c cs ih =>
    simp only [List.all_cons, Bool.and_eq_true] at h
    simp [fieldsAux, h.1, ih h.2]

theorem Fields_of_isBlank (s : String) (h : isBlank s = true) : Fields (ToLower s) = [] := by
  rw [Fields_ToLower]
  unfold Fields
  rw [fieldsAux_of_all_space s.data h]
  rfl

/-- The first word of the lowered line is the lowered first word of the
line. -/
theorem Fields_ToLower_cons (input w : String) (rest : List String)
    (h : Fields input = w :: rest) :
    Fields (ToLower input) = ToLower w :: rest.map ToLower := by
  rw [Fields_ToLower, h]
  rfl

theorem verb_cases (verb : String) :
    (verb = "go" ∨ verb = "g") ∨ (verb = "take" ∨ verb = "t") ∨ (verb = "use" ∨ verb = "u") ∨
    (verb = "inventory" ∨ verb = "i" ∨ verb = "inv") ∨ (verb = "help" ∨ verb = "h") ∨
    verb = "escape" ∨ (verb = "look" ∨ verb = "l" ∨ verb = "examine" ∨ verb = "x") ∨
    verb ∉ ["go", "g", "take", "t", "use", "u", "inventory", "i", "inv", "help", "h",
      "escape", "look", "l", "examine", "x"] := by
  by_cases h : verb ∈ ["go", "g", "take", "t", "use", "u", "inventory", "i", "inv", "help",
      "h", "escape", "look", "l", "examine", "x"]
  · simp only [List.mem_cons, List.mem_singleton, List.not_mem_nil, or_false] at h
    rcases h with h | h | h | h | h | h | h | h | h | h | h | h | h | h | h | h
    · exact Or.inl (Or.inl h)
    · exact Or.inl (Or.inr h)
    · exact Or.inr (Or.inl (Or.inl h))
    · exact Or.inr (Or.inl (Or.inr h))
    · exact Or.inr (Or.inr (Or.inl (Or.inl h)))
    · exact Or.inr (Or.inr (Or.inl (Or.inr h)))
    · exact Or.inr (Or.inr (Or.inr (Or.inl (Or.inl h))))
    · exact Or.inr (Or.inr (Or.inr (Or.inl (Or.inr (Or.inl h)))))
    · exact Or.inr (Or.inr (Or.inr (Or.inl (Or.inr (Or.inr h)))))
    · exact Or.inr (Or.inr (Or.inr (Or.inr (Or.inl (Or.inl h)))))
    · exact Or.inr (Or.inr (Or.inr (Or.inr (Or.inl (Or.inr h)))))
    · exact Or.inr (Or.inr (Or.inr (Or.inr (Or.inr (Or.inl h)))))
    · exact Or.inr (Or.inr (Or.inr (Or.inr (Or.inr (Or.inr (Or.inl (Or.inl h)))))))
    · exact Or.inr (Or.inr (Or.inr (Or.inr (Or.inr (Or.inr (Or.inl (Or.inr (Or.inl h))))))))
    · exact Or.inr (Or.inr (Or.inr (Or.inr (Or.inr (Or.inr (Or.inl
        (Or.inr (Or.inr (Or.inl h)))))))))
    · exact Or.inr (Or.inr (Or.inr (Or.inr (Or.inr (Or.inr (Or.inl
        (Or.inr (Or.inr (Or.inr h)))))))))
  · exact Or.inr (Or.inr (Or.inr (Or.inr (Or.inr (Or.inr (Or.inr h))))))

/-- With no dialog active, a command whose verb is not `use` or `u` leaves
Input Mode as it is. -/
theorem dispatch_inputRequired (gs : GameState) (input verb : String) (rest : List String)
    (h : Fields input = verb :: rest) (hv : ¬(verb = "use" ∨ verb = "u")) :
    (dispatch gs input).1.InputRequired = gs.InputRequired := by
  rcases verb_cases verb with h1 | h1 | h1 | h1 | h1 | h1 | h1 | h1
  · obtain ⟨loc, msg, he, -⟩ := handleGo_frame gs (objectOf rest)
    rw [dispatch_go gs input verb rest h h1, he]
  · obtain ⟨inv, msg, he⟩ := handleTake_frame gs (objectOf rest)
    rw [dispatch_take gs input verb rest h h1, he]
  · exact absurd h1 hv
  · rw [dispatch_inventory gs input verb rest h h1]
  · rw [dispatch_help gs input verb rest h h1]
  · rw [dispatch_escape gs input verb rest h h1]
    rcases escapeCase_frame gs with ⟨-, -, he⟩ | ⟨-, msg, he⟩
    · rw [he]
    · rw [he]
  · obtain ⟨msg, he⟩ := handleExamineFallback_frame gs (objectOf rest)
    rw [dispatch_look gs input verb rest h h1, he]
  · rw [dispatch_unknown gs input verb rest h h1]

/-! ## The description service -/

theorem visibleItems_eq_visibleBySpec (gs : GameState) : visibleItems gs = visibleBySpec gs := by
  unfold visibleItems visibleBySpec itemsAt takeable
  by_cases h1 : gs.Location = LocSecurityStation
  · rw [if_pos h1, if_pos h1]
    cases hv : mapVal false gs.Inventory ItemVoucher <;>
      cases hs : mapVal false gs.Inventory ItemScanner <;> simp [List.filter, hv, hs]
  by_cases h2 : gs.Location = LocLockerArea
  · rw [if_neg h1, if_pos h2, if_neg h1, if_pos h2]
    cases hv : mapVal false gs.Inventory ItemNotebook <;>
      cases hs : mapHas gs.Clues "locker_opened" <;> simp [List.filter, hv, hs]
  by_cases h3 : gs.Location = LocManagersOffice
  · rw [if_neg h1, if_neg h2, if_pos h3, if_neg h1, if_neg h2, if_pos h3]
    cases hc : mapVal false gs.Inventory ItemCard <;>
      cases hi : mapVal false gs.Inventory ItemInventory <;>
      cases hk : mapVal false gs.Inventory ItemOverrideKey <;>
      cases hs : mapHas gs.Clues "safe_opened" <;> simp [List.filter, hc, hi, hk, hs]
  · rw [if_neg h1, if_neg h2, if_neg h3, if_neg h1, if_neg h2, if_neg h3]
    rfl

theorem ToLower_Join (l : List String) (sep : String) :
    ToLower (Join l sep) = Join (l.map ToLower) (ToLower sep) := by
  induction l with
  | nil => rfl
  | cons a rest ih =>
    cases rest with
    | nil => rfl
    | cons b rest' =>
      rw [Join, ToLower_append, ToLower_append, ih]
      rfl

/-- The object the dispatcher passes on is already in lower case. -/
theorem ToLower_objectOf (rest : List String) :
    ToLower (objectOf (rest.map ToLower)) = objectOf (rest.map ToLower) := by
  unfold objectOf
  cases rest with
  | nil => rfl
  | cons a t =>
    simp only [List.map_cons, List.length_cons, Nat.zero_lt_succ, if_true, gt_iff_lt]
    rw [ToLower_Join]
    simp only [List.map_cons, List.map_map, ToLower_idem]
    congr 2
    apply List.map_congr_left
    intro s _
    exact ToLower_idem s

/-- Without an Inventory entry for the lowered object, the examine fallback
gives the environmental text of the location and then one hint for each item
that `GetVisibleItems` lists. -/
theorem handleExamineFallback_of_no_entry (gs : GameState) (o : String)
    (h : mapHas gs.Inventory (ToLower o) = false) :
    handleExamineFallback gs o =
      { gs with
          Message := environmentText gs.Location ++ concatAll ((visibleItems gs).map hintOf) } := by
  unfold handleExamineFallback
  dsimp only
  rw [if_neg (by rw [h]; decide)]
  unfold environmentText visibleItems
  obtain ⟨loc, inv, clues, over, msg, cur, req⟩ := gs
  dsimp only
  by_cases h0 : loc = LocRegister
  · subst h0; rfl
  by_cases h1 : loc = LocSecurityStation
  · subst h1
    cases mapVal false inv ItemVoucher <;> cases mapVal false inv ItemScanner <;> rfl
  by_cases h2 : loc = LocLockerArea
  · subst h2
    cases mapVal false inv ItemNotebook <;> cases mapHas clues "locker_opened" <;> rfl
  by_cases h3 : loc = LocManagersOffice
  · subst h3
    cases mapVal false inv ItemCard <;> cases mapVal false inv ItemInventory <;>
      cases mapVal false inv ItemOverrideKey <;> cases mapHas clues "safe_opened" <;> rfl
  by_cases h4 : loc = LocLoadingDock
  · subst h4; rfl
  · simp only [if_neg h0, if_neg h1, if_neg h2, if_neg h3, if_neg h4]
    rfl

/-! ## The inventory listing -/

theorem mem_mapKeys {β : Type} (m : List (String × β)) (k : String) :
    k ∈ mapKeys m ↔ mapHas m k = true := by
  induction m with
  | nil => simp [mapKeys, mapHas, mapGet?]
  | cons p rest ih =>
    obtain ⟨k', v⟩ := p
    unfold mapHas at ih ⊢
    by_cases h : k' = k
    · subst h; simp [mapKeys, mapGet?]
    · have h' : k ≠ k' := fun e => h e.symm
      simp [mapKeys, mapGet?, h, h', ih]

theorem mapKeys_eq_nil {β : Type} (m : List (String × β)) : mapKeys m = [] ↔ m = [] := by
  cases m with
  | nil => simp [mapKeys]
  | cons p rest => obtain ⟨k, v⟩ := p; simp [mapKeys]

theorem GetInventoryDescription_eq (gs : GameState) :
    GetInventoryDescription gs = renderInventory (mapKeys gs.Inventory) := rfl

theorem renderInventory_of_ne_nil (names : List String) (h : names ≠ []) :
    renderInventory names = "Inventory: " ++ Join names ", " ++ "." := by
  unfold renderInventory
  rw [if_neg (fun hl => h (List.length_eq_zero.1 hl))]

theorem comma_mem_Join (a b : String) (rest : List String) :
    ',' ∈ (Join (a :: b :: rest) ", ").data := by
  rw [Join, String.data_append, String.data_append]
  exact List.mem_append_left _ (List.mem_append_right _ (by decide))

/-- A listing that reads "Inventory: Empty." comes from no names at all, or
from the single name "Empty". -/
theorem names_of_render_Empty (names : List String)
    (h : renderInventory names = "Inventory: Empty.") : names = [] ∨ names = ["Empty"] := by
  cases names with
  | nil => exact Or.inl rfl
  | cons a t =>
    right
    rw [renderInventory_of_ne_nil _ (List.cons_ne_nil _ _)] at h
    have hd := congrArg String.data h
    rw [String.data_append, String.data_append,
      show ("Inventory: Empty." : String).data = ("Inventory: " : String).data ++
        (("Empty" : String).data ++ (".": String).data) from rfl,
      List.append_assoc] at hd
    have h1 := List.append_cancel_left hd
    have h2 : (Join (a :: t) ", ").data = ("Empty" : String).data := List.append_cancel_right h1
    cases t with
    | nil =>
      have : a = "Empty" := String.ext h2
      rw [this]
    | cons b rest =>
      have hc := comma_mem_Join a b rest
      rw [h2] at hc
      exact absurd hc (by decide)

theorem Contains_renderInventory (names : List String) (k : String) (hk : k ∈ names) :
    Contains (renderInventory names) k = true := by
  rw [renderInventory_of_ne_nil _ (List.ne_nil_of_mem hk), Contains_iff, String.data_append,
    String.data_append]
  exact ((infix_Join names ", " k hk).trans (List.suffix_append _ _).isInfix).trans
    (List.prefix_append _ _).isInfix

/-! ## What a command adds to Inventory and Facts -/

theorem mapHas_mapSet_of_mapHas {β : Type} (m : List (String × β)) (k k' : String) (v : β)
    (h : mapHas m k' = true) : mapHas (mapSet m k v) k' = true := by
  unfold mapHas at h ⊢
  by_cases hk : k = k'
  · subst hk; rw [mapGet?_mapSet_self]; rfl
  · rw [mapGet?_mapSet_ne m k k' v hk]; exact h

theorem mapHas_mapSet_self {β : Type} (m : List (String × β)) (k : String) (v : β) :
    mapHas (mapSet m k v) k = true := by
  unfold mapHas
  rw [mapGet?_mapSet_self]
  rfl

theorem mapVal_mapSet_true_of_mapVal (m : List (String × Bool)) (k k' : String)
    (h : mapVal false m k' = true) : mapVal false (mapSet m k true) k' = true := by
  unfold mapVal at h ⊢
  by_cases hk : k = k'
  · subst hk; rw [mapGet?_mapSet_self]; rfl
  · rw [mapGet?_mapSet_ne m k k' true hk]; exact h

theorem mapVal_mapSet_ne (m : List (String × Bool)) (k k' : String) (v : Bool) (h : k ≠ k') :
    mapVal false (mapSet m k v) k' = mapVal false m k' := by
  unfold mapVal
  rw [mapGet?_mapSet_ne m k k' v h]

theorem mapHas_mapSet_ne {β : Type} (m : List (String × β)) (k k' : String) (v : β)
    (h : k ≠ k') : mapHas (mapSet m k v) k' = mapHas m k' := by
  unfold mapHas
  rw [mapGet?_mapSet_ne m k k' v h]

/-- Writing the same value under the same key twice is writing it once. -/
theorem mapSet_mapSet_same {β : Type} (m : List (String × β)) (k : String) (v : β) :
    mapSet (mapSet m k v) k v = mapSet m k v := by
  induction m with
  | nil => simp [mapSet]
  | cons p rest ih =>
    obtain ⟨k', v'⟩ := p
    by_cases h : k' = k
    · simp [mapSet, h]
    · simp [mapSet, h, ih]

theorem lockerCodeCase_changes (gs : GameState) (x : String) :
    (x ≠ "8675309" ∧ lockerCodeCase gs x =
      { gs with Message := "Incorrect code. The lock doesn't budge.", InputRequired := "" }) ∨
    (x = "8675309" ∧ mapVal false gs.Inventory ItemNotebook = true ∧ lockerCodeCase gs x =
      { gs with
          Clues := mapSet gs.Clues "locker_opened" "true"
          Message := "Click! The locker swings open.\nIt's empty now."
          InputRequired := "" }) ∨
    (x = "8675309" ∧ mapVal false gs.Inventory ItemNotebook = false ∧ lockerCodeCase gs x =
      { gs with
          Inventory := mapSet gs.Inventory ItemNotebook true
          Clues := mapSet gs.Clues "locker_opened" "true"
          Message := "Click! The locker swings open.\nYou find a small notebook inside and take it."
          InputRequired := "" }) := by
  unfold lockerCodeCase
  dsimp only
  by_cases hx : x = "8675309"
  · rw [if_pos hx]
    cases hv : mapVal false gs.Inventory ItemNotebook
    · exact Or.inr (Or.inr ⟨hx, rfl, rfl⟩)
    · exact Or.inr (Or.inl ⟨hx, rfl, rfl⟩)
  · rw [if_neg hx]
    exact Or.inl ⟨hx, rfl⟩

theorem safeCodeCase_changes (gs : GameState) (x : String) :
    (x ≠ "4711" ∧ safeCodeCase gs x =
      { gs with Message := "Incorrect code. The safe remains locked.", InputRequired := "" }) ∨
    (x = "4711" ∧ mapVal false gs.Inventory ItemOverrideKey = true ∧ safeCodeCase gs x =
      { gs with
          Clues := mapSet gs.Clues "safe_opened" "true"
          Message := "Click! The safe door opens.\nIt's empty now."
          InputRequired := "" }) ∨
    (x = "4711" ∧ mapVal false gs.Inventory ItemOverrideKey = false ∧ safeCodeCase gs x =
      { gs with
          Inventory := mapSet gs.Inventory ItemOverrideKey true
          Clues := mapSet gs.Clues "safe_opened" "true"
          Message := "Click! The safe door opens.\nYou find the Manual Override Key inside and take it."
          InputRequired := "" }) := by
  unfold safeCodeCase
  dsimp only
  by_cases hx : x = "4711"
  · rw [if_pos hx]
    cases hv : mapVal false gs.Inventory ItemOverrideKey
    · exact Or.inr (Or.inr ⟨hx, rfl, rfl⟩)
    · exact Or.inr (Or.inl ⟨hx, rfl, rfl⟩)
  · rw [if_neg hx]
    exact Or.inl ⟨hx, rfl⟩

theorem breakerCodeCase_changes (gs : GameState) (x : String) :
    ((x = "overstock" ∨ x = "683778625") ∧ mapHas gs.Inventory ItemOverrideKey = true ∧
      breakerCodeCase gs x =
        { gs with
            Clues := mapSet gs.Clues "door_unlocked" "true"
            Message := (breakerCodeCase gs x).Message
            InputRequired := "" }) ∨
    (¬((x = "overstock" ∨ x = "683778625") ∧ mapHas gs.Inventory ItemOverrideKey = true) ∧
      breakerCodeCase gs x =
        { gs with Message := (breakerCodeCase gs x).Message, InputRequired := "" }) := by
  unfold breakerCodeCase
  dsimp only
  cases hk : mapHas gs.Inventory ItemOverrideKey
  · refine Or.inr ⟨fun h => absurd h.2 (by decide), ?_⟩
    rw [Bool.and_false]
    rfl
  · by_cases hc : x = "overstock" ∨ x = "683778625"
    · refine Or.inl ⟨hc, rfl, ?_⟩
      have : (decide (x = "overstock") || decide (x = "683778625")) = true := by
        simpa [Bool.or_eq_true] using hc
      rw [this]
      rfl
    · refine Or.inr ⟨fun h => hc h.1, ?_⟩
      have : (decide (x = "overstock") || decide (x = "683778625")) = false := by
        simpa [Bool.or_eq_true] using hc
      rw [this]
      rfl

theorem handleTake_changes (gs : GameState) (o : String) :
    (∃ msg, handleTake gs o = { gs with Message := msg }) ∨
    (takeGrants gs (ToLower o) ∧ mapHas gs.Inventory (ToLower o) = false ∧
      handleTake gs o =
        { gs with
            Inventory := mapSet gs.Inventory (ToLower o) true
            Message := "You take the " ++ ToLower o ++ "." }) := by
  cases hh : mapHas gs.Inventory (ToLower o)
  · rw [handleTake_of_no_entry gs o hh]
    rcases takeSwitch_lowered gs o with ⟨hg, hs⟩ | ⟨-, -, -, hs⟩ | ⟨-, -, hs⟩
    · rw [hs]; exact Or.inr ⟨hg, rfl, rfl⟩
    · rw [hs]; exact Or.inl ⟨_, rfl⟩
    · rw [hs]; exact Or.inl ⟨_, rfl⟩
  · rw [handleTake_of_entry gs o hh]
    exact Or.inl ⟨_, rfl⟩

/-- What one command does to Facts and Inventory: Facts gets at most one key
written with "true", Inventory at most one item written with true, and a
granted Notebook or OverrideKey comes with its prerequisite fact. -/
theorem HandleCommand_changes (gs : GameState) (line : String) :
    ((HandleCommand gs line).1.Clues = gs.Clues ∨
      ∃ k, (HandleCommand gs line).1.Clues = mapSet gs.Clues k "true") ∧
    ((HandleCommand gs line).1.Inventory = gs.Inventory ∨
      ∃ i, (HandleCommand gs line).1.Inventory = mapSet gs.Inventory i true ∧
        (i = ItemNotebook → mapHas (HandleCommand gs line).1.Clues "locker_opened" = true) ∧
        (i = ItemOverrideKey → mapHas (HandleCommand gs line).1.Clues "safe_opened" = true)) := by
  rcases HandleCommand_cases gs line with ⟨-, hc⟩ | ⟨-, hc⟩ | ⟨-, hc⟩ | hc
  · rw [hc]
    rcases lockerCodeCase_changes gs (ToLower line) with ⟨-, he⟩ | ⟨-, -, he⟩ | ⟨-, -, he⟩
    · rw [he]; exact ⟨Or.inl rfl, Or.inl rfl⟩
    · rw [he]; exact ⟨Or.inr ⟨_, rfl⟩, Or.inl rfl⟩
    · rw [he]
      exact ⟨Or.inr ⟨_, rfl⟩, Or.inr ⟨_, rfl, fun _ => mapHas_mapSet_self _ _ _,
        fun h => absurd h (by decide)⟩⟩
  · rw [hc]
    rcases safeCodeCase_changes gs (ToLower line) with ⟨-, he⟩ | ⟨-, -, he⟩ | ⟨-, -, he⟩
    · rw [he]; exact ⟨Or.inl rfl, Or.inl rfl⟩
    · rw [he]; exact ⟨Or.inr ⟨_, rfl⟩, Or.inl rfl⟩
    · rw [he]
      exact ⟨Or.inr ⟨_, rfl⟩, Or.inr ⟨_, rfl, fun h => absurd h (by decide),
        fun _ => mapHas_mapSet_self _ _ _⟩⟩
  · rw [hc]
    rcases breakerCodeCase_changes gs (ToLower line) with ⟨-, -, he⟩ | ⟨-, he⟩
    · rw [he]; exact ⟨Or.inr ⟨_, rfl⟩, Or.inl rfl⟩
    · rw [he]; exact ⟨Or.inl rfl, Or.inl rfl⟩
  · rw [hc]
    rcases dispatch_cases gs (ToLower line) with ⟨m, b, hd⟩ | ⟨o, hd⟩ | ⟨o, hd⟩ | ⟨o, hd⟩ | hd
    · rw [hd]; exact ⟨Or.inl rfl, Or.inl rfl⟩
    · obtain ⟨loc, msg, he, -⟩ := handleGo_frame gs o
      rw [hd, he]; exact ⟨Or.inl rfl, Or.inl rfl⟩
    · rw [hd]
      rcases handleTake_changes gs o with ⟨msg, he⟩ | ⟨hg, -, he⟩
      · rw [he]; exact ⟨Or.inl rfl, Or.inl rfl⟩
      · rw [he]
        refine ⟨Or.inl rfl, Or.inr ⟨_, rfl, fun hn => ?_, fun hk => ?_⟩⟩
        · rcases hg with ⟨-, h⟩ | ⟨-, -, h⟩ | ⟨-, h | h⟩
          · rw [hn] at h; exact absurd h (by decide)
          · exact h
          · rw [hn] at h; exact absurd h (by decide)
          · rw [hn] at h; exact absurd h (by decide)
        · rcases hg with ⟨-, h⟩ | ⟨-, h, -⟩ | ⟨-, h | h⟩ <;>
            (rw [hk] at h; exact absurd h (by decide))
    · obtain ⟨msg, cur, req, he⟩ := handleCriticalUse_frame gs o (ToLower line)
      rw [hd, he]; exact ⟨Or.inl rfl, Or.inl rfl⟩
    · rw [hd]
      rcases escapeCase_frame gs with ⟨-, -, he⟩ | ⟨-, msg, he⟩
      · rw [he]; exact ⟨Or.inl rfl, Or.inl rfl⟩
      · rw [he]; exact ⟨Or.inl rfl, Or.inl rfl⟩

theorem HandleCommand_keeps_facts (gs : GameState) (line k : String)
    (h : mapHas gs.Clues k = true) : mapHas (HandleCommand gs line).1.Clues k = true := by
  rcases (HandleCommand_changes gs line).1 with he | ⟨k', he⟩
  · rw [he]; exact h
  · rw [he]; exact mapHas_mapSet_of_mapHas _ _ _ _ h

theorem prerequisitesMet_HandleCommand (gs : GameState) (line : String)
    (h : prerequisitesMet gs) : prerequisitesMet (HandleCommand gs line).1 := by
  obtain ⟨hn, hk⟩ := h
  rcases (HandleCommand_changes gs line).2 with he | ⟨i, he, hin, hik⟩
  · rw [prerequisitesMet, he]
    exact ⟨fun h => HandleCommand_keeps_facts gs line _ (hn h),
      fun h => HandleCommand_keeps_facts gs line _ (hk h)⟩
  · rw [prerequisitesMet, he]
    constructor
    · intro h
      by_cases hi : i = ItemNotebook
      · exact hin hi
      · rw [mapHas_mapSet_ne _ _ _ _ hi] at h
        exact HandleCommand_keeps_facts gs line _ (hn h)
    · intro h
      by_cases hi : i = ItemOverrideKey
      · exact hik hi
      · rw [mapHas_mapSet_ne _ _ _ _ hi] at h
        exact HandleCommand_keeps_facts gs line _ (hk h)

theorem prerequisitesMetOfHeld_HandleCommand (gs : GameState) (line : String)
    (h : prerequisitesMetOfHeld gs) : prerequisitesMetOfHeld (HandleCommand gs line).1 := by
  obtain ⟨hn, hk⟩ := h
  rcases (HandleCommand_changes gs line).2 with he | ⟨i, he, hin, hik⟩
  · rw [prerequisitesMetOfHeld, he]
    exact ⟨fun h => HandleCommand_keeps_facts gs line _ (hn h),
      fun h => HandleCommand_keeps_facts gs line _ (hk h)⟩
  · rw [prerequisitesMetOfHeld, he]
    constructor
    · intro h
      by_cases hi : i = ItemNotebook
      · exact hin hi
      · rw [mapVal_mapSet_ne _ _ _ _ hi] at h
        exact HandleCommand_keeps_facts gs line _ (hn h)
    · intro h
      by_cases hi : i = ItemOverrideKey
      · exact hik hi
      · rw [mapVal_mapSet_ne _ _ _ _ hi] at h
        exact HandleCommand_keeps_facts gs line _ (hk h)

theorem prerequisitesMet_run (lines : List String) (gs : GameState) (h : prerequisitesMet gs) :
    prerequisitesMet (run gs lines) := by
  induction lines generalizing gs with
  | nil => exact h
  | cons line rest ih => exact ih _ (prerequisitesMet_HandleCommand gs line h)

theorem prerequisitesMetOfHeld_run (lines : List String) (gs : GameState)
    (h : prerequisitesMetOfHeld gs) : prerequisitesMetOfHeld (run gs lines) := by
  induction lines generalizing gs with
  | nil => exact h
  | cons line rest ih => exact ih _ (prerequisitesMetOfHeld_HandleCommand gs line h)

theorem breakerCodeCorrect_of_lowered (line : String)
    (h : ToLower line = "overstock" ∨ ToLower line = "683778625") : breakerCodeCorrect line := by
  rcases h with h | h
  · exact Or.inl h
  · exact Or.inr ((ToLower_eq_keypad_code line).1 h)

theorem inputModeOk_HandleCommand (gs : GameState) (line : String) (h : inputModeOk gs) :
    inputModeOk (HandleCommand gs line).1 := by
  have cleared : dialogActive gs → (HandleCommand gs line).1.InputRequired = "" := by
    intro hd
    rcases hd with h1 | h1 | h1
    · rw [HandleCommand_locker gs line h1]; rfl
    · rw [HandleCommand_safe gs line h1]; rfl
    · rw [HandleCommand_breaker gs line h1]; rfl
  rcases h with hi | ⟨hi, -⟩ | ⟨hi, -⟩ | ⟨hi, -, -⟩
  · rw [HandleCommand_noDialog gs line hi]
    cases hf : Fields (ToLower line) with
    | nil =>
      rw [dispatch_blank gs _ hf]
      exact Or.inl hi
    | cons verb rest =>
      by_cases hv : verb = "use" ∨ verb = "u"
      · rw [dispatch_use gs _ _ _ hf hv]
        rcases handleCriticalUse_cases gs (objectOf rest) (ToLower line) with
          ⟨hl, -, he⟩ | ⟨hl, -, he⟩ | ⟨hl, -, hk, he⟩ | ⟨-, -, -, msg, he⟩
        · rw [he]; exact Or.inr (Or.inl ⟨rfl, hl⟩)
        · rw [he]; exact Or.inr (Or.inr (Or.inl ⟨rfl, hl⟩))
        · rw [he]; exact Or.inr (Or.inr (Or.inr ⟨rfl, hl, hk⟩))
        · rw [he]; exact Or.inl hi
      · exact Or.inl ((dispatch_inputRequired gs _ _ _ hf hv).trans hi)
  · exact Or.inl (cleared (Or.inl hi))
  · exact Or.inl (cleared (Or.inr (Or.inl hi)))
  · exact Or.inl (cleared (Or.inr (Or.inr hi)))

theorem inputModeOk_run (lines : List String) (gs : GameState) (h : inputModeOk gs) :
    inputModeOk (run gs lines) := by
  induction lines generalizing gs with
  | nil => exact h
  | cons line rest ih => exact ih _ (inputModeOk_HandleCommand gs line h)

/-! ## The blocked way to the loading dock -/

/-- A go that does not move, on a non-empty destination, ends with the generic
failure message, whatever the `switch` wrote before. -/
theorem handleGo_blocked_message (gs g : GameState) (d : String)
    (h : goSwitch gs d = (g, false)) (hd : d ≠ "") :
    (handleGo gs d).Message =
      "You can't find a way to '" ++ d ++ "' from here, or you don't know where that is." := by
  rw [handleGo_of_not_moved gs g d h, if_neg hd]

/-! ## Frames of the message-only verbs, of take and of go -/

theorem mapSet_of_no_entry {β : Type} (m : List (String × β)) (k : String) (v : β)
    (h : mapHas m k = false) : mapSet m k v = m ++ [(k, v)] := by
  induction m with
  | nil => rfl
  | cons p rest ih =>
    obtain ⟨k', v'⟩ := p
    unfold mapHas at h ih
    by_cases hk : k' = k
    · simp [mapGet?, hk] at h
    · simp only [mapGet?, if_neg hk] at h
      simp [mapSet, hk, ih h]

theorem Contains_GetVisibleItems (gs : GameState) (k : String) (hk : k ∈ visibleItems gs) :
    Contains (GetVisibleItems gs) k = true := by
  have hne : (visibleItems gs).length > 0 := List.length_pos_of_mem hk
  unfold GetVisibleItems
  dsimp only
  rw [if_pos hne, Contains_iff, String.data_append, String.data_append]
  exact ((infix_Join _ ", " k hk).trans (List.suffix_append _ _).isInfix).trans
    (List.prefix_append _ _).isInfix

/-- With no dialog active, a line that is blank or whose first word is none of
go, g, take, t, use, u, escape sets the message and nothing else. -/
theorem dispatch_message_only (gs : GameState) (input : String)
    (hv : ∀ w rest, Fields input = w :: rest →
      w ∉ ["go", "g", "take", "t", "use", "u", "escape"]) :
    ∃ msg, (dispatch gs input).1 = { gs with Message := msg } := by
  cases hf : Fields input with
  | nil => rw [dispatch_blank gs input hf]; exact ⟨_, rfl⟩
  | cons w rest =>
    have hw := hv w rest hf
    simp only [List.mem_cons, List.mem_singleton, List.not_mem_nil, or_false, not_or] at hw
    obtain ⟨h1, h2, h3, h4, h5, h6, h7⟩ := hw
    rcases verb_cases w with h | h | h | h | h | h | h | h
    · exact absurd h (not_or.2 ⟨h1, h2⟩)
    · exact absurd h (not_or.2 ⟨h3, h4⟩)
    · exact absurd h (not_or.2 ⟨h5, h6⟩)
    · rw [dispatch_inventory gs input w rest hf h]; exact ⟨_, rfl⟩
    · rw [dispatch_help gs input w rest hf h]; exact ⟨_, rfl⟩
    · exact absurd h h7
    · rw [dispatch_look gs input w rest hf h]
      exact handleExamineFallback_frame gs (objectOf rest)
    · rw [dispatch_unknown gs input w rest hf h]; exact ⟨_, rfl⟩

theorem edge_target_mem_neighbours (loc : Location) (e : Edge) (he : e ∈ edgesFrom loc) :
    e.target ∈ neighbours loc := by
  rcases edgesFrom_cases loc with ⟨hl, hE⟩ | ⟨hl, hE⟩ | ⟨hl, hE⟩ | ⟨hl, hE⟩ | ⟨hl, hE⟩ |
    ⟨-, -, -, -, -, hE⟩
  all_goals rw [hE] at he
  all_goals simp only [List.mem_cons, List.mem_singleton, List.not_mem_nil, or_false] at he
  · subst hl; subst he; decide
  · subst hl; rcases he with rfl | rfl | rfl | rfl <;> decide
  · subst hl; subst he; decide
  · subst hl; rcases he with rfl | rfl <;> decide
  · subst hl; rcases he with rfl | rfl <;> decide

theorem LocEscaped_not_mem_neighbours (loc : Location) : LocEscaped ∉ neighbours loc := by
  unfold neighbours
  split_ifs <;> decide

/-- The location after a go is the old one or a neighbour of it. -/
theorem handleGo_neighbour (gs : GameState) (d : String) :
    (handleGo gs d).Location = gs.Location ∨ (handleGo gs d).Location ∈ neighbours gs.Location := by
  rw [handleGo_location]
  rcases goSwitch_firstMatch gs d with ⟨-, hs⟩ | ⟨e, -, he, hloc, -⟩
  · rw [hs]; exact Or.inl rfl
  · rw [hloc]
    cases edgeOpen gs e
    · exact Or.inl rfl
    · exact Or.inr (edge_target_mem_neighbours gs.Location e he)

/-- The location after a command is the old one or a neighbour of it. -/
theorem HandleCommand_neighbour (gs : GameState) (line : String) :
    (HandleCommand gs line).1.Location = gs.Location ∨
      (HandleCommand gs line).1.Location ∈ neighbours gs.Location := by
  rcases HandleCommand_cases gs line with ⟨-, h⟩ | ⟨-, h⟩ | ⟨-, h⟩ | h
  · obtain ⟨inv, clues, msg, he, -⟩ := lockerCodeCase_frame gs (ToLower line)
    rw [h, he]; exact Or.inl rfl
  · obtain ⟨inv, clues, msg, he, -⟩ := safeCodeCase_frame gs (ToLower line)
    rw [h, he]; exact Or.inl rfl
  · obtain ⟨clues, msg, he, -⟩ := breakerCodeCase_frame gs (ToLower line)
    rw [h, he]; exact Or.inl rfl
  · rw [h]
    rcases dispatch_cases gs (ToLower line) with ⟨m, b, hd⟩ | ⟨o, hd⟩ | ⟨o, hd⟩ | ⟨o, hd⟩ | hd
    · rw [hd]; exact Or.inl rfl
    · rw [hd]; exact handleGo_neighbour gs o
    · obtain ⟨inv, msg, he⟩ := handleTake_frame gs o
      rw [hd, he]; exact Or.inl rfl
    · obtain ⟨msg, cur, req, he⟩ := handleCriticalUse_frame gs o (ToLower line)
      rw [hd, he]; exact Or.inl rfl
    · rw [hd]
      rcases escapeCase_frame gs with ⟨-, -, he⟩ | ⟨-, msg, he⟩
      · rw [he]; exact Or.inl rfl
      · rw [he]; exact Or.inl rfl

theorem HandleCommand_not_to_escaped (gs : GameState) (line : String)
    (h : (HandleCommand gs line).1.Location = LocEscaped) : gs.Location = LocEscaped := by
  rcases HandleCommand_neighbour gs line with h1 | h1
  · rw [← h1]; exact h
  · rw [h] at h1
    exact absurd h1 (LocEscaped_not_mem_neighbours gs.Location)

theorem run_not_escaped (lines : List String) (gs : GameState)
    (h : gs.Location ≠ LocEscaped) : (run gs lines).Location ≠ LocEscaped := by
  induction lines generalizing gs with
  | nil => exact h
  | cons line rest ih =>
    exact ih _ (fun hc => h (HandleCommand_not_to_escaped gs line hc))

/-! ## The message before a command does not matter -/

theorem lockerCodeCase_message (gs : GameState) (x m : String) :
    lockerCodeCase { gs with Message := m } x = lockerCodeCase gs x := rfl

theorem safeCodeCase_message (gs : GameState) (x m : String) :
    safeCodeCase { gs with Message := m } x = safeCodeCase gs x := rfl

theorem breakerCodeCase_message (gs : GameState) (x m : String) :
    breakerCodeCase { gs with Message := m } x = breakerCodeCase gs x := rfl

theorem handleCriticalUse_message (gs : GameState) (o f m : String) :
    handleCriticalUse { gs with Message := m } o f = handleCriticalUse gs o f := rfl

theorem handleExamineFallback_message (gs : GameState) (o m : String) :
    handleExamineFallback { gs with Message := m } o = handleExamineFallback gs o := rfl

/-- The `switch` of `handleGo` on two states that differ in the message only:
the same flag, the same state up to the message, and the same state when it
moves. -/
theorem goSwitch_message (gs : GameState) (d m : String) :
    (goSwitch { gs with Message := m } d).2 = (goSwitch gs d).2 ∧
    (∀ x, { (goSwitch { gs with Message := m } d).1 with Message := x } =
      { (goSwitch gs d).1 with Message := x }) ∧
    ((goSwitch gs d).2 = true → (goSwitch { gs with Message := m } d).1 = (goSwitch gs d).1) := by
  by_cases h0 : gs.Location = LocRegister
  · rw [goSwitch_at_register gs d h0, goSwitch_at_register { gs with Message := m } d h0]
    generalize (Contains d "security" || Contains d "electronics" ||
      Contains d "back" || Contains d "scream") = b
    cases b
    · exact ⟨rfl, fun _ => rfl, fun h => absurd (show false = true from h) (by decide)⟩
    · exact ⟨rfl, fun _ => rfl, fun _ => rfl⟩
  by_cases h1 : gs.Location = LocSecurityStation
  · rw [goSwitch_at_security gs d h1, goSwitch_at_security { gs with Message := m } d h1]
    generalize Contains d "locker" = b1
    generalize (Contains d "office" || Contains d "manager") = b2
    generalize (Contains d "loading" || Contains d "dock" || Contains d "breaker") = b3
    generalize (Contains d "register" || Contains d "front") = b4
    have hc : ({ gs with Message := m } : GameState).Clues = gs.Clues := rfl
    rw [hc]
    generalize mapHas gs.Clues "map_details" = b5
    cases b1
    · cases b2
      · cases b3
        · cases b4
          · exact ⟨rfl, fun _ => rfl, fun h => absurd (show false = true from h) (by decide)⟩
          · exact ⟨rfl, fun _ => rfl, fun _ => rfl⟩
        · cases b5
          · exact ⟨rfl, fun _ => rfl, fun _ => rfl⟩
          · exact ⟨rfl, fun _ => rfl, fun _ => rfl⟩
      · exact ⟨rfl, fun _ => rfl, fun _ => rfl⟩
    · exact ⟨rfl, fun _ => rfl, fun _ => rfl⟩
  by_cases h2 : gs.Location = LocLockerArea
  · rw [goSwitch_at_locker gs d h2, goSwitch_at_locker { gs with Message := m } d h2]
    generalize Contains d "security" = b
    cases b
    · exact ⟨rfl, fun _ => rfl, fun h => absurd (show false = true from h) (by decide)⟩
    · exact ⟨rfl, fun _ => rfl, fun _ => rfl⟩
  by_cases h3 : gs.Location = LocManagersOffice
  · rw [goSwitch_at_office gs d h3, goSwitch_at_office { gs with Message := m } d h3]
    generalize (Contains d "security" || Contains d "customer service") = b1
    generalize (Contains d "loading" || Contains d "dock" || Contains d "breaker") = b3
    have hc : ({ gs with Message := m } : GameState).Clues = gs.Clues := rfl
    rw [hc]
    generalize mapHas gs.Clues "map_details" = b5
    cases b1
    · cases b3
      · exact ⟨rfl, fun _ => rfl, fun h => absurd (show false = true from h) (by decide)⟩
      · cases b5
        · exact ⟨rfl, fun _ => rfl, fun _ => rfl⟩
        · exact ⟨rfl, fun _ => rfl, fun _ => rfl⟩
    · exact ⟨rfl, fun _ => rfl, fun _ => rfl⟩
  by_cases h4 : gs.Location = LocLoadingDock
  · rw [goSwitch_at_dock gs d h4, goSwitch_at_dock { gs with Message := m } d h4]
    generalize Contains d "office" = b1
    generalize Contains d "security" = b2
    cases b1
    · cases b2
      · exact ⟨rfl, fun _ => rfl, fun h => absurd (show false = true from h) (by decide)⟩
      · exact ⟨rfl, fun _ => rfl, fun _ => rfl⟩
    · exact ⟨rfl, fun _ => rfl, fun _ => rfl⟩
  · rw [goSwitch_elsewhere gs d h0 h1 h2 h3 h4,
      goSwitch_elsewhere { gs with Message := m } d h0 h1 h2 h3 h4]
    exact ⟨rfl, fun _ => rfl, fun h => absurd (show false = true from h) (by decide)⟩

theorem handleGo_message (gs : GameState) (d m : String) :
    handleGo { gs with Message := m } d = handleGo gs d := by
  obtain ⟨hb, hx, hm⟩ := goSwitch_message gs d m
  unfold handleGo
  dsimp only
  rw [hb]
  by_cases hd : d = ""
  · rw [if_neg (by simp [hd]), if_pos hd, if_neg (by simp [hd]), if_pos hd]
    exact hx _
  · cases hmv : (goSwitch gs d).2
    · rw [if_pos (by simp [hd]), if_pos (by simp [hd])]
      exact hx _
    · rw [if_neg (by simp), if_neg hd, if_neg (by simp), if_neg hd]
      exact hm hmv

theorem takeSwitch_message (gs : GameState) (t : Item) (m : String) :
    takeSwitch { gs with Message := m } t =
      match takeSwitch gs t with
      | .fallsThrough g b => .fallsThrough { g with Message := m } b
      | .returned g => .returned g := by
  unfold takeSwitch
  dsimp only
  split_ifs <;> rfl

theorem handleTake_message (gs : GameState) (o m : String) :
    handleTake { gs with Message := m } o = handleTake gs o := by
  unfold handleTake
  dsimp only
  rw [takeSwitch_message]
  cases mapHas gs.Inventory (ToLower o)
  · cases takeSwitch gs (ToLower o) with
    | returned g => rfl
    | fallsThrough g b => cases b <;> rfl
  · rfl

theorem escapeCase_message (gs : GameState) (m : String)
    (h : ¬(gs.Location = LocLoadingDock ∧ mapGet? gs.Clues "door_unlocked" = some "true")) :
    escapeCase { gs with Message := m } = escapeCase gs := by
  rcases escapeCase_frame gs with ⟨h1, h2, -⟩ | ⟨-, -, -⟩
  · exact absurd ⟨h1, h2⟩ h
  · have hv : ¬(gs.Location = LocLoadingDock ∧ mapVal "" gs.Clues "door_unlocked" = "true") := by
      rintro ⟨ha, hb⟩
      apply h
      refine ⟨ha, ?_⟩
      unfold mapVal at hb
      cases hg : mapGet? gs.Clues "door_unlocked" with
      | none => rw [hg] at hb; exact absurd hb (by decide)
      | some v => rw [hg] at hb; exact congrArg some hb
    unfold escapeCase
    dsimp only
    rw [if_neg hv, if_neg hv]

/-- The verb dispatch on two states that differ in the message only gives the
same result, unless the command is an escape that succeeds. -/
theorem dispatch_message (gs : GameState) (input m : String)
    (h : ¬((∃ rest, Fields input = "escape" :: rest) ∧ gs.Location = LocLoadingDock ∧
      mapGet? gs.Clues "door_unlocked" = some "true")) :
    dispatch { gs with Message := m } input = dispatch gs input := by
  cases hf : Fields input with
  | nil => rw [dispatch_blank gs input hf, dispatch_blank _ input hf]
  | cons w rest =>
    rcases verb_cases w with h1 | h1 | h1 | h1 | h1 | h1 | h1 | h1
    · rw [dispatch_go gs input w rest hf h1, dispatch_go _ input w rest hf h1, handleGo_message]
    · rw [dispatch_take gs input w rest hf h1, dispatch_take _ input w rest hf h1,
        handleTake_message]
    · rw [dispatch_use gs input w rest hf h1, dispatch_use _ input w rest hf h1,
        handleCriticalUse_message]
    · rw [dispatch_inventory gs input w rest hf h1, dispatch_inventory _ input w rest hf h1]
      rfl
    · rw [dispatch_help gs input w rest hf h1, dispatch_help _ input w rest hf h1]
    · rw [dispatch_escape gs input w rest hf h1, dispatch_escape _ input w rest hf h1,
        escapeCase_message gs m (fun hc => h ⟨⟨rest, by rw [hf, h1]⟩, hc.1, hc.2⟩)]
    · rw [dispatch_look gs input w rest hf h1, dispatch_look _ input w rest hf h1,
        handleExamineFallback_message]
    · rw [dispatch_unknown gs input w rest hf h1, dispatch_unknown _ input w rest hf h1]

theorem HandleCommand_message (gs : GameState) (line m : String)
    (h : ¬escapeSucceeds gs line) :
    HandleCommand { gs with Message := m } line = HandleCommand gs line := by
  by_cases h1 : gs.InputRequired = "locker_code"
  · rw [HandleCommand_locker gs line h1, HandleCommand_locker { gs with Message := m } line h1,
      lockerCodeCase_message]
  by_cases h2 : gs.InputRequired = "safe_code"
  · rw [HandleCommand_safe gs line h2, HandleCommand_safe { gs with Message := m } line h2,
      safeCodeCase_message]
  by_cases h3 : gs.InputRequired = "breaker_code"
  · rw [HandleCommand_breaker gs line h3,
      HandleCommand_breaker { gs with Message := m } line h3, breakerCodeCase_message]
  have hd : ¬dialogActive gs := fun hc => hc.elim h1 (fun hc => hc.elim h2 h3)
  rw [HandleCommand_of_no_dialog gs line hd,
    HandleCommand_of_no_dialog { gs with Message := m } line hd]
  exact dispatch_message gs _ m (fun hc => h ⟨hd, hc.1, hc.2.1, hc.2.2⟩)

theorem HandleCommand_of_escapeSucceeds (gs : GameState) (line : String)
    (h : escapeSucceeds gs line) :
    HandleCommand gs line = ({ gs with GameOver := true }, true) := by
  obtain ⟨hd, ⟨rest, hf⟩, hl, hc⟩ := h
  rw [HandleCommand_of_no_dialog gs line hd, dispatch_escape gs _ _ rest hf rfl]
  rcases escapeCase_frame gs with ⟨-, -, he⟩ | ⟨hn, -⟩
  · rw [he]
  · exact absurd ⟨hl, hc⟩ hn

/-! ## Spacing of the line -/

/-- The fields of a text are not empty and hold no white space. -/
theorem fieldsAux_spaceFree (l cur : List Char) (hcur : ∀ c ∈ cur, isSpace c = false) :
    ∀ f ∈ fieldsAux cur l, f.data ≠ [] ∧ ∀ c ∈ f.data, isSpace c = false := by
  induction l generalizing cur with
  | nil =>
    intro f hf
    cases cur with
    | nil => simp [fieldsAux] at hf
    | cons a t =>
      simp only [fieldsAux, List.isEmpty_cons, Bool.false_eq_true, if_false,
        List.mem_singleton] at hf
      subst hf
      exact ⟨by simp, fun c hc => hcur c (List.mem_reverse.1 hc)⟩
  | cons c cs ih =>
    intro f hf
    by_cases hs : isSpace c = true
    · cases cur with
      | nil =>
        simp only [fieldsAux, hs, if_true, List.isEmpty_nil] at hf
        exact ih [] (fun _ h => absurd h (List.not_mem_nil _)) f hf
      | cons a t =>
        simp only [fieldsAux, hs, if_true, List.isEmpty_cons, Bool.false_eq_true, if_false,
          List.mem_cons] at hf
        rcases hf with rfl | hf
        · exact ⟨by simp, fun c hc => hcur c (List.mem_reverse.1 hc)⟩
        · exact ih [] (fun _ h => absurd h (List.not_mem_nil _)) f hf
    · simp only [fieldsAux, hs, Bool.false_eq_true, if_false] at hf
      refine ih (c :: cur) ?_ f hf
      intro x hx
      rcases List.mem_cons.1 hx with rfl | hx
      · simpa using hs
      · exact hcur x hx

/-- Reading a word without white space moves it into the field being read. -/
theorem fieldsAux_word (w l cur : List Char) (hw : ∀ c ∈ w, isSpace c = false) :
    fieldsAux cur (w ++ l) = fieldsAux (w.reverse ++ cur) l := by
  induction w generalizing cur with
  | nil => rfl
  | cons c w ih =>
    have hc : isSpace c = false := hw c (List.mem_cons_self _ _)
    rw [List.cons_append, fieldsAux, hc]
    simp only [Bool.false_eq_true, if_false]
    rw [ih (c :: cur) (fun x hx => hw x (List.mem_cons_of_mem _ hx))]
    simp

/-- Words without white space, joined by single spaces, are read back as the
same words. -/
theorem Fields_Join (fs : List String)
    (h : ∀ f ∈ fs, f.data ≠ [] ∧ ∀ c ∈ f.data, isSpace c = false) :
    Fields (Join fs " ") = fs := by
  induction fs with
  | nil => rfl
  | cons a rest ih =>
    obtain ⟨hne, hsp⟩ := h a (List.mem_cons_self _ _)
    cases rest with
    | nil =>
      unfold Fields
      rw [Join]
      have := fieldsAux_word a.data [] [] hsp
      rw [List.append_nil, List.append_nil] at this
      rw [this]
      cases hd : a.data.reverse with
      | nil => exact absurd (List.reverse_eq_nil_iff.1 hd) hne
      | cons x t =>
        simp only [fieldsAux, List.isEmpty_cons, Bool.false_eq_true, if_false]
        rw [← hd, List.reverse_reverse]
    | cons b rest' =>
      have ih1 := ih (fun f hf => h f (List.mem_cons_of_mem _ hf))
      unfold Fields at ih1 ⊢
      rw [Join, String.data_append, String.data_append]
      have hsep : (" " : String).data = [' '] := rfl
      rw [hsep, List.append_assoc, fieldsAux_word a.data _ [] hsp, List.append_nil,
        List.singleton_append]
      cases hd : a.data.reverse with
      | nil => exact absurd (List.reverse_eq_nil_iff.1 hd) hne
      | cons x t =>
        have hsp1 : isSpace ' ' = true := by decide
        simp only [fieldsAux, hsp1, if_true, List.isEmpty_cons, Bool.false_eq_true, if_false]
        rw [ih1, ← hd, List.reverse_reverse]

/-- Every field lies in the text. -/
theorem fieldsAux_infix (l cur : List Char) :
    ∀ f ∈ fieldsAux cur l, f.data <:+: cur.reverse ++ l := by
  induction l generalizing cur with
  | nil =>
    intro f hf
    cases cur with
    | nil => simp [fieldsAux] at hf
    | cons a t =>
      simp only [fieldsAux, List.isEmpty_cons, Bool.false_eq_true, if_false,
        List.mem_singleton] at hf
      subst hf
      rw [List.append_nil]
  | cons c cs ih =>
    intro f hf
    by_cases hs : isSpace c = true
    · cases cur with
      | nil =>
        simp only [fieldsAux, hs, if_true, List.isEmpty_nil] at hf
        have := ih [] f hf
        simp only [List.reverse_nil, List.nil_append] at this ⊢
        exact List.infix_cons this
      | cons a t =>
        simp only [fieldsAux, hs, if_true, List.isEmpty_cons, Bool.false_eq_true, if_false,
          List.mem_cons] at hf
        rcases hf with rfl | hf
        · exact (List.prefix_append _ _).isInfix
        · have := ih [] f hf
          simp only [List.reverse_nil, List.nil_append] at this
          exact (List.infix_cons this).trans (List.suffix_append _ _).isInfix
    · simp only [fieldsAux, hs, Bool.false_eq_true, if_false] at hf
      have := ih (c :: cur) f hf
      simpa using this

/-- A word without white space lies in the text exactly when it lies in one of
its fields. -/
theorem Contains_iff_field (s kw : String) (hne : kw.data ≠ [])
    (hsp : ∀ c ∈ kw.data, isSpace c = false) :
    Contains s kw = true ↔ ∃ f ∈ Fields s, kw.data <:+: f.data := by
  rw [Contains_iff]
  constructor
  · intro h
    exact infix_fieldsAux kw.data hne hsp [] s.data (by simpa using h)
  · rintro ⟨f, hf, hwf⟩
    have := fieldsAux_infix s.data [] f hf
    simp only [List.reverse_nil, List.nil_append] at this
    exact hwf.trans this

theorem fieldsAux_ne_nil (l cur : List Char) (hcur : cur ≠ []) : fieldsAux cur l ≠ [] := by
  induction l generalizing cur with
  | nil =>
    cases cur with
    | nil => exact absurd rfl hcur
    | cons a t => simp [fieldsAux]
  | cons c cs ih =>
    by_cases hs : isSpace c = true
    · cases cur with
      | nil => exact absurd rfl hcur
      | cons a t => simp [fieldsAux, hs]
    · simp only [fieldsAux, hs, Bool.false_eq_true, if_false]
      exact ih (c :: cur) (List.cons_ne_nil _ _)

theorem Join_cons_data (a : String) (fs : List String) (h : fs ≠ []) :
    (Join (a :: fs) " ").data = a.data ++ ' ' :: (Join fs " ").data := by
  cases fs with
  | nil => exact absurd rfl h
  | cons b rest =>
    rw [Join, String.data_append, String.data_append, List.append_assoc]
    rfl

/-- After a word, the squeezed rest of the line is the fields of the rest
joined by single spaces, behind the word being read or behind a space. -/
theorem squeezeSpaces_started (l : List Char) :
    (fieldsAux [] l = [] → squeezeSpaces true true l = []) ∧
    (fieldsAux [] l ≠ [] →
      squeezeSpaces true true l = ' ' :: (Join (fieldsAux [] l) " ").data) ∧
    (∀ cur, cur ≠ [] →
      cur.reverse ++ squeezeSpaces true false l = (Join (fieldsAux cur l) " ").data) := by
  induction l with
  | nil =>
    refine ⟨fun _ => rfl, fun h => absurd rfl h, fun cur hcur => ?_⟩
    cases cur with
    | nil => exact absurd rfl hcur
    | cons a t => simp [fieldsAux, squeezeSpaces, Join]
  | cons c cs ih =>
    obtain ⟨ih1, ih2, ih3⟩ := ih
    by_cases hs : isSpace c = true
    · have hf : fieldsAux [] (c :: cs) = fieldsAux [] cs := by simp [fieldsAux, hs]
      have hq : ∀ b, squeezeSpaces true b (c :: cs) = squeezeSpaces true true cs := by
        intro b; simp [squeezeSpaces, hs]
      refine ⟨fun h => ?_, fun h => ?_, fun cur hcur => ?_⟩
      · rw [hq]; exact ih1 (hf ▸ h)
      · rw [hq, hf]; exact ih2 (hf ▸ h)
      · have hfc : fieldsAux cur (c :: cs) = ⟨cur.reverse⟩ :: fieldsAux [] cs := by
          cases cur with
          | nil => exact absurd rfl hcur
          | cons a t => simp [fieldsAux, hs]
        rw [hq, hfc]
        by_cases he : fieldsAux [] cs = []
        · rw [ih1 he, he, List.append_nil]; rfl
        · rw [ih2 he, Join_cons_data _ _ he]
    · have hf : ∀ cur, fieldsAux cur (c :: cs) = fieldsAux (c :: cur) cs := by
        intro cur; simp [fieldsAux, hs]
      refine ⟨fun h => ?_, fun _ => ?_, fun cur _ => ?_⟩
      · exact absurd (hf [] ▸ h) (fieldsAux_ne_nil cs [c] (List.cons_ne_nil _ _))
      · have hq : squeezeSpaces true true (c :: cs) = ' ' :: c :: squeezeSpaces true false cs := by
          simp [squeezeSpaces, hs]
        rw [hq, hf, ← ih3 [c] (List.cons_ne_nil _ _)]
        rfl
      · have hq : squeezeSpaces true false (c :: cs) = c :: squeezeSpaces true false cs := by
          simp [squeezeSpaces, hs]
        rw [hq, hf, ← ih3 (c :: cur) (List.cons_ne_nil _ _)]
        simp

theorem squeezeSpaces_eq (l : List Char) :
    squeezeSpaces false false l = (Join (fieldsAux [] l) " ").data := by
  induction l with
  | nil => rfl
  | cons c cs ih =>
    by_cases hs : isSpace c = true
    · have hf : fieldsAux [] (c :: cs) = fieldsAux [] cs := by simp [fieldsAux, hs]
      have hq : squeezeSpaces false false (c :: cs) = squeezeSpaces false false cs := by
        simp [squeezeSpaces, hs]
      rw [hq, hf, ih]
    · have hf : fieldsAux [] (c :: cs) = fieldsAux [c] cs := by simp [fieldsAux, hs]
      have hq : squeezeSpaces false false (c :: cs) = c :: squeezeSpaces true false cs := by
        simp [squeezeSpaces, hs]
      rw [hq, hf, ← (squeezeSpaces_started cs).2.2 [c] (List.cons_ne_nil _ _)]
      rfl

/-- The normalized line is the words of the line joined by single spaces. -/
theorem normalizeSpaces_eq (s : String) : normalizeSpaces s = Join (Fields s) " " := by
  apply String.ext
  exact squeezeSpaces_eq s.data

theorem Fields_normalizeSpaces (s : String) : Fields (normalizeSpaces s) = Fields s := by
  rw [normalizeSpaces_eq]
  exact Fields_Join (Fields s)
    (fieldsAux_spaceFree s.data [] (fun _ h => absurd h (List.not_mem_nil _)))

theorem Contains_normalizeSpaces (s kw : String) (hne : kw.data ≠ [])
    (hsp : ∀ c ∈ kw.data, isSpace c = false) :
    Contains (normalizeSpaces s) kw = Contains s kw := by
  rw [Bool.eq_iff_iff, Contains_iff_field _ kw hne hsp, Contains_iff_field _ kw hne hsp,
    Fields_normalizeSpaces]

theorem ToLower_normalizeSpaces (s : String) :
    ToLower (normalizeSpaces s) = normalizeSpaces (ToLower s) := by
  rw [normalizeSpaces_eq, normalizeSpaces_eq, ToLower_Join, Fields_ToLower]
  rfl

/-- The verb dispatch gives the same result on two lines with the same fields
that agree on which of the five keywords of `handleCriticalUse` they hold. -/
theorem dispatch_congr (gs : GameState) (a b : String) (hf : Fields a = Fields b)
    (h1 : Contains (ToLower a) "8675309" = Contains (ToLower b) "8675309")
    (h2 : Contains (ToLower a) "4711" = Contains (ToLower b) "4711")
    (h3 : Contains (ToLower a) "key" = Contains (ToLower b) "key")
    (h4 : Contains (ToLower a) "overstock" = Contains (ToLower b) "overstock")
    (h5 : Contains (ToLower a) "683778625" = Contains (ToLower b) "683778625") :
    dispatch gs a = dispatch gs b := by
  cases hb : Fields b with
  | nil => rw [dispatch_blank gs b hb, dispatch_blank gs a (hf.trans hb)]
  | cons w rest =>
    have ha := hf.trans hb
    rcases verb_cases w with h | h | h | h | h | h | h | h
    · rw [dispatch_go gs a w rest ha h, dispatch_go gs b w rest hb h]
    · rw [dispatch_take gs a w rest ha h, dispatch_take gs b w rest hb h]
    · rw [dispatch_use gs a w rest ha h, dispatch_use gs b w rest hb h]
      unfold handleCriticalUse
      dsimp only
      rw [h1, h2, h3, h4, h5]
    · rw [dispatch_inventory gs a w rest ha h, dispatch_inventory gs b w rest hb h]
    · rw [dispatch_help gs a w rest ha h, dispatch_help gs b w rest hb h]
    · rw [dispatch_escape gs a w rest ha h, dispatch_escape gs b w rest hb h]
    · rw [dispatch_look gs a w rest ha h, dispatch_look gs b w rest hb h]
    · rw [dispatch_unknown gs a w rest ha h, dispatch_unknown gs b w rest hb h]

theorem dispatch_normalizeSpaces (gs : GameState) (s : String) :
    dispatch gs (normalizeSpaces s) = dispatch gs s := by
  apply dispatch_congr gs _ _ (Fields_normalizeSpaces s)
  all_goals rw [ToLower_normalizeSpaces]
  · exact Contains_normalizeSpaces _ "8675309" (by decide) (by decide)
  · exact Contains_normalizeSpaces _ "4711" (by decide) (by decide)
  · exact Contains_normalizeSpaces _ "key" (by decide) (by decide)
  · exact Contains_normalizeSpaces _ "overstock" (by decide) (by decide)
  · exact Contains_normalizeSpaces _ "683778625" (by decide) (by decide)

/-! ## The escape and the values of the facts -/

/-- With no dialog active and the escaped flag false, "escape" sets the flag
exactly at the loading dock with the fact door_unlocked at the value "true". -/
theorem HandleCommand_escape_iff (gs : GameState) (h : gs.InputRequired = "")
    (hg : gs.GameOver = false) :
    (HandleCommand gs "escape").1.GameOver = true ↔
      gs.Location = LocLoadingDock ∧ mapGet? gs.Clues "door_unlocked" = some "true" := by
  rw [HandleCommand_escape gs h]
  rcases escapeCase_frame gs with ⟨h1, h2, he⟩ | ⟨h1, msg, he⟩
  · rw [he]; exact ⟨fun _ => ⟨h1, h2⟩, fun _ => rfl⟩
  · rw [he]
    constructor
    · intro hc
      have hc' : gs.GameOver = true := hc
      rw [hg] at hc'
      exact absurd hc' (by decide)
    · intro hc; exact absurd hc h1

theorem factsAllTrue_mapSet (gs : GameState) (k : String) (hf : factsAllTrue gs) :
    ∀ k' v, mapGet? (mapSet gs.Clues k "true") k' = some v → v = "true" := by
  intro k' v hv
  by_cases hk : k = k'
  · subst hk
    rw [mapGet?_mapSet_self] at hv
    exact (Option.some.inj hv).symm
  · rw [mapGet?_mapSet_ne _ _ _ _ hk] at hv
    exact hf k' v hv

/-- Every command keeps the facts recorded with the value "true". -/
theorem factsAllTrue_HandleCommand (gs : GameState) (line : String) (hf : factsAllTrue gs) :
    factsAllTrue (HandleCommand gs line).1 := by
  unfold factsAllTrue
  rcases (HandleCommand_changes gs line).1 with h | ⟨k, h⟩
  · rw [h]; exact hf
  · rw [h]; exact factsAllTrue_mapSet gs k hf

theorem factsAllTrue_run (lines : List String) (gs : GameState) (hf : factsAllTrue gs) :
    factsAllTrue (run gs lines) := by
  induction lines generalizing gs with
  | nil => exact hf
  | cons line rest ih => exact ih _ (factsAllTrue_HandleCommand gs line hf)

/-- Where every fact has the value "true", a fact is present exactly when it
has that value. -/
theorem mapHas_iff_of_factsAllTrue (gs : GameState) (k : String) (hf : factsAllTrue gs) :
    mapHas gs.Clues k = true ↔ mapGet? gs.Clues k = some "true" := by
  unfold mapHas
  constructor
  · intro h
    cases hg : mapGet? gs.Clues k with
    | none => rw [hg] at h; exact absurd h (by decide)
    | some v => rw [hf k v hg]
  · intro h; rw [h]; rfl

/-! ## The interpreter under every order of the inventory listing -/

theorem dispatchIn_inventory (names : List String) (gs : GameState) (input verb : String)
    (rest : List String) (h : Fields input = verb :: rest)
    (hv : verb = "inventory" ∨ verb = "i" ∨ verb = "inv") :
    dispatchIn names gs input = ({ gs with Message := renderInventory names }, true) := by
  unfold dispatchIn
  rw [h]
  rcases hv with rfl | rfl | rfl <;> rfl

theorem dispatchIn_of_not_inventory (names : List String) (gs : GameState) (input : String)
    (h : ∀ verb rest, Fields input = verb :: rest →
      ¬(verb = "inventory" ∨ verb = "i" ∨ verb = "inv")) :
    dispatchIn names gs input = dispatch gs input := by
  cases hf : Fields input with
  | nil =>
    rw [dispatch_blank gs input hf]
    unfold dispatchIn
    rw [hf]
  | cons verb rest =>
    have hn := h verb rest hf
    unfold dispatchIn dispatch
    rw [hf]
    dsimp only
    rw [if_neg hn, if_neg hn]

theorem dispatchIn_mapKeys (gs : GameState) (input : String) :
    dispatchIn (mapKeys gs.Inventory) gs input = dispatch gs input := rfl

theorem HandleCommandIn_mapKeys (gs : GameState) (line : String) :
    HandleCommandIn (mapKeys gs.Inventory) gs line = HandleCommand gs line := rfl

theorem HandleCommandIn_of_no_dialog (names : List String) (gs : GameState) (line : String)
    (h : ¬dialogActive gs) :
    HandleCommandIn names gs line = dispatchIn names gs (ToLower line) := by
  unfold dialogActive at h
  simp only [not_or] at h
  unfold HandleCommandIn codeSwitch
  simp only [if_neg h.1, if_neg h.2.1, if_neg h.2.2, ite_self]

theorem HandleCommandIn_of_dialog (names : List String) (gs : GameState) (line : String)
    (h : dialogActive gs) : HandleCommandIn names gs line = HandleCommand gs line := by
  rcases h with h | h | h
  · rw [HandleCommand_locker gs line h]; simp [HandleCommandIn, codeSwitch, h]
  · rw [HandleCommand_safe gs line h]; simp [HandleCommandIn, codeSwitch, h]
  · rw [HandleCommand_breaker gs line h]; simp [HandleCommandIn, codeSwitch, h]

/-- A command that lists the inventory sets the message to the listing in the
order of the `range`, and nothing else. -/
theorem HandleCommandIn_of_listsInventory (names : List String) (gs : GameState)
    (line : String) (h : listsInventory gs line) :
    HandleCommandIn names gs line = ({ gs with Message := renderInventory names }, true) := by
  obtain ⟨hd, verb, rest, hf, hv⟩ := h
  rw [HandleCommandIn_of_no_dialog names gs line hd, dispatchIn_inventory names gs _ verb rest hf hv]

/-- On every other command the order of the `range` plays no part. -/
theorem HandleCommandIn_of_not_listsInventory (names : List String) (gs : GameState)
    (line : String) (h : ¬listsInventory gs line) :
    HandleCommandIn names gs line = HandleCommand gs line := by
  by_cases hd : dialogActive gs
  · exact HandleCommandIn_of_dialog names gs line hd
  · rw [HandleCommandIn_of_no_dialog names gs line hd, HandleCommand_of_no_dialog gs line hd]
    exact dispatchIn_of_not_inventory names gs _
      (fun verb rest hf hv => h ⟨hd, verb, rest, hf, hv⟩)

theorem listsInventory_normalizeSpaces (gs : GameState) (line : String) :
    listsInventory gs (normalizeSpaces line) ↔ listsInventory gs line := by
  unfold listsInventory
  rw [ToLower_normalizeSpaces, Fields_normalizeSpaces]

theorem not_listsInventory_of_escapeSucceeds (gs : GameState) (line : String)
    (h : escapeSucceeds gs line) : ¬listsInventory gs line := by
  obtain ⟨-, ⟨rest, hf⟩, -, -⟩ := h
  rintro ⟨-, verb, rest1, hf1, hv⟩
  rw [hf] at hf1
  have hv1 : "escape" = verb := (List.cons.inj hf1).1
  subst hv1
  revert hv
  decide

/-! ## The claims -/

/-- C1 (fails on the code): whatever command lines are handled one after
another from the state built by NewGameState(), the escaped flag is false and
the player is not at the loading dock, because no command ever records the
fact map_details that both edges to the loading dock require. -/
theorem game_cannot_be_won (lines : List String) :
    (run NewGameState lines).GameOver = false ∧
    (run NewGameState lines).Location ≠ LocLoadingDock := by
  have h := noMapYet_run lines NewGameState ⟨rfl, by decide, rfl⟩
  exact ⟨h.2.2, h.2.1⟩

/-- The walkthrough of the puzzle path stops at the manager's office: the go
to the loading dock is refused. -/
theorem walkthrough_stops_before_dock :
    (run NewGameState ["go security", "go locker", "use 8675309", "8675309", "go security",
      "go office", "use 4711", "4711", "go loading dock"]).Location = LocManagersOffice ∧
    (run NewGameState ["go security", "go locker", "use 8675309", "8675309", "go security",
      "go office", "use 4711", "4711", "go loading dock"]).Message =
      "You can't find a way to 'loading dock' from here, or you don't know where that is." := by
  decide

/-- C2: with no dialog active and the escaped flag false, in a state whose
facts are all recorded with the value "true", "escape" sets the escaped flag
if and only if Location = LoadingDock and the fact door_unlocked is present;
in every other combination the flag stays false.  The interpreter records a
fact with no other value: the initial state has no fact, and every command
and every session keep the facts at "true". -/
theorem escape_iff_at_dock_and_door_present (gs : GameState) (h : gs.InputRequired = "")
    (hg : gs.GameOver = false) (hf : factsAllTrue gs) :
    ((HandleCommand gs "escape").1.GameOver = true ↔
      gs.Location = LocLoadingDock ∧ mapHas gs.Clues "door_unlocked" = true) ∧
    ((HandleCommand gs "escape").1.GameOver = false ↔
      ¬(gs.Location = LocLoadingDock ∧ mapHas gs.Clues "door_unlocked" = true)) ∧
    factsAllTrue NewGameState ∧
    (∀ line, factsAllTrue (HandleCommand gs line).1) ∧
    (∀ lines, factsAllTrue (run NewGameState lines)) := by
  have hnew : factsAllTrue NewGameState := fun k v hv => absurd hv (by simp [NewGameState, mapGet?])
  have hiff : (HandleCommand gs "escape").1.GameOver = true ↔
      gs.Location = LocLoadingDock ∧ mapHas gs.Clues "door_unlocked" = true := by
    rw [HandleCommand_escape_iff gs h hg, mapHas_iff_of_factsAllTrue gs _ hf]
  refine ⟨hiff, ?_, hnew, fun line => factsAllTrue_HandleCommand gs line hf,
    fun lines => factsAllTrue_run lines NewGameState hnew⟩
  rw [← hiff]
  cases (HandleCommand gs "escape").1.GameOver <;> simp

theorem escape_iff_at_dock_and_door_present_witness :
    (HandleCommand { NewGameState with
      Location := LocLoadingDock, Clues := [("door_unlocked", "true")] } "escape").1.GameOver
      = true :=
  (escape_iff_at_dock_and_door_present
    { NewGameState with Location := LocLoadingDock, Clues := [("door_unlocked", "true")] }
    rfl rfl (by
      intro k v hv
      simp only [mapGet?] at hv
      split_ifs at hv
      exact (Option.some.inj hv).symm)).1.2 ⟨rfl, rfl⟩

/-- C3: in the breaker dialog the fact door_unlocked is set to "true" exactly
when an OverrideKey entry is in Inventory and the code is correct ("overstock"
in any letter case, or "683778625"); otherwise Facts is unchanged, with the
"You need the Manual Override Key" message whenever the key is missing and the
"Incorrect code" message when the key is there and the code is wrong. -/
theorem breaker_code_four_combinations (gs : GameState) (line : String)
    (h : gs.InputRequired = "breaker_code") :
    (mapHas gs.Inventory ItemOverrideKey = true ∧ breakerCodeCorrect line →
      mapGet? (HandleCommand gs line).1.Clues "door_unlocked" = some "true") ∧
    (¬(mapHas gs.Inventory ItemOverrideKey = true ∧ breakerCodeCorrect line) →
      (HandleCommand gs line).1.Clues = gs.Clues) ∧
    (mapHas gs.Inventory ItemOverrideKey = false →
      (HandleCommand gs line).1.Message =
        "You need the Manual Override Key inserted to activate the panel.") ∧
    (mapHas gs.Inventory ItemOverrideKey = true ∧ ¬breakerCodeCorrect line →
      (HandleCommand gs line).1.Message =
        "Incorrect code entered on the keypad. Nothing happens.") := by
  rw [HandleCommand_breaker gs line h]
  simp only [breakerCodeCorrect_iff]
  unfold breakerCodeCase
  cases hk : mapHas gs.Inventory ItemOverrideKey <;>
    cases hc : (decide (ToLower line = "overstock") || decide (ToLower line = "683778625")) <;>
    simp [mapGet?_mapSet_self]

theorem breaker_code_four_combinations_witness :
    atPanelWithKey.InputRequired = "breaker_code" ∧
    mapGet? (HandleCommand atPanelWithKey "OVERSTOCK").1.Clues "door_unlocked" = some "true" :=
  ⟨rfl, (breaker_code_four_combinations atPanelWithKey "OVERSTOCK" rfl).1
    ⟨by decide, Or.inl (by decide)⟩⟩

/-- C4: while one of the three code dialogs is active, every input line is
answered with Handled (true) and leaves Input Mode cleared. -/
theorem dialog_consumes_one_line (gs : GameState) (line : String)
    (h : gs.InputRequired = "locker_code" ∨ gs.InputRequired = "safe_code" ∨
      gs.InputRequired = "breaker_code") :
    (HandleCommand gs line).2 = true ∧ (HandleCommand gs line).1.InputRequired = "" := by
  rcases h with h | h | h
  · rw [HandleCommand_locker gs line h]; exact ⟨rfl, rfl⟩
  · rw [HandleCommand_safe gs line h]; exact ⟨rfl, rfl⟩
  · rw [HandleCommand_breaker gs line h]; exact ⟨rfl, rfl⟩

theorem dialog_consumes_one_line_witness :
    (HandleCommand { NewGameState with InputRequired := "safe_code" } "go security").2 = true ∧
    (HandleCommand { NewGameState with InputRequired := "safe_code" }
      "go security").1.InputRequired = "" :=
  dialog_consumes_one_line { NewGameState with InputRequired := "safe_code" } "go security"
    (Or.inr (Or.inl rfl))

/-- C5: the correct locker code "8675309" sets the fact locker_opened to
"true", leaves the Notebook in Inventory, clears Input Mode, returns true and
gives a message starting "Click! The locker swings open." (followed by the
line "You find a small notebook inside and take it." when the Notebook was not
held); the correct safe code "4711" does the same with safe_opened, the
OverrideKey and "Click! The safe door opens.". -/
theorem correct_code_opens_and_grants (gs : GameState) :
    (gs.InputRequired = "locker_code" →
      mapGet? (HandleCommand gs "8675309").1.Clues "locker_opened" = some "true" ∧
      mapGet? (HandleCommand gs "8675309").1.Inventory ItemNotebook = some true ∧
      (HandleCommand gs "8675309").1.InputRequired = "" ∧
      (HandleCommand gs "8675309").2 = true ∧
      (∃ rest, (HandleCommand gs "8675309").1.Message =
        "Click! The locker swings open." ++ rest) ∧
      (mapVal false gs.Inventory ItemNotebook = false →
        (HandleCommand gs "8675309").1.Message =
          "Click! The locker swings open.\nYou find a small notebook inside and take it.")) ∧
    (gs.InputRequired = "safe_code" →
      mapGet? (HandleCommand gs "4711").1.Clues "safe_opened" = some "true" ∧
      mapGet? (HandleCommand gs "4711").1.Inventory ItemOverrideKey = some true ∧
      (HandleCommand gs "4711").1.InputRequired = "" ∧
      (HandleCommand gs "4711").2 = true ∧
      (∃ rest, (HandleCommand gs "4711").1.Message = "Click! The safe door opens." ++ rest)) := by
  constructor
  · intro h
    rw [HandleCommand_locker gs _ h, show ToLower "8675309" = "8675309" from rfl]
    unfold lockerCodeCase
    cases hv : mapVal false gs.Inventory ItemNotebook
    · simp only [hv, if_true, Bool.not_false]
      exact ⟨mapGet?_mapSet_self _ _ _, mapGet?_mapSet_self _ _ _, trivial, trivial, ⟨_, rfl⟩,
        fun _ => rfl⟩
    · simp only [hv, if_true, if_false, Bool.not_true, Bool.false_eq_true]
      exact ⟨mapGet?_mapSet_self _ _ _, mapGet?_of_mapVal_true _ _ hv, trivial, trivial, ⟨_, rfl⟩,
        fun h => absurd h (by decide)⟩
  · intro h
    rw [HandleCommand_safe gs _ h, show ToLower "4711" = "4711" from rfl]
    unfold safeCodeCase
    cases hv : mapVal false gs.Inventory ItemOverrideKey
    · simp only [hv, if_true, Bool.not_false]
      exact ⟨mapGet?_mapSet_self _ _ _, mapGet?_mapSet_self _ _ _, trivial, trivial, ⟨_, rfl⟩⟩
    · simp only [hv, if_true, if_false, Bool.not_true, Bool.false_eq_true]
      exact ⟨mapGet?_mapSet_self _ _ _, mapGet?_of_mapVal_true _ _ hv, trivial, trivial, ⟨_, rfl⟩⟩

theorem correct_code_opens_and_grants_witness :
    (HandleCommand { NewGameState with Location := LocLockerArea, InputRequired := "locker_code" }
      "8675309").1.Message =
      "Click! The locker swings open.\nYou find a small notebook inside and take it." :=
  ((correct_code_opens_and_grants
    { NewGameState with Location := LocLockerArea, InputRequired := "locker_code" }).1
      rfl).2.2.2.2.2 rfl

/-- C6: in the locker (resp. safe) dialog every line other than exactly
"8675309" (resp. "4711") only sets the failure message and clears Input Mode:
Location, Inventory, Facts, the escaped flag and the input buffer stay as
they were. -/
theorem wrong_numeric_code_changes_nothing (gs : GameState) (line : String) :
    (gs.InputRequired = "locker_code" → line ≠ "8675309" →
      HandleCommand gs line =
        ({ gs with Message := "Incorrect code. The lock doesn't budge.", InputRequired := "" },
          true)) ∧
    (gs.InputRequired = "safe_code" → line ≠ "4711" →
      HandleCommand gs line =
        ({ gs with Message := "Incorrect code. The safe remains locked.", InputRequired := "" },
          true)) := by
  constructor
  · intro h hne
    have hl : ¬ToLower line = "8675309" := fun hl => hne ((ToLower_eq_locker_code line).1 hl)
    rw [HandleCommand_locker gs line h]
    unfold lockerCodeCase
    simp only [if_neg hl]
  · intro h hne
    have hl : ¬ToLower line = "4711" := fun hl => hne ((ToLower_eq_safe_code line).1 hl)
    rw [HandleCommand_safe gs line h]
    unfold safeCodeCase
    simp only [if_neg hl]

theorem wrong_numeric_code_changes_nothing_witness :
    HandleCommand { NewGameState with Location := LocLockerArea, InputRequired := "locker_code" }
        " 86753090" =
      ({ NewGameState with
          Location := LocLockerArea
          Message := "Incorrect code. The lock doesn't budge." }, true) :=
  (wrong_numeric_code_changes_nothing
    { NewGameState with Location := LocLockerArea, InputRequired := "locker_code" }
    " 86753090").1 rfl (by decide)

/-- C7 (fails on the code): at the security station with nothing held the
Scanner is listed by GetVisibleItems, yet "take Dale's handheld scanner" adds
nothing to Inventory and answers with the not-found message; likewise the
OverrideKey at the manager's office with the safe open. -/
theorem take_scanner_by_name_fails :
    ItemScanner ∈ visibleItems (run NewGameState ["go security"]) ∧
    HandleCommand (run NewGameState ["go security"]) "take Dale's handheld scanner" =
      ({ run NewGameState ["go security"] with
          Message := "You don't see a 'dale's handheld scanner' you can take here." }, true) ∧
    ItemOverrideKey ∈ visibleItems
      { NewGameState with Location := LocManagersOffice, Clues := [("safe_opened", "true")] } ∧
    HandleCommand
        { NewGameState with Location := LocManagersOffice, Clues := [("safe_opened", "true")] }
        "take Manual Override Key" =
      ({ NewGameState with
          Location := LocManagersOffice
          Clues := [("safe_opened", "true")]
          Message := "You don't see a 'manual override key' you can take here." }, true) := by
  decide

/-- C8 (as stated, fails): the voucher, once held, is not among the visible
items, yet take of it answers "You already have ..." and not the not-found
message. -/
theorem take_not_visible_counterexample :
    ItemVoucher ∉ visibleItems holdingVoucher ∧
    (handleTake holdingVoucher ItemVoucher).Message =
      "You already have the crumpled employee discount voucher." ∧
    (handleTake holdingVoucher ItemVoucher).Message ≠
      "You don't see a '" ++ ItemVoucher ++ "' you can take here." := by
  decide

/-- C8 (amended): for every state and every take target that is not, in any
letter case, the name of an item GetVisibleItems lists in that state, take
leaves Inventory unchanged; and, for a target other than the names of the
Scanner and the OverrideKey, the message is "You already have the <target>."
when the target is an Inventory entry, "The locker needs to be open first."
when it is the Notebook at LockerArea, and the not-found message
"You don't see a '<target>' you can take here." otherwise. -/
theorem take_of_target_not_visible (gs : GameState) (o : String)
    (hnv : ∀ i ∈ visibleItems gs, ¬equalsIgnoringCase o i) :
    (handleTake gs o).Inventory = gs.Inventory ∧
    (¬equalsIgnoringCase o ItemScanner → ¬equalsIgnoringCase o ItemOverrideKey →
      (handleTake gs o).Message =
        if mapHas gs.Inventory (ToLower o) = true then
          "You already have the " ++ ToLower o ++ "."
        else if gs.Location = LocLockerArea ∧ ToLower o = ItemNotebook then
          "The locker needs to be open first."
        else "You don't see a '" ++ o ++ "' you can take here.") := by
  cases hh : mapHas gs.Inventory (ToLower o)
  · rw [handleTake_of_no_entry gs o hh]
    rcases takeSwitch_lowered gs o with ⟨hg, -⟩ | ⟨-, hl, hn, hs⟩ | ⟨-, hnl, hs⟩
    · obtain ⟨hmem, hlow⟩ := takeGrants_visible gs (ToLower o) hg hh
      exact absurd hlow.symm (hnv _ hmem)
    · rw [hs]
      refine ⟨rfl, fun _ _ => ?_⟩
      rw [if_neg (by decide), if_pos ⟨hl, hn⟩]
    · rw [hs]
      refine ⟨rfl, fun _ _ => ?_⟩
      rw [if_neg (by decide), if_neg hnl]
      rfl
  · rw [handleTake_of_entry gs o hh]
    exact ⟨rfl, fun _ _ => rfl⟩

theorem take_of_target_not_visible_witness :
    (handleTake { NewGameState with Location := LocLockerArea } "Small Notebook").Inventory = [] ∧
    (handleTake { NewGameState with Location := LocLockerArea } "Small Notebook").Message =
      "The locker needs to be open first." := by
  have h := take_of_target_not_visible { NewGameState with Location := LocLockerArea }
    "Small Notebook" (by decide)
  exact ⟨h.1, h.2 (by decide) (by decide)⟩

/-- C9 (fails on the code): after the safe code has granted the OverrideKey,
take of "Manual Override Key" leaves Inventory as it is but answers with the
not-found message instead of "You already have the Manual Override Key.". -/
theorem take_held_key_not_recognised :
    mapGet? (run NewGameState ["go security", "go office", "use 4711", "4711"]).Inventory
      ItemOverrideKey = some true ∧
    (HandleCommand (run NewGameState ["go security", "go office", "use 4711", "4711"])
      "take Manual Override Key").1.Inventory =
      (run NewGameState ["go security", "go office", "use 4711", "4711"]).Inventory ∧
    (HandleCommand (run NewGameState ["go security", "go office", "use 4711", "4711"])
      "take Manual Override Key").1.Message =
      "You don't see a 'manual override key' you can take here." ∧
    (handleTake (run NewGameState ["go security", "go office", "use 4711", "4711"])
      ItemOverrideKey).Message =
      "You don't see a 'Manual Override Key' you can take here." := by
  decide

/-- C10 (fails on the code): at the manager's office with the fact safe_opened
absent, take of "Manual Override Key" answers with the generic not-found
message, not with "The safe needs to be open first."; the Notebook at the
locker area with locker_opened absent does get its blocking message. -/
theorem take_key_before_safe_not_blocked :
    mapHas (run NewGameState ["go security", "go office"]).Clues "safe_opened" = false ∧
    HandleCommand (run NewGameState ["go security", "go office"]) "take Manual Override Key" =
      ({ run NewGameState ["go security", "go office"] with
          Message := "You don't see a 'manual override key' you can take here." }, true) ∧
    HandleCommand (run NewGameState ["go security", "go locker"]) "take small notebook" =
      ({ run NewGameState ["go security", "go locker"] with
          Message := "The locker needs to be open first." }, true) := by
  decide

/-- C11: at Register with no dialog active, for every destination text that
contains "security", "electronics", "back" or "scream", the command
"go <destination>" moves to SecurityStation, sets the message "You hurry
towards the back of the store, ..." and returns Handled (true); nothing else
changes. -/
theorem go_from_register_to_security (gs : GameState) (d : String)
    (hl : gs.Location = LocRegister) (hi : gs.InputRequired = "")
    (hk : Contains d "security" = true ∨ Contains d "electronics" = true ∨
      Contains d "back" = true ∨ Contains d "scream" = true) :
    HandleCommand gs ("go " ++ d) =
      ({ gs with
          Location := LocSecurityStation
          Message := "You hurry towards the back of the store, near the electronics section where the scream came from." },
        true) := by
  have key : ∀ kw : String, kw.data ≠ [] → (∀ c ∈ kw.data, isSpace c = false) →
      ToLower kw = kw → Contains d kw = true →
      Fields (ToLower d) ≠ [] ∧ Contains (objectOf (Fields (ToLower d))) kw = true ∧
        objectOf (Fields (ToLower d)) ≠ "" := by
    intro kw h1 h2 h3 h4
    obtain ⟨hf, hc⟩ := Contains_object d kw h1 h2 h3 h4
    rw [objectOf_of_ne_nil _ hf]
    exact ⟨hf, hc, ne_empty_of_Contains _ kw h1 hc⟩
  have hobj : (Contains (objectOf (Fields (ToLower d))) "security" ||
      Contains (objectOf (Fields (ToLower d))) "electronics" ||
      Contains (objectOf (Fields (ToLower d))) "back" ||
      Contains (objectOf (Fields (ToLower d))) "scream") = true ∧
      objectOf (Fields (ToLower d)) ≠ "" := by
    rcases hk with h | h | h | h
    · obtain ⟨-, hc, hn⟩ := key "security" (by decide) (by decide) rfl h
      exact ⟨by simp [hc], hn⟩
    · obtain ⟨-, hc, hn⟩ := key "electronics" (by decide) (by decide) rfl h
      exact ⟨by simp [hc], hn⟩
    · obtain ⟨-, hc, hn⟩ := key "back" (by decide) (by decide) rfl h
      exact ⟨by simp [hc], hn⟩
    · obtain ⟨-, hc, hn⟩ := key "scream" (by decide) (by decide) rfl h
      exact ⟨by simp [hc], hn⟩
  rw [HandleCommand_noDialog gs _ hi, ToLower_append, show ToLower "go " = "go " from rfl,
    dispatch_go gs _ "go" _ (Fields_go_append _) (Or.inl rfl)]
  have hsw := goSwitch_at_register gs (objectOf (Fields (ToLower d))) hl
  rw [if_pos hobj.1] at hsw
  rw [handleGo_of_moved gs _ _ hsw hobj.2]

theorem go_from_register_to_security_witness :
    HandleCommand NewGameState ("go " ++ "the back ROOM") =
      ({ NewGameState with
          Location := LocSecurityStation
          Message := "You hurry towards the back of the store, near the electronics section where the scream came from." },
        true) :=
  go_from_register_to_security NewGameState "the back ROOM" rfl rfl
    (Or.inr (Or.inr (Or.inl (by decide))))

/-- C12: if go changes Location to LoadingDock then the fact map_details was
present before the call and the previous Location was SecurityStation or
ManagersOffice; with map_details absent no go, and no command line at all,
leads to LoadingDock from another location. -/
theorem dock_edges_gated_by_map (gs : GameState) (d : String) :
    ((handleGo gs d).Location = LocLoadingDock → gs.Location ≠ LocLoadingDock →
      mapHas gs.Clues "map_details" = true ∧
        (gs.Location = LocSecurityStation ∨ gs.Location = LocManagersOffice)) ∧
    (mapHas gs.Clues "map_details" = false → gs.Location ≠ LocLoadingDock →
      (handleGo gs d).Location ≠ LocLoadingDock) ∧
    (mapHas gs.Clues "map_details" = false → gs.Location ≠ LocLoadingDock →
      ∀ line, (HandleCommand gs line).1.Location ≠ LocLoadingDock) := by
  refine ⟨handleGo_to_dock gs d, ?_, ?_⟩
  · intro hm hn h
    rw [(handleGo_to_dock gs d h hn).1] at hm
    exact absurd hm (by decide)
  · intro hm hn line h
    rcases HandleCommand_cases gs line with ⟨-, hc⟩ | ⟨-, hc⟩ | ⟨-, hc⟩ | hc
    · obtain ⟨inv, clues, msg, he, -⟩ := lockerCodeCase_frame gs (ToLower line)
      rw [hc, he] at h; exact hn h
    · obtain ⟨inv, clues, msg, he, -⟩ := safeCodeCase_frame gs (ToLower line)
      rw [hc, he] at h; exact hn h
    · obtain ⟨clues, msg, he, -⟩ := breakerCodeCase_frame gs (ToLower line)
      rw [hc, he] at h; exact hn h
    · rw [hc] at h
      rcases dispatch_cases gs (ToLower line) with ⟨m, b, hd⟩ | ⟨o, hd⟩ | ⟨o, hd⟩ | ⟨o, hd⟩ | hd
      · rw [hd] at h; exact hn h
      · rw [hd] at h
        rw [(handleGo_to_dock gs o h hn).1] at hm
        exact absurd hm (by decide)
      · obtain ⟨inv, msg, he⟩ := handleTake_frame gs o
        rw [hd, he] at h; exact hn h
      · obtain ⟨msg, cur, req, he⟩ := handleCriticalUse_frame gs o (ToLower line)
        rw [hd, he] at h; exact hn h
      · rcases escapeCase_frame gs with ⟨h1, -, -⟩ | ⟨-, msg, he⟩
        · exact hn h1
        · rw [hd, he] at h; exact hn h

theorem dock_edges_gated_by_map_witness :
    mapHas atSecurityWithMap.Clues "map_details" = true ∧
      (atSecurityWithMap.Location = LocSecurityStation ∨
        atSecurityWithMap.Location = LocManagersOffice) :=
  (dock_edges_gated_by_map atSecurityWithMap "the dock").1 (by decide) (by decide)

/-- C13: when the destination text contains no keyword of any edge leaving the
current location, go changes nothing but the message, which is "Where do you
want to go? ..." for the empty destination and "You can't find a way to
'<destination>' from here, ..." otherwise. -/
theorem go_without_keyword_fails (gs : GameState) (d : String)
    (h : ∀ e ∈ edgesFrom gs.Location, ∀ kw ∈ e.keywords, Contains d kw = false) :
    handleGo gs d =
      { gs with
          Message :=
            if d = "" then "Where do you want to go? (e.g., 'go security', 'go office')"
            else "You can't find a way to '" ++ d ++
              "' from here, or you don't know where that is." } := by
  rcases goSwitch_firstMatch gs d with ⟨-, hs⟩ | ⟨e, hf, -, -, -⟩
  · exact handleGo_of_not_moved gs gs d hs
  · rw [firstMatch_eq_none gs d h] at hf
    exact absurd hf (by simp)

theorem go_without_keyword_fails_witness :
    handleGo atSecurityStation "the moon" =
      { atSecurityStation with
          Message := "You can't find a way to 'the moon' from here, or you don't know where that is." } :=
  go_without_keyword_fails atSecurityStation "the moon" (by decide)

/-- C14 (as stated, fails): at the security station the text "locker office"
contains the keyword "office" of the edge to the manager's office, which has
no prerequisite, yet go moves to the locker area: the edge checked first
wins. -/
theorem go_keyword_of_later_edge_counterexample :
    (⟨["office", "manager"], LocManagersOffice, false⟩ : Edge) ∈
      edgesFrom atSecurityStation.Location ∧
    Contains "locker office" "office" = true ∧
    edgeOpen atSecurityStation ⟨["office", "manager"], LocManagersOffice, false⟩ = true ∧
    (handleGo atSecurityStation "locker office").Location = LocLockerArea ∧
    (handleGo atSecurityStation "locker office").Location ≠ LocManagersOffice := by
  decide

/-- C14 (amended): go takes the first edge leaving the current location, in
the order in which the code checks them, one of whose keywords the destination
text contains: it moves to that edge's target when the edge's prerequisite is
satisfied and stays otherwise, and it stays when no edge matches.  So a text
that matches one edge only, with its prerequisite satisfied, moves the player
to that edge's target. -/
theorem go_takes_first_matching_edge (gs : GameState) (d : String) :
    (∀ e, firstMatch gs d = some e → edgeOpen gs e = true →
      (handleGo gs d).Location = e.target) ∧
    (∀ e, firstMatch gs d = some e → edgeOpen gs e = false →
      (handleGo gs d).Location = gs.Location) ∧
    (firstMatch gs d = none → (handleGo gs d).Location = gs.Location) ∧
    (∀ e ∈ edgesFrom gs.Location, edgeMatches d e = true → edgeOpen gs e = true →
      (∀ e' ∈ edgesFrom gs.Location, edgeMatches d e' = true → e' = e) →
      (handleGo gs d).Location = e.target) := by
  rw [handleGo_location]
  rcases goSwitch_firstMatch gs d with ⟨hf, hs⟩ | ⟨e₀, hf, hmem, hloc, -⟩
  · refine ⟨fun e he => ?_, fun e he => ?_, fun _ => by rw [hs], fun e he hm _ _ => ?_⟩
    · rw [hf] at he; exact absurd he (by simp)
    · rw [hf] at he; exact absurd he (by simp)
    · unfold firstMatch at hf
      rw [List.find?_eq_none] at hf
      exact absurd hm (hf e he)
  · refine ⟨fun e he ho => ?_, fun e he ho => ?_, fun hn => ?_, fun e he hm ho hu => ?_⟩
    · rw [hf] at he
      cases he
      rw [hloc, ho]; rfl
    · rw [hf] at he
      cases he
      rw [hloc, ho]; rfl
    · rw [hf] at hn; exact absurd hn (by simp)
    · have h0 : e₀ = e := hu e₀ hmem (List.find?_some hf)
      subst h0
      rw [hloc, ho]; rfl

theorem go_takes_first_matching_edge_witness :
    (handleGo atSecurityStation "front office").Location = LocManagersOffice :=
  (go_takes_first_matching_edge atSecurityStation "front office").1
    ⟨["office", "manager"], LocManagersOffice, false⟩ (by decide) (by decide)

/-- C15: IsCriticalUse is true if and only if, on the lowered input,
(Location = LockerArea and it contains "8675309") or (Location =
ManagersOffice and it contains "4711") or (Location = LoadingDock, Inventory
has an OverrideKey entry and it contains "key", "overstock" or "683778625");
so it is false at every other location.  It returns a boolean only. -/
theorem IsCriticalUse_iff (gs : GameState) (input : String) :
    (IsCriticalUse gs input = true ↔
      (gs.Location = LocLockerArea ∧ Contains (ToLower input) "8675309" = true) ∨
      (gs.Location = LocManagersOffice ∧ Contains (ToLower input) "4711" = true) ∨
      (gs.Location = LocLoadingDock ∧ mapHas gs.Inventory ItemOverrideKey = true ∧
        (Contains (ToLower input) "key" = true ∨ Contains (ToLower input) "overstock" = true ∨
          Contains (ToLower input) "683778625" = true))) ∧
    (gs.Location ≠ LocLockerArea → gs.Location ≠ LocManagersOffice →
      gs.Location ≠ LocLoadingDock → IsCriticalUse gs input = false) := by
  refine ⟨IsCriticalUse_eq_true_iff gs input, fun h2 h3 h4 => ?_⟩
  unfold IsCriticalUse
  dsimp only
  rw [if_neg (fun h => h2 h.1), if_neg (fun h => h3 h.1), if_neg (fun h => h4 h.1)]

theorem IsCriticalUse_iff_witness :
    IsCriticalUse NewGameState "use 8675309 on locker" = false :=
  (IsCriticalUse_iff NewGameState "use 8675309 on locker").2 (by decide) (by decide) (by decide)

/-- C16: with no dialog active, if Input Mode is set after HandleCommand then
the first word of the line, lowered, is "use" or "u", IsCriticalUse was true
in the state before, and the dialog is the one of the current location:
locker_code at LockerArea, safe_code at ManagersOffice, breaker_code at
LoadingDock.  So no go, take, inventory, help, escape, look or unknown command
sets Input Mode. -/
theorem dialog_entered_only_by_critical_use (gs : GameState) (input : String)
    (hi : gs.InputRequired = "") (hs : (HandleCommand gs input).1.InputRequired ≠ "") :
    (∃ w rest, Fields input = w :: rest ∧ (ToLower w = "use" ∨ ToLower w = "u")) ∧
    IsCriticalUse gs input = true ∧
    ((gs.Location = LocLockerArea ∧
        (HandleCommand gs input).1.InputRequired = "locker_code") ∨
      (gs.Location = LocManagersOffice ∧
        (HandleCommand gs input).1.InputRequired = "safe_code") ∨
      (gs.Location = LocLoadingDock ∧
        (HandleCommand gs input).1.InputRequired = "breaker_code")) := by
  rw [HandleCommand_noDialog gs input hi] at hs ⊢
  cases hf : Fields input with
  | nil =>
    rw [dispatch_blank gs _ (by rw [Fields_ToLower, hf]; rfl)] at hs
    exact absurd hi hs
  | cons w rest =>
    have hfl := Fields_ToLower_cons input w rest hf
    by_cases hv : ToLower w = "use" ∨ ToLower w = "u"
    · refine ⟨⟨w, rest, rfl, hv⟩, ?_⟩
      rw [dispatch_use gs _ _ _ hfl hv] at hs ⊢
      have hcrit := IsCriticalUse_eq_true_iff gs input
      rcases handleCriticalUse_cases gs (objectOf (rest.map ToLower)) (ToLower input) with
        ⟨hl, hc, he⟩ | ⟨hl, hc, he⟩ | ⟨hl, hc, hk, he⟩ | ⟨-, -, -, msg, he⟩
      · rw [ToLower_idem] at hc
        rw [he]
        exact ⟨hcrit.2 (Or.inl ⟨hl, hc⟩), Or.inl ⟨hl, rfl⟩⟩
      · rw [ToLower_idem] at hc
        rw [he]
        exact ⟨hcrit.2 (Or.inr (Or.inl ⟨hl, hc⟩)), Or.inr (Or.inl ⟨hl, rfl⟩)⟩
      · rw [ToLower_idem] at hc
        rw [he]
        refine ⟨hcrit.2 (Or.inr (Or.inr ⟨hl, mapHas_of_mapVal_true _ _ hk, ?_⟩)),
          Or.inr (Or.inr ⟨hl, rfl⟩)⟩
        simpa [Bool.or_eq_true] using hc
      · rw [he] at hs
        exact absurd hi hs
    · rw [dispatch_inputRequired gs _ _ _ hfl hv] at hs
      exact absurd hi hs

theorem dialog_entered_only_by_critical_use_witness :
    IsCriticalUse atDockWithKey "Use KEY" = true :=
  (dialog_entered_only_by_critical_use atDockWithKey "Use KEY" rfl (by decide)).2.1

/-- C17: with no dialog active and every Inventory entry true, a line whose
first word, lowered, is "use" or "u" and for which IsCriticalUse is true is
Handled and opens the dialog of the current location with its prompt; the
input buffer is cleared and nothing else changes.  The guidance branches and
the default branch of handleCriticalUse are not reached. -/
theorem critical_use_opens_dialog (gs : GameState) (input w : String) (rest : List String)
    (hi : gs.InputRequired = "") (hheld : allEntriesHeld gs)
    (hf : Fields input = w :: rest) (hw : ToLower w = "use" ∨ ToLower w = "u")
    (hc : IsCriticalUse gs input = true) :
    (gs.Location = LocLockerArea ∧
      HandleCommand gs input =
        ({ gs with
            Message := "Enter the code for the locker:"
            InputRequired := "locker_code"
            CurrentInput := "" }, true)) ∨
    (gs.Location = LocManagersOffice ∧
      HandleCommand gs input =
        ({ gs with
            Message := "Enter the code for the safe:"
            InputRequired := "safe_code"
            CurrentInput := "" }, true)) ∨
    (gs.Location = LocLoadingDock ∧
      HandleCommand gs input =
        ({ gs with
            Message := "You insert the Manual Override Key into the panel slot. Now, enter the activation code (OVERSTOCK or keypad numbers):"
            InputRequired := "breaker_code"
            CurrentInput := "" }, true)) := by
  rw [HandleCommand_noDialog gs input hi,
    dispatch_use gs _ _ _ (Fields_ToLower_cons input w rest hf) hw]
  rcases handleCriticalUse_cases gs (objectOf (rest.map ToLower)) (ToLower input) with
    ⟨hl, -, he⟩ | ⟨hl, -, he⟩ | ⟨hl, -, -, he⟩ | ⟨n2, n3, n4, -⟩
  · exact Or.inl ⟨hl, by rw [he]⟩
  · exact Or.inr (Or.inl ⟨hl, by rw [he]⟩)
  · exact Or.inr (Or.inr ⟨hl, by rw [he]⟩)
  · exfalso
    rw [ToLower_idem] at n2 n3 n4
    rcases (IsCriticalUse_eq_true_iff gs input).1 hc with ⟨hl, h⟩ | ⟨hl, h⟩ | ⟨hl, hk, h⟩
    · rw [n2 hl] at h; exact absurd h (by decide)
    · rw [n3 hl] at h; exact absurd h (by decide)
    · have hval : mapVal false gs.Inventory ItemOverrideKey = true := by
        unfold mapHas at hk
        unfold mapVal
        cases hg : mapGet? gs.Inventory ItemOverrideKey with
        | none => rw [hg] at hk; exact absurd hk (by decide)
        | some b => rw [hheld _ b hg]; rfl
      have h4 := n4 hl
      rw [hval, Bool.and_true] at h4
      have : (Contains (ToLower input) "key" || (Contains (ToLower input) "overstock" ||
          Contains (ToLower input) "683778625")) = true := by
        simpa [Bool.or_eq_true] using h
      rw [this] at h4
      exact absurd h4 (by decide)

theorem critical_use_opens_dialog_witness :
    HandleCommand atDockWithKey "use key with panel" =
      ({ atDockWithKey with
          Message := "You insert the Manual Override Key into the panel slot. Now, enter the activation code (OVERSTOCK or keypad numbers):"
          InputRequired := "breaker_code"
          CurrentInput := "" }, true) := by
  rcases critical_use_opens_dialog atDockWithKey "use key with panel" "use"
    ["key", "with", "panel"] rfl (by
      intro k b h
      unfold atDockWithKey at h
      simp only [mapGet?] at h
      split_ifs at h
      exact (Option.some.inj h).symm) (by decide) (Or.inl (by decide)) (by decide) with
    ⟨hl, -⟩ | ⟨hl, -⟩ | ⟨-, h⟩
  · exact absurd hl (by decide)
  · exact absurd hl (by decide)
  · exact h

/-- C18 (as stated, fails): on the empty line, and on a line of spaces,
HandleCommand returns false, not Handled. -/
theorem blank_input_not_handled_counterexample :
    NewGameState.InputRequired = "" ∧ (HandleCommand NewGameState "").2 = false ∧
    (HandleCommand NewGameState "   ").2 = false := by
  decide

/-- C18 (amended): with no dialog active, HandleCommand on an empty input, or
one made only of white space, returns false, sets the usage-hint message and
changes nothing else. -/
theorem blank_input_sets_usage_hint (gs : GameState) (input : String)
    (hi : gs.InputRequired = "") (hb : isBlank input = true) :
    HandleCommand gs input =
      ({ gs with
          Message := "Please enter a command like 'look', 'go security', 'take voucher', 'use 8675309', 'inventory', or 'help'." },
        false) := by
  rw [HandleCommand_noDialog gs input hi, dispatch_blank gs _ (Fields_of_isBlank input hb)]

theorem blank_input_sets_usage_hint_witness :
    HandleCommand NewGameState " \t " =
      ({ NewGameState with
          Message := "Please enter a command like 'look', 'go security', 'take voucher', 'use 8675309', 'inventory', or 'help'." },
        false) :=
  blank_input_sets_usage_hint NewGameState " \t " rfl (by decide)

/-- C19: with no dialog active, a line whose first word, lowered, is `v` and is
none of the sixteen verbs gets the message "I don't understand '<v>'. Try
'help'.", the result false, and no other change. -/
theorem unknown_verb_not_understood (gs : GameState) (input w : String) (rest : List String)
    (hi : gs.InputRequired = "") (hf : Fields input = w :: rest)
    (hv : ToLower w ∉ ["go", "g", "take", "t", "use", "u", "inventory", "i", "inv", "help",
      "h", "escape", "look", "l", "examine", "x"]) :
    HandleCommand gs input =
      ({ gs with Message := "I don't understand '" ++ ToLower w ++ "'. Try 'help'." },
        false) := by
  rw [HandleCommand_noDialog gs input hi,
    dispatch_unknown gs _ _ _ (Fields_ToLower_cons input w rest hf) hv]

theorem unknown_verb_not_understood_witness :
    HandleCommand NewGameState "ÉCOLE now" =
      ({ NewGameState with Message := "I don't understand 'école'. Try 'help'." }, false) :=
  unknown_verb_not_understood NewGameState "ÉCOLE now" "ÉCOLE" ["now"] rfl (by decide)
    (by decide)

/-- C20: for a non-blank line, HandleCommand returns true if and only if a
code dialog is active or the first word, lowered, is one of go, g, take, t,
use, u, inventory, i, inv, help, h, escape; so it returns false exactly when
no dialog is active and the first word is look, l, examine, x or an unknown
verb. -/
theorem handled_iff_dialog_or_core_verb (gs : GameState) (input w : String)
    (rest : List String) (hf : Fields input = w :: rest) :
    (HandleCommand gs input).2 = true ↔
      (dialogActive gs ∨
        ToLower w ∈ ["go", "g", "take", "t", "use", "u", "inventory", "i", "inv", "help", "h",
          "escape"]) := by
  by_cases hd : dialogActive gs
  · have ht : (HandleCommand gs input).2 = true := by
      rcases hd with h | h | h
      · rw [HandleCommand_locker gs input h]
      · rw [HandleCommand_safe gs input h]
      · rw [HandleCommand_breaker gs input h]
    exact ⟨fun _ => Or.inl hd, fun _ => ht⟩
  · rw [HandleCommand_of_no_dialog gs input hd]
    have hfl := Fields_ToLower_cons input w rest hf
    rcases verb_cases (ToLower w) with h1 | h1 | h1 | h1 | h1 | h1 | h1 | h1
    · rw [dispatch_go gs _ _ _ hfl h1]
      refine ⟨fun _ => Or.inr ?_, fun _ => rfl⟩
      rcases h1 with h | h <;> rw [h] <;> decide
    · rw [dispatch_take gs _ _ _ hfl h1]
      refine ⟨fun _ => Or.inr ?_, fun _ => rfl⟩
      rcases h1 with h | h <;> rw [h] <;> decide
    · rw [dispatch_use gs _ _ _ hfl h1]
      refine ⟨fun _ => Or.inr ?_, fun _ => rfl⟩
      rcases h1 with h | h <;> rw [h] <;> decide
    · rw [dispatch_inventory gs _ _ _ hfl h1]
      refine ⟨fun _ => Or.inr ?_, fun _ => rfl⟩
      rcases h1 with h | h | h <;> rw [h] <;> decide
    · rw [dispatch_help gs _ _ _ hfl h1]
      refine ⟨fun _ => Or.inr ?_, fun _ => rfl⟩
      rcases h1 with h | h <;> rw [h] <;> decide
    · rw [dispatch_escape gs _ _ _ hfl h1]
      refine ⟨fun _ => Or.inr ?_, fun _ => rfl⟩
      rw [h1]; decide
    · rw [dispatch_look gs _ _ _ hfl h1]
      refine ⟨fun h => absurd (show false = true from h) (by decide), fun h => ?_⟩
      exfalso
      rcases h with h | h
      · exact hd h
      · rcases h1 with h1 | h1 | h1 | h1 <;> rw [h1] at h <;> revert h <;> decide
    · rw [dispatch_unknown gs _ _ _ hfl h1]
      refine ⟨fun h => absurd (show false = true from h) (by decide), fun h => ?_⟩
      exfalso
      rcases h with h | h
      · exact hd h
      · exact h1 (List.mem_append_left ["look", "l", "examine", "x"] h)

theorem handled_iff_dialog_or_core_verb_witness :
    (HandleCommand atSecurityStation "TAKE the moon").2 = true :=
  (handled_iff_dialog_or_core_verb atSecurityStation "TAKE the moon" "TAKE" ["the", "moon"]
    (by decide)).2 (Or.inr (by decide))

/-- C21: with no dialog active, a look/examine command whose object has no
Inventory entry sets the message to the environmental text of the current
location followed by one hint for each item that GetVisibleItems lists in
that state, in the same order, and returns false; with nothing held at the
security station "examine room" gives the text of the repository's test. -/
theorem examine_fallback_hints_visible_items (gs : GameState) (input w : String)
    (rest : List String) (hi : gs.InputRequired = "") (hf : Fields input = w :: rest)
    (hv : ToLower w = "look" ∨ ToLower w = "l" ∨ ToLower w = "examine" ∨ ToLower w = "x")
    (hn : mapHas gs.Inventory (objectOf (rest.map ToLower)) = false) :
    HandleCommand gs input =
      ({ gs with
          Message := environmentText gs.Location ++ concatAll ((visibleItems gs).map hintOf) },
        false) ∧
    (HandleCommand { NewGameState with Location := LocSecurityStation } "examine room").1.Message =
      "Dale's body is here. Monitors dark. Scanner nearby? Voucher clutched? Dale clutches a voucher. A scanner lies nearby." := by
  refine ⟨?_, by decide⟩
  rw [HandleCommand_noDialog gs input hi,
    dispatch_look gs _ _ _ (Fields_ToLower_cons input w rest hf) hv,
    handleExamineFallback_of_no_entry gs _ (by rw [ToLower_objectOf]; exact hn)]

theorem examine_fallback_hints_visible_items_witness :
    (HandleCommand { NewGameState with
        Location := LocSecurityStation, Inventory := [(ItemVoucher, true)] }
      "LOOK around").1.Message =
      "Dale's body is here. Monitors dark. Scanner nearby? Voucher clutched? A scanner lies nearby." :=
  congrArg (fun r => r.1.Message)
    (examine_fallback_hints_visible_items
      { NewGameState with Location := LocSecurityStation, Inventory := [(ItemVoucher, true)] }
      "LOOK around" "LOOK" ["around"] rfl (by decide) (Or.inl (by decide)) (by decide)).1

/-- C22: GetVisibleItems returns "You see: ", the comma-separated canonical
names, in the per-location order, of exactly the items of the current location
that are not held and whose prerequisite fact is present, and "."; it returns
the empty string when there is no such item, in particular at Register,
LoadingDock and Escaped. -/
theorem GetVisibleItems_lists_takeable (gs : GameState) :
    GetVisibleItems gs =
      (if visibleBySpec gs = [] then "" else "You see: " ++ Join (visibleBySpec gs) ", " ++ ".") ∧
    (gs.Location = LocRegister ∨ gs.Location = LocLoadingDock ∨ gs.Location = LocEscaped →
      GetVisibleItems gs = "") := by
  have h : GetVisibleItems gs =
      (if visibleBySpec gs = [] then ""
        else "You see: " ++ Join (visibleBySpec gs) ", " ++ ".") := by
    unfold GetVisibleItems
    rw [visibleItems_eq_visibleBySpec]
    cases visibleBySpec gs with
    | nil => rfl
    | cons a t => simp
  refine ⟨h, fun hl => ?_⟩
  have he : visibleBySpec gs = [] := by
    unfold visibleBySpec itemsAt
    rcases hl with hl | hl | hl <;> rw [hl] <;> rfl
  rw [h, he]
  rfl

theorem GetVisibleItems_lists_takeable_witness :
    GetVisibleItems { NewGameState with Location := LocLoadingDock } = "" :=
  (GetVisibleItems_lists_takeable { NewGameState with Location := LocLoadingDock }).2
    (Or.inr (Or.inl rfl))

/-- C23: at LockerArea the description is "You are standing near the employee
lockers. Dale's locker is here." followed by " It's open." when the fact
locker_opened is present and by " It looks locked." otherwise; at LoadingDock
it ends with the line "The heavy loading door stands slightly ajar,
unlocked!" when the fact door_unlocked is present and with "A large breaker
panel ..." otherwise; at every other location it is the same for all states
at that location. -/
theorem GetLocationDescription_branches (gs : GameState) :
    (gs.Location = LocLockerArea →
      GetLocationDescription gs =
        "You are standing near the employee lockers. Dale's locker is here." ++
          (if mapHas gs.Clues "locker_opened" = true then " It's open."
            else " It looks locked.")) ∧
    (gs.Location = LocLoadingDock →
      GetLocationDescription gs =
        "You've reached the loading dock area at the back of the store. The storm howls louder here." ++
          "\n" ++
          (if mapHas gs.Clues "door_unlocked" = true then
            "The heavy loading door stands slightly ajar, unlocked!"
          else "A large breaker panel is on the wall next to the sealed loading door.")) ∧
    (gs.Location ≠ LocLockerArea → gs.Location ≠ LocLoadingDock →
      ∀ gs' : GameState, gs'.Location = gs.Location →
        GetLocationDescription gs' = GetLocationDescription gs) := by
  refine ⟨fun hl => ?_, fun hl => ?_, fun h2 h4 gs' he => ?_⟩
  · unfold GetLocationDescription
    rw [if_neg (by rw [hl]; decide), if_neg (by rw [hl]; decide), if_pos hl]
    cases mapHas gs.Clues "locker_opened" <;> rfl
  · unfold GetLocationDescription
    rw [if_neg (by rw [hl]; decide), if_neg (by rw [hl]; decide), if_neg (by rw [hl]; decide),
      if_neg (by rw [hl]; decide), if_pos hl]
    cases mapHas gs.Clues "door_unlocked" <;> rfl
  · unfold GetLocationDescription
    rw [he, if_neg h2, if_neg h4, if_neg h2, if_neg h4]

theorem GetLocationDescription_branches_witness :
    GetLocationDescription
        { NewGameState with Location := LocLockerArea, Clues := [("locker_opened", "true")] } =
      "You are standing near the employee lockers. Dale's locker is here." ++ " It's open." :=
  (GetLocationDescription_branches
    { NewGameState with Location := LocLockerArea, Clues := [("locker_opened", "true")] }).1 rfl

/-- C24: whatever the order `names` in which the entries of Inventory are
listed, the listing is "Inventory: Empty." when Inventory is empty, and only
then when every entry is one of the six items; it is "Inventory: <name>." for
an Inventory with the single entry <name>; it starts with "Inventory: " and
ends with "."; for a non-empty Inventory it is the names joined by ", "
between the two; and it contains the name of every entry, so of every held
item.  `GetInventoryDescription` is the listing in one such order. -/
theorem inventory_listing (gs : GameState) (names : List String)
    (hp : names.Perm (mapKeys gs.Inventory)) :
    GetInventoryDescription gs = renderInventory (mapKeys gs.Inventory) ∧
    (gs.Inventory = [] → renderInventory names = "Inventory: Empty.") ∧
    ((∀ k, mapHas gs.Inventory k = true → k ∈ allItems) →
      renderInventory names = "Inventory: Empty." → gs.Inventory = []) ∧
    (∀ k, mapKeys gs.Inventory = [k] → renderInventory names = "Inventory: " ++ k ++ ".") ∧
    (∃ body, renderInventory names = "Inventory: " ++ body ++ ".") ∧
    (gs.Inventory ≠ [] → renderInventory names = "Inventory: " ++ Join names ", " ++ ".") ∧
    (∀ k, mapHas gs.Inventory k = true → Contains (renderInventory names) k = true) := by
  refine ⟨rfl, fun he => ?_, fun hall hr => ?_, fun k hk => ?_, ?_, fun hne => ?_, fun k hk => ?_⟩
  · rw [he] at hp
    rw [List.Perm.eq_nil hp]
    rfl
  · rcases names_of_render_Empty names hr with h | h
    · rw [h] at hp
      exact (mapKeys_eq_nil _).1 (List.Perm.eq_nil hp.symm)
    · have hm : "Empty" ∈ mapKeys gs.Inventory := hp.subset (by rw [h]; exact List.mem_singleton.2 rfl)
      exact absurd (hall _ ((mem_mapKeys _ _).1 hm)) (by decide)
  · rw [hk] at hp
    rw [List.perm_singleton.1 hp]
    rfl
  · cases names with
    | nil => exact ⟨"Empty", rfl⟩
    | cons a t => exact ⟨_, renderInventory_of_ne_nil _ (List.cons_ne_nil _ _)⟩
  · apply renderInventory_of_ne_nil
    intro hn
    rw [hn] at hp
    exact hne ((mapKeys_eq_nil _).1 (List.Perm.eq_nil hp.symm))
  · exact Contains_renderInventory names k (hp.symm.subset ((mem_mapKeys _ _).2 hk))

theorem inventory_listing_witness :
    Contains (renderInventory [ItemNotebook, ItemVoucher]) ItemVoucher = true :=
  (inventory_listing
    { NewGameState with Inventory := [(ItemVoucher, true), (ItemNotebook, true)] }
    [ItemNotebook, ItemVoucher] (by decide)).2.2.2.2.2.2 ItemVoucher (by decide)

/-- C25: GetLocationName gives the six names for the six locations in
declaration order and "Unknown Location" for every other value, such as 99;
the six names are pairwise distinct. -/
theorem GetLocationName_closed_lookup (gs : GameState) :
    (gs.Location = LocRegister → GetLocationName gs = "Near Register 4 (Front)") ∧
    (gs.Location = LocSecurityStation →
      GetLocationName gs = "Security Station (Electronics)") ∧
    (gs.Location = LocLockerArea → GetLocationName gs = "Employee Locker Area") ∧
    (gs.Location = LocManagersOffice → GetLocationName gs = "Manager's Office") ∧
    (gs.Location = LocLoadingDock → GetLocationName gs = "Loading Dock (Back)") ∧
    (gs.Location = LocEscaped → GetLocationName gs = "Outside (Escaped)") ∧
    (gs.Location ∉ [LocRegister, LocSecurityStation, LocLockerArea, LocManagersOffice,
        LocLoadingDock, LocEscaped] → GetLocationName gs = "Unknown Location") ∧
    GetLocationName { gs with Location := 99 } = "Unknown Location" ∧
    ["Near Register 4 (Front)", "Security Station (Electronics)", "Employee Locker Area",
      "Manager's Office", "Loading Dock (Back)", "Outside (Escaped)"].Nodup := by
  refine ⟨fun h => ?_, fun h => ?_, fun h => ?_, fun h => ?_, fun h => ?_, fun h => ?_,
    fun h => ?_, rfl, by decide⟩
  · unfold GetLocationName; rw [h]; rfl
  · unfold GetLocationName; rw [h]; rfl
  · unfold GetLocationName; rw [h]; rfl
  · unfold GetLocationName; rw [h]; rfl
  · unfold GetLocationName; rw [h]; rfl
  · unfold GetLocationName; rw [h]; rfl
  · simp only [List.mem_cons, List.mem_singleton, List.not_mem_nil, or_false, not_or] at h
    unfold GetLocationName
    rw [if_neg h.1, if_neg h.2.1, if_neg h.2.2.1, if_neg h.2.2.2.1, if_neg h.2.2.2.2.1,
      if_neg h.2.2.2.2.2]

theorem GetLocationName_closed_lookup_witness :
    GetLocationName { NewGameState with Location := -7 } = "Unknown Location" :=
  (GetLocationName_closed_lookup { NewGameState with Location := -7 }).2.2.2.2.2.2.1 (by decide)

/-- C26: Inventory and Facts only grow: an item with an Inventory entry
before HandleCommand has one after it, an item held (value true) before is
held after, and a fact key present before is present after. -/
theorem inventory_and_facts_only_grow (gs : GameState) (line : String) :
    (∀ k, mapHas gs.Inventory k = true → mapHas (HandleCommand gs line).1.Inventory k = true) ∧
    (∀ k, mapVal false gs.Inventory k = true →
      mapVal false (HandleCommand gs line).1.Inventory k = true) ∧
    (∀ k, mapHas gs.Clues k = true → mapHas (HandleCommand gs line).1.Clues k = true) := by
  refine ⟨fun k h => ?_, fun k h => ?_, fun k h => HandleCommand_keeps_facts gs line k h⟩
  · rcases (HandleCommand_changes gs line).2 with he | ⟨i, he, -⟩
    · rw [he]; exact h
    · rw [he]; exact mapHas_mapSet_of_mapHas _ _ _ _ h
  · rcases (HandleCommand_changes gs line).2 with he | ⟨i, he, -⟩
    · rw [he]; exact h
    · rw [he]; exact mapVal_mapSet_true_of_mapVal _ _ _ h

theorem inventory_and_facts_only_grow_witness :
    mapHas (HandleCommand lockerDialogHolding "8675309").1.Clues "locker_opened" = true :=
  (inventory_and_facts_only_grow lockerDialogHolding "8675309").2.2 "locker_opened" (by decide)

/-- C27: the prerequisite invariant (Notebook in Inventory implies fact
locker_opened present, OverrideKey in Inventory implies fact safe_opened
present) holds in the state built by NewGameState(), is preserved by
HandleCommand for every input, and so holds in every state reached from
NewGameState(); this with "in Inventory" read as having an entry and also
read as having the value true. -/
theorem prerequisite_invariant :
    prerequisitesMet NewGameState ∧
    (∀ gs line, prerequisitesMet gs → prerequisitesMet (HandleCommand gs line).1) ∧
    (∀ lines, prerequisitesMet (run NewGameState lines)) ∧
    prerequisitesMetOfHeld NewGameState ∧
    (∀ gs line, prerequisitesMetOfHeld gs → prerequisitesMetOfHeld (HandleCommand gs line).1) ∧
    (∀ lines, prerequisitesMetOfHeld (run NewGameState lines)) := by
  have h0 : prerequisitesMet NewGameState :=
    ⟨fun h => absurd h (by decide), fun h => absurd h (by decide)⟩
  have h1 : prerequisitesMetOfHeld NewGameState :=
    ⟨fun h => absurd h (by decide), fun h => absurd h (by decide)⟩
  exact ⟨h0, prerequisitesMet_HandleCommand, fun lines => prerequisitesMet_run lines _ h0,
    h1, prerequisitesMetOfHeld_HandleCommand,
    fun lines => prerequisitesMetOfHeld_run lines _ h1⟩

theorem prerequisite_invariant_witness :
    prerequisitesMet (HandleCommand lockerDialogHolding "take small notebook").1 :=
  prerequisite_invariant.2.1 lockerDialogHolding "take small notebook"
    ⟨fun _ => by decide, fun h => absurd h (by decide)⟩

/-- C28: while a code dialog is active, whatever the line, HandleCommand
leaves Location and the escaped flag as they are; Inventory changes only by
the Notebook on the correct locker code or the OverrideKey on the correct
safe code, and Facts only by the fact the dialog sets on its correct code
(the breaker's with the key in Inventory). -/
theorem dialog_line_not_parsed (gs : GameState) (line : String) (hd : dialogActive gs) :
    (HandleCommand gs line).1.Location = gs.Location ∧
    (HandleCommand gs line).1.GameOver = gs.GameOver ∧
    ((HandleCommand gs line).1.Inventory = gs.Inventory ∨
      (gs.InputRequired = "locker_code" ∧ line = "8675309" ∧
        (HandleCommand gs line).1.Inventory = mapSet gs.Inventory ItemNotebook true) ∨
      (gs.InputRequired = "safe_code" ∧ line = "4711" ∧
        (HandleCommand gs line).1.Inventory = mapSet gs.Inventory ItemOverrideKey true)) ∧
    ((HandleCommand gs line).1.Clues = gs.Clues ∨
      (gs.InputRequired = "locker_code" ∧ line = "8675309" ∧
        (HandleCommand gs line).1.Clues = mapSet gs.Clues "locker_opened" "true") ∨
      (gs.InputRequired = "safe_code" ∧ line = "4711" ∧
        (HandleCommand gs line).1.Clues = mapSet gs.Clues "safe_opened" "true") ∨
      (gs.InputRequired = "breaker_code" ∧ breakerCodeCorrect line ∧
        mapHas gs.Inventory ItemOverrideKey = true ∧
        (HandleCommand gs line).1.Clues = mapSet gs.Clues "door_unlocked" "true")) := by
  rcases hd with h | h | h
  · rw [HandleCommand_locker gs line h]
    rcases lockerCodeCase_changes gs (ToLower line) with ⟨-, he⟩ | ⟨hx, -, he⟩ | ⟨hx, -, he⟩
    · rw [he]; exact ⟨rfl, rfl, Or.inl rfl, Or.inl rfl⟩
    · rw [he]
      exact ⟨rfl, rfl, Or.inl rfl, Or.inr (Or.inl ⟨h, (ToLower_eq_locker_code line).1 hx, rfl⟩)⟩
    · rw [he]
      exact ⟨rfl, rfl, Or.inr (Or.inl ⟨h, (ToLower_eq_locker_code line).1 hx, rfl⟩),
        Or.inr (Or.inl ⟨h, (ToLower_eq_locker_code line).1 hx, rfl⟩)⟩
  · rw [HandleCommand_safe gs line h]
    rcases safeCodeCase_changes gs (ToLower line) with ⟨-, he⟩ | ⟨hx, -, he⟩ | ⟨hx, -, he⟩
    · rw [he]; exact ⟨rfl, rfl, Or.inl rfl, Or.inl rfl⟩
    · rw [he]
      exact ⟨rfl, rfl, Or.inl rfl,
        Or.inr (Or.inr (Or.inl ⟨h, (ToLower_eq_safe_code line).1 hx, rfl⟩))⟩
    · rw [he]
      exact ⟨rfl, rfl, Or.inr (Or.inr ⟨h, (ToLower_eq_safe_code line).1 hx, rfl⟩),
        Or.inr (Or.inr (Or.inl ⟨h, (ToLower_eq_safe_code line).1 hx, rfl⟩))⟩
  · rw [HandleCommand_breaker gs line h]
    rcases breakerCodeCase_changes gs (ToLower line) with ⟨hx, hk, he⟩ | ⟨-, he⟩
    · rw [he]
      exact ⟨rfl, rfl, Or.inl rfl,
        Or.inr (Or.inr (Or.inr ⟨h, breakerCodeCorrect_of_lowered line hx, hk, rfl⟩))⟩
    · rw [he]; exact ⟨rfl, rfl, Or.inl rfl, Or.inl rfl⟩

theorem dialog_line_not_parsed_witness :
    (HandleCommand lockerDialogHolding "go security").1.Location =
      lockerDialogHolding.Location :=
  (dialog_line_not_parsed lockerDialogHolding "go security" (Or.inl rfl)).1

/-- C29: in the locker dialog with the Notebook held, "8675309" leaves
Inventory unchanged and sets the message "Click! The locker swings open."
followed by the line "It's empty now."; the same for the safe dialog, "4711"
and the OverrideKey; and in each of the three dialogs a second correct answer
leaves Inventory and Facts as the first correct answer left them. -/
theorem code_grant_idempotent (gs : GameState) :
    (gs.InputRequired = "locker_code" → mapVal false gs.Inventory ItemNotebook = true →
      (HandleCommand gs "8675309").1.Inventory = gs.Inventory ∧
      (HandleCommand gs "8675309").1.Message =
        "Click! The locker swings open.\nIt's empty now.") ∧
    (gs.InputRequired = "safe_code" → mapVal false gs.Inventory ItemOverrideKey = true →
      (HandleCommand gs "4711").1.Inventory = gs.Inventory ∧
      (HandleCommand gs "4711").1.Message = "Click! The safe door opens.\nIt's empty now.") ∧
    (gs.InputRequired = "locker_code" →
      (HandleCommand { (HandleCommand gs "8675309").1 with InputRequired := "locker_code" }
          "8675309").1.Inventory = (HandleCommand gs "8675309").1.Inventory ∧
      (HandleCommand { (HandleCommand gs "8675309").1 with InputRequired := "locker_code" }
          "8675309").1.Clues = (HandleCommand gs "8675309").1.Clues) ∧
    (gs.InputRequired = "safe_code" →
      (HandleCommand { (HandleCommand gs "4711").1 with InputRequired := "safe_code" }
          "4711").1.Inventory = (HandleCommand gs "4711").1.Inventory ∧
      (HandleCommand { (HandleCommand gs "4711").1 with InputRequired := "safe_code" }
          "4711").1.Clues = (HandleCommand gs "4711").1.Clues) ∧
    (gs.InputRequired = "breaker_code" → mapHas gs.Inventory ItemOverrideKey = true →
      ∀ first second, breakerCodeCorrect first → breakerCodeCorrect second →
      (HandleCommand { (HandleCommand gs first).1 with InputRequired := "breaker_code" }
          second).1.Inventory = (HandleCommand gs first).1.Inventory ∧
      (HandleCommand { (HandleCommand gs first).1 with InputRequired := "breaker_code" }
          second).1.Clues = (HandleCommand gs first).1.Clues) := by
  have hL : ToLower "8675309" = "8675309" := rfl
  have hS : ToLower "4711" = "4711" := rfl
  refine ⟨fun h hv => ?_, fun h hv => ?_, fun h => ?_, fun h => ?_, fun h hk a b ha hb => ?_⟩
  · rw [HandleCommand_locker gs _ h, hL]
    rcases lockerCodeCase_changes gs "8675309" with ⟨hx, -⟩ | ⟨-, -, he⟩ | ⟨-, hf, -⟩
    · exact absurd rfl hx
    · rw [he]; exact ⟨rfl, rfl⟩
    · rw [hv] at hf; exact absurd hf (by decide)
  · rw [HandleCommand_safe gs _ h, hS]
    rcases safeCodeCase_changes gs "4711" with ⟨hx, -⟩ | ⟨-, -, he⟩ | ⟨-, hf, -⟩
    · exact absurd rfl hx
    · rw [he]; exact ⟨rfl, rfl⟩
    · rw [hv] at hf; exact absurd hf (by decide)
  · rw [HandleCommand_locker gs _ h, hL, HandleCommand_locker _ _ rfl, hL]
    rcases lockerCodeCase_changes gs "8675309" with ⟨hx, -⟩ | ⟨-, hv, he⟩ | ⟨-, -, he⟩
    · exact absurd rfl hx
    · rw [he]
      rcases lockerCodeCase_changes
          { gs with
              Clues := mapSet gs.Clues "locker_opened" "true"
              Message := "Click! The locker swings open.\nIt's empty now."
              InputRequired := "locker_code" } "8675309" with ⟨hx, -⟩ | ⟨-, -, he2⟩ | ⟨-, hf, -⟩
      · exact absurd rfl hx
      · rw [he2]; exact ⟨rfl, mapSet_mapSet_same _ _ _⟩
      · rw [show mapVal false gs.Inventory ItemNotebook = true from hv] at hf
        exact absurd hf (by decide)
    · rw [he]
      rcases lockerCodeCase_changes
          { gs with
              Inventory := mapSet gs.Inventory ItemNotebook true
              Clues := mapSet gs.Clues "locker_opened" "true"
              Message := "Click! The locker swings open.\nYou find a small notebook inside and take it."
              InputRequired := "locker_code" } "8675309" with ⟨hx, -⟩ | ⟨-, -, he2⟩ | ⟨-, hf, -⟩
      · exact absurd rfl hx
      · rw [he2]; exact ⟨rfl, mapSet_mapSet_same _ _ _⟩
      · have : mapVal false (mapSet gs.Inventory ItemNotebook true) ItemNotebook = true := by
          unfold mapVal; rw [mapGet?_mapSet_self]; rfl
        rw [show mapVal false (mapSet gs.Inventory ItemNotebook true) ItemNotebook = false
          from hf] at this
        exact absurd this (by decide)
  · rw [HandleCommand_safe gs _ h, hS, HandleCommand_safe _ _ rfl, hS]
    rcases safeCodeCase_changes gs "4711" with ⟨hx, -⟩ | ⟨-, hv, he⟩ | ⟨-, -, he⟩
    · exact absurd rfl hx
    · rw [he]
      rcases safeCodeCase_changes
          { gs with
              Clues := mapSet gs.Clues "safe_opened" "true"
              Message := "Click! The safe door opens.\nIt's empty now."
              InputRequired := "safe_code" } "4711" with ⟨hx, -⟩ | ⟨-, -, he2⟩ | ⟨-, hf, -⟩
      · exact absurd rfl hx
      · rw [he2]; exact ⟨rfl, mapSet_mapSet_same _ _ _⟩
      · rw [show mapVal false gs.Inventory ItemOverrideKey = true from hv] at hf
        exact absurd hf (by decide)
    · rw [he]
      rcases safeCodeCase_changes
          { gs with
              Inventory := mapSet gs.Inventory ItemOverrideKey true
              Clues := mapSet gs.Clues "safe_opened" "true"
              Message := "Click! The safe door opens.\nYou find the Manual Override Key inside and take it."
              InputRequired := "safe_code" } "4711" with ⟨hx, -⟩ | ⟨-, -, he2⟩ | ⟨-, hf, -⟩
      · exact absurd rfl hx
      · rw [he2]; exact ⟨rfl, mapSet_mapSet_same _ _ _⟩
      · have : mapVal false (mapSet gs.Inventory ItemOverrideKey true) ItemOverrideKey = true := by
          unfold mapVal; rw [mapGet?_mapSet_self]; rfl
        rw [show mapVal false (mapSet gs.Inventory ItemOverrideKey true) ItemOverrideKey = false
          from hf] at this
        exact absurd this (by decide)
  · have ha' : ToLower a = "overstock" ∨ ToLower a = "683778625" := by
      rcases ha with h1 | h1
      · exact Or.inl h1
      · exact Or.inr (by rw [h1]; rfl)
    have hb' : ToLower b = "overstock" ∨ ToLower b = "683778625" := by
      rcases hb with h1 | h1
      · exact Or.inl h1
      · exact Or.inr (by rw [h1]; rfl)
    rw [HandleCommand_breaker gs _ h, HandleCommand_breaker _ _ rfl]
    rcases breakerCodeCase_changes gs (ToLower a) with ⟨-, -, he⟩ | ⟨hn, -⟩
    · rw [he]
      rcases breakerCodeCase_changes
          { gs with
              Clues := mapSet gs.Clues "door_unlocked" "true"
              Message := (breakerCodeCase gs (ToLower a)).Message
              InputRequired := "breaker_code" } (ToLower b) with ⟨-, -, he2⟩ | ⟨hn, -⟩
      · rw [he2]; exact ⟨rfl, mapSet_mapSet_same _ _ _⟩
      · exact absurd ⟨hb', hk⟩ hn
    · exact absurd ⟨ha', hk⟩ hn

theorem code_grant_idempotent_witness :
    (HandleCommand lockerDialogHolding "8675309").1.Inventory = lockerDialogHolding.Inventory ∧
    (HandleCommand lockerDialogHolding "8675309").1.Message =
      "Click! The locker swings open.\nIt's empty now." :=
  (code_grant_idempotent lockerDialogHolding).1 rfl (by decide)

/-- C30: the input-mode invariant (Input Mode is none, or locker_code at
LockerArea, or safe_code at ManagersOffice, or breaker_code at LoadingDock
with the OverrideKey held) holds for NewGameState(), is preserved by
HandleCommand for every input, and so holds in every state reached from
NewGameState(). -/
theorem input_mode_invariant :
    inputModeOk NewGameState ∧
    (∀ gs line, inputModeOk gs → inputModeOk (HandleCommand gs line).1) ∧
    (∀ lines, inputModeOk (run NewGameState lines)) :=
  ⟨Or.inl rfl, inputModeOk_HandleCommand,
    fun lines => inputModeOk_run lines NewGameState (Or.inl rfl)⟩

theorem input_mode_invariant_witness :
    inputModeOk (HandleCommand atDockWithKey "use key").1 :=
  input_mode_invariant.2.1 atDockWithKey "use key" (Or.inl rfl)

/-- C31 (fails on the code): from the security station and from the manager's
office, without the fact map_details, a go to the loading dock leaves Location
unchanged but ends with "You can't find a way to '...' from here, ..." and
not with the message about the unknown route that the `switch` had set. -/
theorem blocked_go_message_overwritten :
    mapHas (run NewGameState ["go security"]).Clues "map_details" = false ∧
    HandleCommand (run NewGameState ["go security"]) "go loading dock" =
      ({ run NewGameState ["go security"] with
          Message := "You can't find a way to 'loading dock' from here, or you don't know where that is." },
        true) ∧
    (goSwitch (run NewGameState ["go security"]) "loading dock").1.Message =
      "You aren't sure exactly where the loading dock or the specific breaker panel is." ∧
    HandleCommand (run NewGameState ["go security", "go office"]) "go breaker panel" =
      ({ run NewGameState ["go security", "go office"] with
          Message := "You can't find a way to 'breaker panel' from here, or you don't know where that is." },
        true) ∧
    (goSwitch (run NewGameState ["go security", "go office"]) "breaker panel").1.Message =
      "You don't know the specific route to the loading dock from here without the map details." := by
  decide

/-- C32 (fails on the code): with the OverrideKey held after the safe code,
"examine Manual Override Key" gives the environmental text of the manager's
office and not "Key: Labeled 'Manual Override'."; likewise for a held
Scanner; the result is false (Delegated) as claimed, and a held Voucher does
get its detail text. -/
theorem examine_held_key_not_recognised :
    mapGet? (run NewGameState ["go security", "go office", "use 4711", "4711"]).Inventory
      ItemOverrideKey = some true ∧
    HandleCommand (run NewGameState ["go security", "go office", "use 4711", "4711"])
        "examine Manual Override Key" =
      ({ run NewGameState ["go security", "go office", "use 4711", "4711"] with
          Message := "Office: Desk, Corkboard (Card?), Safe. A card is pinned to the board. An inventory sheet is on the desk." },
        false) ∧
    (HandleCommand
        { NewGameState with Location := LocSecurityStation, Inventory := [(ItemScanner, true)] }
        "examine Dale's handheld scanner").1.Message =
      "Dale's body is here. Monitors dark. Scanner nearby? Voucher clutched? Dale clutches a voucher." ∧
    (HandleCommand
        { NewGameState with Location := LocSecurityStation, Inventory := [(ItemVoucher, true)] }
        "examine crumpled employee discount voucher").1.Message =
      "Voucher: Back says AISLE 13 // LAST SCAN." := by
  decide

/-- C33 (as stated, fails): at the loading dock with the door unlocked, two
states that differ only in the message still differ in the message after
"escape": each keeps its own. -/
theorem escape_keeps_message_counterexample :
    readyToEscape "a" = { readyToEscape "b" with Message := "a" } ∧
    (HandleCommand (readyToEscape "a") "escape").1.Message = "a" ∧
    (HandleCommand (readyToEscape "b") "escape").1.Message = "b" := by
  decide

/-- C33 (amended): for two states that differ only in the message, and
whatever the order `names` in which an inventory listing ranges over the
entries, HandleCommand gives the same state and the same result for every
line, unless the line is an escape that succeeds (no dialog active, first word
escape, at the loading dock with the fact door_unlocked at "true"); a
successful escape sets the escaped flag and leaves the message as it was. -/
theorem message_overwritten_unless_escape (gs : GameState) (line m1 m2 : String)
    (names : List String) :
    (¬escapeSucceeds gs line →
      HandleCommandIn names { gs with Message := m1 } line =
        HandleCommandIn names { gs with Message := m2 } line) ∧
    (escapeSucceeds gs line →
      HandleCommandIn names { gs with Message := m1 } line =
        ({ gs with Message := m1, GameOver := true }, true)) := by
  refine ⟨fun h => ?_, fun h => ?_⟩
  · by_cases hl : listsInventory gs line
    · rw [HandleCommandIn_of_listsInventory names { gs with Message := m1 } line hl,
        HandleCommandIn_of_listsInventory names { gs with Message := m2 } line hl]
    · rw [HandleCommandIn_of_not_listsInventory names { gs with Message := m1 } line hl,
        HandleCommandIn_of_not_listsInventory names { gs with Message := m2 } line hl,
        HandleCommand_message gs line m1 h, HandleCommand_message gs line m2 h]
  · rw [HandleCommandIn_of_not_listsInventory names { gs with Message := m1 } line
      (not_listsInventory_of_escapeSucceeds gs line h)]
    exact HandleCommand_of_escapeSucceeds { gs with Message := m1 } line h

theorem message_overwritten_unless_escape_witness :
    HandleCommandIn [ItemCard, ItemVoucher] { holdingVoucherAndCard with Message := "a" }
        "inventory" =
      HandleCommandIn [ItemCard, ItemVoucher] { holdingVoucherAndCard with Message := "b" }
        "inventory" :=
  (message_overwritten_unless_escape holdingVoucherAndCard "inventory" "a" "b"
    [ItemCard, ItemVoucher]).1 (fun h => absurd h.2.2.1 (by decide))

/-- C34: with no dialog active, and whatever the order `names` in which an
inventory listing ranges over the entries, HandleCommand gives the same state
and the same result for a line and for the line with leading and trailing
white space removed and every run of white space between words replaced by
one space; that line is the words of the input rejoined with single spaces,
as "go the office" for "  go \t the   office ". -/
theorem spacing_ignored (gs : GameState) (input : String) (names : List String)
    (hd : ¬dialogActive gs) :
    HandleCommandIn names gs (normalizeSpaces input) = HandleCommandIn names gs input ∧
    normalizeSpaces input = Join (Fields input) " " ∧
    normalizeSpaces "  go \t the   office " = "go the office" := by
  refine ⟨?_, normalizeSpaces_eq input, by decide⟩
  by_cases hl : listsInventory gs input
  · rw [HandleCommandIn_of_listsInventory names gs input hl,
      HandleCommandIn_of_listsInventory names gs _
        ((listsInventory_normalizeSpaces gs input).2 hl)]
  · rw [HandleCommandIn_of_not_listsInventory names gs input hl,
      HandleCommandIn_of_not_listsInventory names gs _
        (fun hc => hl ((listsInventory_normalizeSpaces gs input).1 hc)),
      HandleCommand_of_no_dialog gs _ hd, HandleCommand_of_no_dialog gs _ hd,
      ToLower_normalizeSpaces, dispatch_normalizeSpaces]

theorem spacing_ignored_witness :
    HandleCommandIn [ItemCard, ItemVoucher] holdingVoucherAndCard
        (normalizeSpaces "  Inventory \t ") =
      HandleCommandIn [ItemCard, ItemVoucher] holdingVoucherAndCard "  Inventory \t " :=
  (spacing_ignored holdingVoucherAndCard "  Inventory \t " [ItemCard, ItemVoucher]
    (by unfold dialogActive; decide)).1

/-- C35: with no dialog active, a blank line, or a line whose first word,
lowered, is none of go, g, take, t, use, u, escape, changes only the message:
Location, Inventory, Facts, Input Mode and the escaped flag stay as they are.
For inventory, i, inv the message is the listing GetInventoryDescription
builds, in whatever order `names` its range yields the entries of that state,
so it names every entry; for help, h it is the fixed command summary. -/
theorem other_verbs_change_message_only (gs : GameState) (input : String)
    (names : List String) (hn : names.Perm (mapKeys gs.Inventory))
    (hd : ¬dialogActive gs)
    (hv : ∀ w rest, Fields input = w :: rest →
      ToLower w ∉ ["go", "g", "take", "t", "use", "u", "escape"]) :
    (∃ msg, (HandleCommandIn names gs input).1 = { gs with Message := msg }) ∧
    (∀ w rest, Fields input = w :: rest →
      ToLower w = "inventory" ∨ ToLower w = "i" ∨ ToLower w = "inv" →
      HandleCommandIn names gs input = ({ gs with Message := renderInventory names }, true) ∧
      ∀ k, mapHas gs.Inventory k = true → Contains (renderInventory names) k = true) ∧
    (∀ w rest, Fields input = w :: rest → ToLower w = "help" ∨ ToLower w = "h" →
      HandleCommandIn names gs input =
        ({ gs with
            Message := "Commands: look (l), go [place] (g), examine [item/area] (x), take [item] (t), use [item/code] (u), inventory (i), help (h), escape. \nUse 'examine' or 'look' for more details (handled by AI if available)." },
          true)) := by
  refine ⟨?_, ?_, ?_⟩
  · by_cases hl : listsInventory gs input
    · rw [HandleCommandIn_of_listsInventory names gs input hl]
      exact ⟨_, rfl⟩
    · rw [HandleCommandIn_of_not_listsInventory names gs input hl,
        HandleCommand_of_no_dialog gs input hd]
      apply dispatch_message_only
      intro w rest hf
      rw [Fields_ToLower] at hf
      cases hfi : Fields input with
      | nil => rw [hfi] at hf; exact absurd hf (by simp)
      | cons w0 rest0 =>
        rw [hfi] at hf
        simp only [List.map_cons, List.cons.injEq] at hf
        rw [← hf.1]
        exact hv w0 rest0 hfi
  · intro w rest hf h
    refine ⟨HandleCommandIn_of_listsInventory names gs input
      ⟨hd, ToLower w, rest.map ToLower, Fields_ToLower_cons input w rest hf, h⟩, fun k hk => ?_⟩
    exact Contains_renderInventory names k (hn.symm.subset ((mem_mapKeys _ _).2 hk))
  · intro w rest hf h
    rw [HandleCommandIn_of_not_listsInventory names gs input, HandleCommand_of_no_dialog gs input hd]
    · exact dispatch_help gs _ _ _ (Fields_ToLower_cons input w rest hf) h
    · rintro ⟨-, verb, rest1, hf1, hv1⟩
      rw [Fields_ToLower_cons input w rest hf] at hf1
      have hw : ToLower w = verb := (List.cons.inj hf1).1
      rw [← hw] at hv1
      rcases h with h | h <;> rw [h] at hv1 <;> revert hv1 <;> decide

theorem other_verbs_change_message_only_witness :
    HandleCommandIn [ItemCard, ItemVoucher] holdingVoucherAndCard "  Inventory   please" =
      ({ holdingVoucherAndCard with
          Message := "Inventory: laminated emergency procedure card, crumpled employee discount voucher." },
        true) :=
  ((other_verbs_change_message_only holdingVoucherAndCard "  Inventory   please"
    [ItemCard, ItemVoucher] (by decide) (by unfold dialogActive; decide)
    (by
      intro w rest hf
      have h0 : Fields "  Inventory   please" = ["Inventory", "please"] := by decide
      rw [h0] at hf
      simp only [List.cons.injEq] at hf
      rw [← hf.1]
      decide)).2.1 "Inventory" ["please"] (by decide) (Or.inl (by decide))).1

/-- C36: handleTake changes no field other than Inventory and the message.
Inventory is either unchanged, or it is the previous Inventory followed by one
new entry, for the item the lowered object text names; the latter happens only
when that item had no entry and was listed by GetVisibleItems in the state
before the call, as for the voucher at the security station. -/
theorem take_adds_at_most_one_visible_item (gs : GameState) (o : String) :
    ((∃ msg, handleTake gs o = { gs with Message := msg }) ∨
      (ToLower o ∈ visibleItems gs ∧ Contains (GetVisibleItems gs) (ToLower o) = true ∧
        mapHas gs.Inventory (ToLower o) = false ∧
        ∃ msg, handleTake gs o =
          { gs with Inventory := gs.Inventory ++ [(ToLower o, true)], Message := msg })) ∧
    handleTake atSecurityStation "Crumpled Employee Discount Voucher" =
      { atSecurityStation with
          Inventory := [(ItemVoucher, true)]
          Message := "You take the crumpled employee discount voucher." } := by
  refine ⟨?_, by decide⟩
  rcases handleTake_changes gs o with h | ⟨hg, hn, he⟩
  · exact Or.inl h
  · have hvis := (takeGrants_visible gs (ToLower o) hg hn).1
    refine Or.inr ⟨hvis, Contains_GetVisibleItems gs _ hvis, hn,
      "You take the " ++ ToLower o ++ ".", ?_⟩
    rw [he, mapSet_of_no_entry _ _ _ hn]

theorem take_adds_at_most_one_visible_item_witness :
    handleTake atSecurityStation "Crumpled Employee Discount Voucher" =
      { atSecurityStation with
          Inventory := [(ItemVoucher, true)]
          Message := "You take the crumpled employee discount voucher." } :=
  (take_adds_at_most_one_visible_item atSecurityStation
    "Crumpled Employee Discount Voucher").2

/-- C37: handleGo changes no field other than Location and the message, and
the new Location is the old one or a neighbour of it in the adjacency table;
Escaped has no neighbour and is no location's neighbour, so no command sets
Location to Escaped, and no session from the initial state ends there. -/
theorem go_moves_along_adjacency (gs : GameState) (d : String) :
    (∃ loc msg, handleGo gs d = { gs with Location := loc, Message := msg } ∧
      (loc = gs.Location ∨ loc ∈ neighbours gs.Location)) ∧
    neighbours LocEscaped = [] ∧
    (∀ line, (HandleCommand gs line).1.Location = LocEscaped → gs.Location = LocEscaped) ∧
    (∀ lines, (run NewGameState lines).Location ≠ LocEscaped) := by
  refine ⟨?_, rfl, fun line => HandleCommand_not_to_escaped gs line,
    fun lines => run_not_escaped lines NewGameState (by decide)⟩
  obtain ⟨loc, msg, he, -⟩ := handleGo_frame gs d
  refine ⟨loc, msg, he, ?_⟩
  have hn := handleGo_neighbour gs d
  rw [he] at hn
  exact hn

theorem go_moves_along_adjacency_witness :
    ∃ loc msg, handleGo atSecurityStation "the office" =
        { atSecurityStation with Location := loc, Message := msg } ∧
      (loc = atSecurityStation.Location ∨ loc ∈ neighbours atSecurityStation.Location) :=
  (go_moves_along_adjacency atSecurityStation "the office").1

end Game
